import Mathlib

/-!
Shallow embedding of the `ResponseSession` streaming-state machine from
`src/lib/responses.ts` of the groq-stripe-mcp-chat repository.

The session collects streaming events, keeps a single ordered message array
(inputs + outputs) together with two derived identity maps
(`idToIndex`, `outputIndexToMessageIndex`), and mirrors the raw response
snapshot.  All mutation goes through `handleEvent` (plus `addInput` and the
constructor `Session.init`).

Modelling decisions, each noted at the definition it concerns:
* JS objects become inductive values; the JSON `clone` helper is the identity
  on pure values, so explicit clone calls disappear.
* JS sparse arrays (`arr[i] = v` past the end) become `List (Option _)` with
  `padSet`; reads use `listGetOpt`.
* JS `Map` becomes an association list with last-write-wins `aset`.
* The nondeterministic `makeId` (Date.now/Math.random) becomes a counter
  threaded through the session (`freshCounter`); the code only relies on the
  generated id being a fresh nonempty string.
* The emitter is modelled by per-channel emission counters; listener callbacks
  have no effect on the session itself.
* Of the 30+ event variants the embedding keeps the ones the verified claims
  exercise (lifecycle, queued, output_item added/done, output_text delta/done,
  function_call_arguments delta/done, one mcp status event, error, and the
  generic forward-compatibility shape handled by the `default` branch).
-/

namespace ResponsesModel

/-- Session status: the remote `ResponseStatus` values plus the local "idle". -/
inductive RStatus
  | idle
  | queued
  | inProgress
  | completed
  | failed
  | incomplete
  | cancelled
deriving DecidableEq

/-- The two content-part shapes an output message can hold. -/
inductive ContentKind
  | outputText
  | refusal
deriving DecidableEq

/-- One content part of an output message (`output_text` or `refusal`).
Annotation arrays are omitted: no verified claim concerns them. -/
inductive ContentPart
  | outputText (text : String)
  | refusal (refusal : String)
deriving DecidableEq

def ContentPart.partKind : ContentPart → ContentKind
  | .outputText _ => .outputText
  | .refusal _ => .refusal

/-- The output-item kinds kept by the embedding. -/
inductive OutputKind
  | message
  | functionCall
  | mcpCall
deriving DecidableEq

/-- An output item.  `content` is a sparse array: the source assigns
`message.content[event.content_index] = part` possibly past the end. -/
inductive OutputItem
  | message (id : String) (status : String) (content : List (Option ContentPart))
  | functionCall (id : String) (callId : String) (name : String) (args : String)
      (status : String)
  | mcpCall (id : String) (name : String) (serverLabel : String) (args : String)
deriving DecidableEq

def OutputItem.kind : OutputItem → OutputKind
  | .message _ _ _ => .message
  | .functionCall _ _ _ _ _ => .functionCall
  | .mcpCall _ _ _ _ => .mcpCall

/-- The `id` field every modelled output item carries. -/
def OutputItem.itemId : OutputItem → String
  | .message i _ _ => i
  | .functionCall i _ _ _ _ => i
  | .mcpCall i _ _ _ => i

/-- `item.id = itemId` (the in-place id adoption in `ensureSnapshotOutputItem`). -/
def OutputItem.setItemId : OutputItem → String → OutputItem
  | .message _ st c, i => .message i st c
  | .functionCall _ cid nm a st, i => .functionCall i cid nm a st
  | .mcpCall _ nm sl a, i => .mcpCall i nm sl a

/-- An externally supplied input item; its payload is opaque to the session,
only an optional `id` is inspected (by `registerItemId`). -/
structure InputItem where
  id : Option String
  payload : String
deriving DecidableEq

/-- The payload of a protocol `error` event. -/
structure ErrEvent where
  message : String
  code : Option String
  param : Option String
deriving DecidableEq

/-- The `Response` object carried by lifecycle events and kept as the session
snapshot: id, optional status and the positional output array (sparse). -/
structure RespPayload where
  id : String
  status : Option RStatus
  output : List (Option OutputItem)
deriving DecidableEq

/-- The five grouped lifecycle event kinds of `mutateSnapshot`. -/
inductive LifecycleKind
  | created
  | inProgress
  | completed
  | failed
  | incomplete
deriving DecidableEq

/-- `completed`/`failed`/`incomplete` mark the session ended;
`created`/`in_progress` do not (source line: `this.ended = event.type !== ...`). -/
def LifecycleKind.ends : LifecycleKind → Bool
  | .created => false
  | .inProgress => false
  | .completed => true
  | .failed => true
  | .incomplete => true

/-- The modelled subset of the `ResponseStreamEvent` union.  `otherEvent` is
the generic `{output_index?, item_id?}` shape handled by the `default` branch
of `applyToMessages`. -/
inductive Event
  | lifecycle (kind : LifecycleKind) (response : RespPayload)
  | queued (response : RespPayload)
  | outputItemAdded (outputIndex : Nat) (item : OutputItem)
  | outputItemDone (outputIndex : Nat) (item : OutputItem)
  | outputTextDelta (itemId : String) (outputIndex : Nat) (contentIndex : Nat)
      (delta : String)
  | outputTextDone (itemId : String) (outputIndex : Nat) (contentIndex : Nat)
      (text : String)
  | functionCallArgsDelta (itemId : String) (outputIndex : Nat) (delta : String)
  | functionCallArgsDone (itemId : String) (outputIndex : Nat) (args : String)
  | mcpCallInProgress (outputIndex : Nat) (itemId : Option String)
  | errorEvent (err : ErrEvent)
  | otherEvent (outputIndex : Option Nat) (itemId : Option String)
deriving DecidableEq

/-- One transcript entry: an input message, or an output message carrying the
item, its `outputIndex` and the raw events recorded against it. -/
inductive Message
  | input (item : InputItem)
  | output (item : OutputItem) (outputIndex : Nat) (events : List Event)
deriving DecidableEq

/-- The optional `id` of a transcript entry's item, as read by the shift loop
in `updateMappingsAfterInsertion` (it reads `(message.item as {id?}).id` for
both kinds). -/
def Message.msgItemId : Message → Option String
  | .input it => it.id
  | .output it _ _ => some it.itemId

/-- The whole `ResponseSession` state.  The `*Emits` counters model the number
of emissions on each emitter channel; `freshCounter` models the
nondeterministic id generator. -/
structure Session where
  messages : List Message
  idToIndex : List (String × Nat)
  outputIndexToMessageIndex : List (Nat × Nat)
  responseSnapshot : Option RespPayload
  status : RStatus
  lastError : Option ErrEvent
  ended : Bool
  endEmitted : Bool
  currentResponseId : Option String
  freshCounter : Nat
  eventEmits : Nat
  changeEmits : Nat
  statusEmits : Nat
  errorEmits : Nat
  endEmits : Nat
deriving DecidableEq

/-! ### List and association-list primitives -/

/-- `l[n]` as an option (JS indexing of a dense array). -/
def lget {α : Type _} : List α → Nat → Option α
  | [], _ => none
  | a :: _, 0 => some a
  | _ :: l, n + 1 => lget l n

/-- In-range positional update (out of range: no-op).  Matches every JS use in
the source, which only writes `messages[i]` at existing positions. -/
def lset {α : Type _} : List α → Nat → α → List α
  | [], _, _ => []
  | _ :: l, 0, a => a :: l
  | x :: l, n + 1, a => x :: lset l n a

/-- `Array.prototype.splice(n, 0, a)`: insert before position `n`
(appending when `n` exceeds the length). -/
def insertAt {α : Type _} : Nat → α → List α → List α
  | 0, a, l => a :: l
  | _ + 1, a, [] => [a]
  | n + 1, a, x :: l => x :: insertAt n a l

/-- Read a sparse JS array: a hole or an out-of-range index is `undefined`. -/
def listGetOpt {α : Type _} (l : List (Option α)) (n : Nat) : Option α :=
  match lget l n with
  | some v => v
  | none => none

/-- `arr[n] = v` on a sparse JS array: pads the skipped positions with holes. -/
def padSet {α : Type _} : List (Option α) → Nat → α → List (Option α)
  | [], 0, a => [some a]
  | [], n + 1, a => none :: padSet [] n a
  | _ :: l, 0, a => some a :: l
  | x :: l, n + 1, a => x :: padSet l n a

/-- JS `Map.get`. -/
def aget {α β : Type _} [DecidableEq α] : List (α × β) → α → Option β
  | [], _ => none
  | (k, v) :: l, a => if k = a then some v else aget l a

/-- JS `Map.set` (last write wins; stale bindings for the key are dropped). -/
def aset {α β : Type _} [DecidableEq α] (l : List (α × β)) (k : α) (v : β) :
    List (α × β) :=
  (k, v) :: l.filter (fun p => ¬ p.1 = k)

/-- JS `Map.delete`. -/
def adel {α β : Type _} [DecidableEq α] (l : List (α × β)) (k : α) :
    List (α × β) :=
  l.filter (fun p => ¬ p.1 = k)

/-! ### Content-part helpers (`ensureMessage*` / `ensureSnapshot*`) -/

/-- The `while (content.length <= index) content.push(filler)` loops. -/
def padTo (filler : ContentPart) (content : List (Option ContentPart))
    (index : Nat) : List (Option ContentPart) :=
  content ++ List.replicate (index + 1 - content.length) (some filler)

/-- `ensureMessageContentSlot`: pad with empty `output_text` parts, then
replace the slot when it is a hole or has the wrong part type. -/
def ensureMessageContentSlot (content : List (Option ContentPart)) (index : Nat)
    (kind : ContentKind) : List (Option ContentPart) :=
  let c := padTo (.outputText "") content index
  match listGetOpt c index with
  | some part =>
    if part.partKind = kind then c
    else
      match kind with
      | .outputText => lset c index (some (.outputText ""))
      | .refusal => lset c index (some (.refusal ""))
  | none =>
    match kind with
    | .outputText => lset c index (some (.outputText ""))
    | .refusal => lset c index (some (.refusal ""))

/-- `ensureMessageText` followed by the caller's mutation of `text.text`
(append for delta, overwrite for done), as one pure update. -/
def applyMessageText (content : List (Option ContentPart)) (index : Nat)
    (f : String → String) : List (Option ContentPart) :=
  let c := ensureMessageContentSlot content index .outputText
  match listGetOpt c index with
  | some (.outputText t) => lset c index (some (.outputText (f t)))
  | _ => c

/-- `ensureSnapshotText` (pads with `output_text` parts, replaces a
non-text slot by a fresh one) followed by the caller's text mutation. -/
def applySnapshotText (content : List (Option ContentPart)) (index : Nat)
    (f : String → String) : List (Option ContentPart) :=
  let c := padTo (.outputText "") content index
  match listGetOpt c index with
  | some (.outputText t) => lset c index (some (.outputText (f t)))
  | _ => lset c index (some (.outputText (f "")))

/-! ### Session operations translated from the source -/

/-- `registerItemId`: record `id → index` when the item has a nonempty
string id. -/
def registerItemId (oid : Option String) (index : Nat) (s : Session) : Session :=
  match oid with
  | some i =>
    if i = "" then s
    else { s with idToIndex := aset s.idToIndex i index }
  | none => s

/-- Both loops of `findInsertionPoint` fused into one scan: advance past the
leading inputs, then past anything that is not an output with a strictly
larger `outputIndex`.  (The source's second loop also advances over inputs, so
the fused scan visits exactly the same elements.) -/
def findInsertionFrom (outputIndex : Nat) : List Message → Nat
  | [] => 0
  | .input _ :: rest => findInsertionFrom outputIndex rest + 1
  | .output _ oi _ :: rest =>
    if outputIndex < oi then 0 else findInsertionFrom outputIndex rest + 1

def findInsertionPoint (s : Session) (outputIndex : Nat) : Nat :=
  findInsertionFrom outputIndex s.messages

/-- The renumbering loop of `updateMappingsAfterInsertion`: for every message
from position `i` on, point its `outputIndex` (outputs only) and its item id
(both kinds) at its new position. -/
def updateMapsFrom : List Message → Nat → List (Nat × Nat) →
    List (String × Nat) → List (Nat × Nat) × List (String × Nat)
  | [], _, omap, imap => (omap, imap)
  | m :: rest, i, omap, imap =>
    let omap' := match m with
      | .output _ oi _ => aset omap oi i
      | .input _ => omap
    let imap' := match m.msgItemId with
      | some iid => if iid = "" then imap else aset imap iid i
      | none => imap
    updateMapsFrom rest (i + 1) omap' imap'

/-- `updateMappingsAfterInsertion`. -/
def updateMappingsAfterInsertion (s : Session) (insertionIndex : Nat)
    (newOutputIndex : Nat) : Session :=
  let omap := aset s.outputIndexToMessageIndex newOutputIndex insertionIndex
  let maps := updateMapsFrom (s.messages.drop (insertionIndex + 1))
    (insertionIndex + 1) omap s.idToIndex
  { s with outputIndexToMessageIndex := maps.1, idToIndex := maps.2 }

/-- One step of `resetCurrentResponseOutputs`: drop the id binding of the
output stored at `index` (the source deletes whenever the id is a string,
with no emptiness check). -/
def resetOne (messages : List Message) (imap : List (String × Nat))
    (index : Nat) : List (String × Nat) :=
  match lget messages index with
  | some (.output it _ _) => adel imap it.itemId
  | _ => imap

/-- `resetCurrentResponseOutputs`: clear the `outputIndex` map and delete the
id bindings of every output it indexed. -/
def resetCurrentResponseOutputs (s : Session) : Session :=
  let indices := s.outputIndexToMessageIndex.map (fun p => p.2)
  let imap := indices.foldl (fun im idx => resetOne s.messages im idx) s.idToIndex
  { s with outputIndexToMessageIndex := [], idToIndex := imap }

/-- `makeId`, with the Date.now/Math.random nondeterminism replaced by a
fresh-counter; the session only relies on the result being a nonempty string. -/
def makeId (pfx : String) (s : Session) : String × Session :=
  (pfx ++ "-" ++ toString s.freshCounter, { s with freshCounter := s.freshCounter + 1 })

/-- `createPlaceholderOutput` for the modelled kinds (`itemId ?? makeId`). -/
def createPlaceholderOutput (kind : OutputKind) (itemId : Option String)
    (s : Session) : OutputItem × Session :=
  let idAnd := match itemId with
    | some iid => (iid, s)
    | none => makeId (match kind with
        | .message => "message"
        | .functionCall => "function_call"
        | .mcpCall => "mcp_call") s
  match kind with
  | .message => (.message idAnd.1 "in_progress" [], idAnd.2)
  | .functionCall => (.functionCall idAnd.1 idAnd.1 "" "" "in_progress", idAnd.2)
  | .mcpCall => (.mcpCall idAnd.1 "" "" "", idAnd.2)

/-- `setSnapshotOutput`: clone the item into the snapshot's (sparse) output
array; no-op without a snapshot. -/
def setSnapshotOutput (s : Session) (outputIndex : Nat) (item : OutputItem) :
    Session :=
  match s.responseSnapshot with
  | none => s
  | some r =>
    { s with responseSnapshot := some { r with output := padSet r.output outputIndex item } }

/-- In-place mutation of an item already stored in the snapshot array (the
source mutates the object through the reference, no padding involved). -/
def setSnapshotOutputRaw (s : Session) (outputIndex : Nat) (item : OutputItem) :
    Session :=
  match s.responseSnapshot with
  | none => s
  | some r =>
    { s with responseSnapshot := some { r with output := lset r.output outputIndex (some item) } }

/-- `this.responseSnapshot.output[outputIndex]`. -/
def snapshotOutputAt (s : Session) (outputIndex : Nat) : Option OutputItem :=
  match s.responseSnapshot with
  | none => none
  | some r => listGetOpt r.output outputIndex

/-- Does the snapshot slot at `outputIndex` already hold an item of `kind`?
Exactly in this case `ensureSnapshotOutputItem` returns the object stored in
the snapshot array itself, so a subsequent in-place mutation by the caller
reaches the snapshot; otherwise the caller receives a placeholder whose
stored copy is a clone (`setSnapshotOutput` clones on store), i.e. a
detached object. -/
def snapshotSlotAttached (s : Session) (outputIndex : Nat)
    (kind : OutputKind) : Bool :=
  match snapshotOutputAt s outputIndex with
  | some it => if it.kind = kind then true else false
  | none => false

/-- The shared else-branch of `ensureSnapshotOutputItem` (missing item or
kind mismatch): build a placeholder, store it, register its id *against the
output index*. -/
def installSnapshotPlaceholder (s : Session) (outputIndex : Nat)
    (kind : OutputKind) (itemId : Option String) : OutputItem × Session :=
  let phAnd := createPlaceholderOutput kind itemId s
  let s1 := setSnapshotOutput phAnd.2 outputIndex phAnd.1
  let s2 := registerItemId (some phAnd.1.itemId) outputIndex s1
  (phAnd.1, s2)

/-- `ensureSnapshotOutputItem`.  Note the quirk kept from the source: the
trailing `registerItemId(item, outputIndex)` records the *output index*, not
the transcript position (callers repair the binding via `ensureOutputEntry`). -/
def ensureSnapshotOutputItem (s : Session) (outputIndex : Nat)
    (kind : OutputKind) (itemId : Option String) : Option OutputItem × Session :=
  match s.responseSnapshot with
  | none => (none, s)
  | some r =>
    match listGetOpt r.output outputIndex with
    | some item =>
      if item.kind = kind then
        let item2 := match itemId with
          | some iid =>
            if iid = "" then item
            else if item.itemId = iid then item else item.setItemId iid
          | none => item
        let s1 := setSnapshotOutputRaw s outputIndex item2
        let s2 := registerItemId (some item2.itemId) outputIndex s1
        (some item2, s2)
      else
        let ps := installSnapshotPlaceholder s outputIndex kind itemId
        (some ps.1, ps.2)
    | none =>
      let ps := installSnapshotPlaceholder s outputIndex kind itemId
      (some ps.1, ps.2)

/-- The insertion arm shared verbatim by `ensureOutputEntry` and
`ensureOutputEntryFromSnapshot`: splice a fresh entry in at
`findInsertionPoint`, renumber the shifted mappings, register the id. -/
def insertNewOutputEntry (s : Session) (item : OutputItem) (outputIndex : Nat) :
    Nat × Session :=
  let k := findInsertionPoint s outputIndex
  let s1 := { s with messages := insertAt k (.output item outputIndex []) s.messages }
  let s2 := updateMappingsAfterInsertion s1 k outputIndex
  let s3 := registerItemId (some item.itemId) k s2
  (k, s3)

/-- `ensureOutputEntry`: reuse the entry the `outputIndex` map points at
(overwriting its item and `outputIndex`), else insert a new entry. -/
def ensureOutputEntry (s : Session) (item : OutputItem) (outputIndex : Nat) :
    Nat × Session :=
  match aget s.outputIndexToMessageIndex outputIndex with
  | some existingIndex =>
    match lget s.messages existingIndex with
    | some (.output _ _ evs) =>
      let s1 := { s with
        messages := lset s.messages existingIndex (.output item outputIndex evs) }
      let s2 := registerItemId (some item.itemId) existingIndex s1
      (existingIndex, s2)
    | _ => insertNewOutputEntry s item outputIndex
  | none => insertNewOutputEntry s item outputIndex

/-- `ensureOutputItemPresence`: materialize the snapshot item and mirror it
into the transcript. -/
def ensureOutputItemPresence (s : Session) (outputIndex : Nat)
    (kind : OutputKind) (itemId : Option String) : Option Nat × Session :=
  match ensureSnapshotOutputItem s outputIndex kind itemId with
  | (none, s1) => (none, s1)
  | (some it, s1) =>
    let ks := ensureOutputEntry s1 it outputIndex
    (some ks.1, ks.2)

/-- Is the transcript entry at `k` an output message? -/
def isOutputAt (s : Session) (k : Nat) : Bool :=
  match lget s.messages k with
  | some (.output _ _ _) => true
  | _ => false

/-- `findOutputEntry`: id lookup first (ids are truthy strings), then the
positional lookup; either must land on an output entry. -/
def findOutputEntryIdx (s : Session) (itemId : Option String)
    (outputIndex : Option Nat) : Option Nat :=
  let byId := match itemId with
    | some iid =>
      if iid = "" then none
      else
        match aget s.idToIndex iid with
        | some k => if isOutputAt s k then some k else none
        | none => none
    | none => none
  match byId with
  | some k => some k
  | none =>
    match outputIndex with
    | some oi =>
      match aget s.outputIndexToMessageIndex oi with
      | some k => if isOutputAt s k then some k else none
      | none => none
    | none => none

/-- `entry.events.push(event)` for the entry at position `k`. -/
def pushEventAt (s : Session) (k : Nat) (ev : Event) : Session :=
  match lget s.messages k with
  | some (.output it oi evs) =>
    { s with messages := lset s.messages k (.output it oi (evs ++ [ev])) }
  | _ => s

/-- `entry.item = ...` for the output entry at position `k`. -/
def modifyEntryItem (s : Session) (k : Nat) (f : OutputItem → OutputItem) :
    Session :=
  match lget s.messages k with
  | some (.output it oi evs) =>
    { s with messages := lset s.messages k (.output (f it) oi evs) }
  | _ => s

/-- `ensureOutputEntryFromSnapshot`: adopt the snapshot's item into the
existing entry for that `outputIndex`, else insert a new entry. -/
def ensureOutputEntryFromSnapshot (s : Session) (outputIndex : Nat) :
    Option Nat × Session :=
  match snapshotOutputAt s outputIndex with
  | none => (none, s)
  | some it =>
    match aget s.outputIndexToMessageIndex outputIndex with
    | some ei =>
      match lget s.messages ei with
      | some (.output _ oi evs) =>
        let s1 := { s with messages := lset s.messages ei (.output it oi evs) }
        let s2 := registerItemId (some it.itemId) ei s1
        (some ei, s2)
      | _ =>
        let ks := insertNewOutputEntry s it outputIndex
        (some ks.1, ks.2)
    | none =>
      let ks := insertNewOutputEntry s it outputIndex
      (some ks.1, ks.2)

/-- The tail of `recordOutputEvent` once the by-id shortcut failed: go through
the snapshot, push the event, and re-register the entry's id. -/
def recordViaSnapshot (s : Session) (outputIndex : Option Nat)
    (itemId : Option String) (ev : Event) : Session :=
  match outputIndex with
  | none => s
  | some oi =>
    match ensureOutputEntryFromSnapshot s oi with
    | (none, s1) => s1
    | (some k, s1) =>
      let s2 := pushEventAt s1 k ev
      match itemId with
      | some iid =>
        if iid = "" then s2
        else
          let idx := match aget s2.outputIndexToMessageIndex oi with
            | some v => v
            | none => k
          let oid := match lget s2.messages k with
            | some (.output it _ _) => some it.itemId
            | _ => none
          registerItemId oid idx s2
      | none => s2

/-- `recordOutputEvent`. -/
def recordOutputEvent (s : Session) (outputIndex : Option Nat)
    (itemId : Option String) (ev : Event) : Session :=
  let byId := match itemId with
    | some iid => if iid = "" then none else aget s.idToIndex iid
    | none => none
  match byId with
  | some k =>
    if isOutputAt s k then pushEventAt s k ev
    else recordViaSnapshot s outputIndex itemId ev
  | none => recordViaSnapshot s outputIndex itemId ev

/-- The `forEach` of `syncOutputsFromSnapshot` over positions `i, i+1, ...`
(`n` positions left). -/
def syncLoop : Nat → Nat → Session → Session
  | _, 0, s => s
  | i, n + 1, s => syncLoop (i + 1) n (ensureOutputEntryFromSnapshot s i).2

/-- `syncOutputsFromSnapshot`. -/
def syncOutputsFromSnapshot (s : Session) : Session :=
  match s.responseSnapshot with
  | none => s
  | some r => syncLoop 0 r.output.length s

/-- The `response.output_text.delta` / `.done` arm of `mutateSnapshot`:
materialize the snapshot message, mirror it into the transcript, then update
the text of the addressed content part (`f` is append for delta, a constant
for done).  The caller mutates the item returned by
`ensureSnapshotOutputItem` through its reference; that mutation reaches the
snapshot only when the item was found in (and thus aliases) the snapshot
slot — `snapshotSlotAttached` on the pre-state.  A freshly installed
placeholder is stored as a clone and the caller holds the detached original,
so the text update is lost to the snapshot. -/
def snapshotTextStep (s : Session) (oi : Nat) (iid : String) (c : Nat)
    (f : String → String) : Session :=
  match ensureSnapshotOutputItem s oi .message (some iid) with
  | (none, s1) => s1
  | (some item, s1) =>
    match item with
    | .message mid mst content =>
      let s2 := (ensureOutputItemPresence s1 oi .message (some iid)).2
      if snapshotSlotAttached s oi .message then
        setSnapshotOutputRaw s2 oi (.message mid mst (applySnapshotText content c f))
      else s2
    | _ => s1

/-- The `response.function_call_arguments.delta` / `.done` arm of
`mutateSnapshot`; the arguments update persists in the snapshot only in the
aliased (found-in-slot) case, exactly as for the text arm. -/
def snapshotFnArgsStep (s : Session) (oi : Nat) (iid : String)
    (f : String → String) : Session :=
  match ensureSnapshotOutputItem s oi .functionCall (some iid) with
  | (none, s1) => s1
  | (some item, s1) =>
    match item with
    | .functionCall fid cid nm args st =>
      let s2 := (ensureOutputItemPresence s1 oi .functionCall (some iid)).2
      if snapshotSlotAttached s oi .functionCall then
        setSnapshotOutputRaw s2 oi (.functionCall fid cid nm (f args) st)
      else s2
    | _ => s1

/-- `mutateSnapshot`. -/
def mutateSnapshot (ev : Event) (s : Session) : Session :=
  match ev with
  | .lifecycle kind r =>
    let s1 :=
      if kind = LifecycleKind.created ∨ (¬ r.id = "" ∧ ¬ s.currentResponseId = some r.id)
      then resetCurrentResponseOutputs s
      else s
    let s2 := { s1 with
      currentResponseId := some r.id,
      responseSnapshot := some r,
      status := r.status.getD .idle,
      ended := kind.ends }
    syncOutputsFromSnapshot s2
  | .outputItemAdded oi item => setSnapshotOutput s oi item
  | .outputItemDone oi item => setSnapshotOutput s oi item
  | .outputTextDelta iid oi c d => snapshotTextStep s oi iid c (fun t => t ++ d)
  | .outputTextDone iid oi c txt => snapshotTextStep s oi iid c (fun _ => txt)
  | .functionCallArgsDelta iid oi d => snapshotFnArgsStep s oi iid (fun a => a ++ d)
  | .functionCallArgsDone iid oi args => snapshotFnArgsStep s oi iid (fun _ => args)
  | .queued _ => s
  | .mcpCallInProgress _ _ => s
  | .errorEvent _ => s
  | .otherEvent _ _ => s

/-- The `response.output_text.delta` / `.done` arm of `applyToMessages`:
resolve the entry (creating it when needed), and only when it holds a message
item, apply the text update and record the event. -/
def messageTextStep (s : Session) (iid : String) (oi : Nat) (c : Nat)
    (f : String → String) (ev : Event) : Session :=
  let found := match findOutputEntryIdx s (some iid) (some oi) with
    | some k => (some k, s)
    | none => ensureOutputItemPresence s oi .message (some iid)
  match found with
  | (none, s1) => s1
  | (some k, s1) =>
    match lget s1.messages k with
    | some (.output (.message mid mst content) oi2 evs) =>
      let s2 := { s1 with
        messages := lset s1.messages k
          (.output (.message mid mst (applyMessageText content c f)) oi2 evs) }
      pushEventAt s2 k ev
    | _ => s1

/-- The `response.function_call_arguments.delta` / `.done` arm of
`applyToMessages`. -/
def messageFnArgsStep (s : Session) (iid : String) (oi : Nat)
    (f : String → String) (ev : Event) : Session :=
  let found := match findOutputEntryIdx s (some iid) (some oi) with
    | some k => (some k, s)
    | none => ensureOutputItemPresence s oi .functionCall (some iid)
  match found with
  | (none, s1) => s1
  | (some k, s1) =>
    match lget s1.messages k with
    | some (.output (.functionCall fid cid nm args st) oi2 evs) =>
      let s2 := { s1 with
        messages := lset s1.messages k
          (.output (.functionCall fid cid nm (f args) st) oi2 evs) }
      pushEventAt s2 k ev
    | _ => s1

/-- `applyToMessages`. -/
def applyToMessages (ev : Event) (s : Session) : Session :=
  match ev with
  | .outputItemAdded oi item =>
    let ks := ensureOutputEntry s item oi
    pushEventAt ks.2 ks.1 ev
  | .outputItemDone oi item =>
    let ks := ensureOutputEntry s item oi
    let s1 := modifyEntryItem ks.2 ks.1 (fun _ => item)
    pushEventAt s1 ks.1 ev
  | .outputTextDelta iid oi c d => messageTextStep s iid oi c (fun t => t ++ d) ev
  | .outputTextDone iid oi c txt => messageTextStep s iid oi c (fun _ => txt) ev
  | .functionCallArgsDelta iid oi d =>
    messageFnArgsStep s iid oi (fun a => a ++ d) ev
  | .functionCallArgsDone iid oi args =>
    messageFnArgsStep s iid oi (fun _ => args) ev
  | .mcpCallInProgress oi iid =>
    let s1 := (ensureOutputItemPresence s oi .mcpCall iid).2
    recordOutputEvent s1 (some oi) iid ev
  | .otherEvent oi iid =>
    match oi with
    | some o => recordOutputEvent s (some o) iid ev
    | none => s
  | .lifecycle _ _ => s
  | .queued _ => s
  | .errorEvent _ => s

/-- `emitChange`: bump the change/status channels, and fire the terminal
`end` channel once, the first time the session is ended. -/
def emitChange (s : Session) : Session :=
  let s1 := { s with changeEmits := s.changeEmits + 1, statusEmits := s.statusEmits + 1 }
  if s1.ended && !s1.endEmitted then
    { s1 with endEmitted := true, endEmits := s1.endEmits + 1 }
  else s1

/-- `handleEvent`. -/
def handleEvent (ev : Event) (s : Session) : Session :=
  let s1 := { s with eventEmits := s.eventEmits + 1 }
  let s2 := mutateSnapshot ev s1
  let s3 := applyToMessages ev s2
  let s4 := match ev with
    | .errorEvent e =>
      { s3 with lastError := some e, ended := true, errorEmits := s3.errorEmits + 1 }
    | _ => s3
  let s5 := match ev with
    | .queued _ => { s4 with status := RStatus.queued }
    | _ => s4
  emitChange s5

/-- `addInput`: append the (cloned) input, register its id, notify. -/
def addInput (s : Session) (input : InputItem) : Session :=
  let index := s.messages.length
  let s1 := { s with messages := s.messages ++ [Message.input input] }
  let s2 := registerItemId input.id index s1
  emitChange s2

/-- The freshly constructed, empty session. -/
def emptySession : Session :=
  { messages := []
    idToIndex := []
    outputIndexToMessageIndex := []
    responseSnapshot := none
    status := .idle
    lastError := none
    ended := false
    endEmitted := false
    currentResponseId := none
    freshCounter := 0
    eventEmits := 0
    changeEmits := 0
    statusEmits := 0
    errorEmits := 0
    endEmits := 0 }

/-- The constructor: seed the inputs, then adopt and materialize the optional
prior snapshot. -/
def Session.init (inputs : List InputItem) (response : Option RespPayload) :
    Session :=
  let s := inputs.foldl addInput emptySession
  match response with
  | none => s
  | some r =>
    syncOutputsFromSnapshot
      { s with responseSnapshot := some r, status := r.status.getD .idle }

/-- Construct a session and feed it a list of events in order. -/
def runSession (inputs : List InputItem) (response : Option RespPayload)
    (events : List Event) : Session :=
  events.foldl (fun t ev => handleEvent ev t) (Session.init inputs response)

/-- An external interaction: appending an input or ingesting one event. -/
inductive Action
  | add (input : InputItem)
  | handle (ev : Event)

def stepAction (s : Session) : Action → Session
  | .add i => addInput s i
  | .handle ev => handleEvent ev s

/-! ### Read surface / projections used by the claim statements -/

/-- `getStatus`. -/
def getStatus (s : Session) : RStatus := s.status

/-- `getError`. -/
def getError (s : Session) : Option ErrEvent := s.lastError

/-- The `outputIndex` fields of the transcript's output messages, in
transcript order. -/
def outputIndicesOf : List Message → List Nat
  | [] => []
  | .input _ :: rest => outputIndicesOf rest
  | .output _ oi _ :: rest => oi :: outputIndicesOf rest

/-- The transcript's output messages are sorted by ascending `outputIndex`. -/
def OutputsSorted (s : Session) : Prop :=
  List.Pairwise (· ≤ ·) (outputIndicesOf s.messages)

/-- The text stored in the snapshot at output position `oi`, content part `c`. -/
def snapshotTextAt (s : Session) (oi c : Nat) : Option String :=
  match snapshotOutputAt s oi with
  | some (.message _ _ content) =>
    match listGetOpt content c with
    | some (.outputText t) => some t
    | _ => none
  | _ => none

/-- The text stored in the transcript entry at position `k`, content part `c`. -/
def transcriptTextAt (s : Session) (k c : Nat) : Option String :=
  match lget s.messages k with
  | some (.output (.message _ _ content) _ _) =>
    match listGetOpt content c with
    | some (.outputText t) => some t
    | _ => none
  | _ => none

/-- The kind of the item stored in the snapshot at output position `oi`. -/
def snapshotKindAt (s : Session) (oi : Nat) : Option OutputKind :=
  match snapshotOutputAt s oi with
  | some it => some it.kind
  | none => none

/-- The kind of the item held by the transcript entry at position `k`. -/
def outputKindAt (s : Session) (k : Nat) : Option OutputKind :=
  match lget s.messages k with
  | some (.output it _ _) => some it.kind
  | _ => none

/-- The first `k` transcript positions hold input messages. -/
def FrontInputs (k : Nat) (s : Session) : Prop :=
  ∀ p, p < k → (match lget s.messages p with
    | some (.input _) => true
    | _ => false) = true

/-- Events that put the session in an ended state (terminal lifecycle events
and the protocol error event). -/
def endsSession : Event → Bool
  | .lifecycle kind _ => kind.ends
  | .errorEvent _ => true
  | _ => false

/-- Frame predicate: `t` differs from `s` at most in the transcript and the
two identity maps. -/
def OnlyMaps (s t : Session) : Prop :=
  ∃ M I O, t = { s with
    messages := M, idToIndex := I, outputIndexToMessageIndex := O }

/-- Frame predicate: `t` differs from `s` at most in the transcript, the
identity maps, the snapshot and the id counter. -/
def OnlyData (s t : Session) : Prop :=
  ∃ M I O R F, t = { s with
    messages := M, idToIndex := I, outputIndexToMessageIndex := O,
    responseSnapshot := R, freshCounter := F }

/-- Frame predicate: `t` agrees with `s` on the last error, the end-emission
state and all emitter counters. -/
def OnlyMutable (s t : Session) : Prop :=
  ∃ M I O R F St E C, t = { s with
    messages := M, idToIndex := I, outputIndexToMessageIndex := O,
    responseSnapshot := R, freshCounter := F, status := St, ended := E,
    currentResponseId := C }

/-! ### Concrete fixtures used by witnesses and counterexamples -/

/-- A small output message item with a numbered id. -/
def sampleItem (n : Nat) : OutputItem :=
  .message ("m" ++ toString n) "in_progress" []

/-- A response carrying one in-progress output message with id `m1`. -/
def respMsg : RespPayload :=
  ⟨"r1", some .inProgress, [some (.message "m1" "in_progress" [])]⟩

/-- A response carrying one function call item at output position 0. -/
def respFC : RespPayload :=
  ⟨"r1", some .inProgress, [some (.functionCall "f1" "f1" "tool" "" "in_progress")]⟩

/-- A response with two output messages (id `ra`). -/
def respA : RespPayload :=
  ⟨"ra", some .inProgress, [some (sampleItem 0), some (sampleItem 1)]⟩

/-- A response whose id is the empty string. -/
def respNoId : RespPayload := ⟨"", some .inProgress, [some (sampleItem 0)]⟩

/-- A response with a fresh nonempty id `rb`. -/
def respB : RespPayload := ⟨"rb", some .inProgress, [some (sampleItem 0)]⟩

/-- A response with no outputs yet. -/
def respEmpty : RespPayload := ⟨"r1", some .inProgress, []⟩

/-- A completed response. -/
def respDone : RespPayload := ⟨"r1", some .completed, []⟩

/-- A sample input item. -/
def inputA : InputItem := ⟨some "u1", "hello"⟩

/-- C3 counterexample state: a session holding a function call at output
position 0 in both projections. -/
def c3Before : Session := runSession [] none [.lifecycle .created respFC]

/-- C3 counterexample state after a kind-mismatched text delta. -/
def c3After : Session := handleEvent (.outputTextDelta "m1" 0 0 "x") c3Before

/-- C6 counterexample state: tracked response id `ra`, outputs 0 and 1
indexed. -/
def c6Before : Session := runSession [] none [.lifecycle .created respA]

/-- C6 counterexample state after an `in_progress` event whose response id is
the empty string (differing from the tracked `ra`). -/
def c6After : Session := handleEvent (.lifecycle .inProgress respNoId) c6Before

/-- C7 witness state: a placeholder mcp call discovered via an event carrying
only an output index (no item id). -/
def c7Mid : Session :=
  runSession [] none [.lifecycle .created respEmpty, .mcpCallInProgress 0 none]

/-- Claim C2/C7 precondition: the session tracks an output message with id
`i` at output position `oi`, mirrored at transcript position `k`: the
snapshot holds a message with that id at `oi`, the `outputIndex` map points
`oi` at `k`, and position `k` holds an output entry. -/
def C2Ready (s : Session) (i : String) (oi k : Nat) : Prop :=
  ∃ r st content item0 oiK evs,
    s.responseSnapshot = some r ∧
    listGetOpt r.output oi = some (OutputItem.message i st content) ∧
    aget s.outputIndexToMessageIndex oi = some k ∧
    lget s.messages k = some (Message.output item0 oiK evs)

/-- Every binding of the `outputIndex` map points at a transcript entry that
is an output carrying exactly that `outputIndex`. -/
def OmapValid (s : Session) : Prop :=
  ∀ oi k, aget s.outputIndexToMessageIndex oi = some k →
    ∃ it evs, lget s.messages k = some (Message.output it oi evs)

/-- The sortedness invariant together with the map-consistency that sustains
it across in-place overwrites. -/
def SessionInv (s : Session) : Prop := OutputsSorted s ∧ OmapValid s

/-- Frame: `t` has the same transcript and `outputIndex` map as `s`. -/
def MOFrame (s t : Session) : Prop :=
  t.messages = s.messages ∧
  t.outputIndexToMessageIndex = s.outputIndexToMessageIndex

/-- `t` agrees with `s` on every transcript position below `k`. -/
def PrefixKept (k : Nat) (s t : Session) : Prop :=
  ∀ p, p < k → lget t.messages p = lget s.messages p

/-! ### Theorems -/

/-! #### Primitive lemmas about the list and map helpers -/

@[simp] theorem lget_nil {α : Type _} (n : Nat) : lget ([] : List α) n = none := by
  cases n <;> rfl

@[simp] theorem lget_cons_zero {α : Type _} (a : α) (l : List α) :
    lget (a :: l) 0 = some a := rfl

@[simp] theorem lget_cons_succ {α : Type _} (a : α) (l : List α) (n : Nat) :
    lget (a :: l) (n + 1) = lget l n := rfl

theorem lget_some_lt {α : Type _} :
    ∀ (l : List α) (n : Nat) (a : α), lget l n = some a → n < l.length := by
  intro l
  induction l with
  | nil => intro n a h; simp [lget] at h
  | cons x xs ih =>
    intro n a h
    cases n with
    | zero => simp
    | succ m =>
      simp only [lget_cons_succ] at h
      have := ih m a h
      simp only [List.length_cons]
      omega

theorem lget_lt_isSome {α : Type _} :
    ∀ (l : List α) (n : Nat), n < l.length → ∃ a, lget l n = some a := by
  intro l
  induction l with
  | nil => intro n h; simp at h
  | cons x xs ih =>
    intro n h
    cases n with
    | zero => exact ⟨x, rfl⟩
    | succ m => exact ih m (by simpa using Nat.lt_of_succ_lt_succ h)

theorem lget_append_lt {α : Type _} :
    ∀ (l l2 : List α) (n : Nat), n < l.length → lget (l ++ l2) n = lget l n := by
  intro l
  induction l with
  | nil => intro l2 n h; simp at h
  | cons x xs ih =>
    intro l2 n h
    cases n with
    | zero => rfl
    | succ m => simpa using ih l2 m (by simpa using Nat.lt_of_succ_lt_succ h)

@[simp] theorem lset_nil {α : Type _} (n : Nat) (a : α) :
    lset ([] : List α) n a = [] := rfl

@[simp] theorem lset_length {α : Type _} :
    ∀ (l : List α) (n : Nat) (a : α), (lset l n a).length = l.length := by
  intro l
  induction l with
  | nil => intro n a; rfl
  | cons x xs ih =>
    intro n a
    cases n with
    | zero => rfl
    | succ m => simp [lset, ih]

theorem lget_lset_self {α : Type _} :
    ∀ (l : List α) (n : Nat) (a : α), n < l.length → lget (lset l n a) n = some a := by
  intro l
  induction l with
  | nil => intro n a h; simp at h
  | cons x xs ih =>
    intro n a h
    cases n with
    | zero => rfl
    | succ m => exact ih m a (by simpa using Nat.lt_of_succ_lt_succ h)

theorem lget_lset_ne {α : Type _} :
    ∀ (l : List α) (n m : Nat) (a : α), ¬ m = n → lget (lset l n a) m = lget l m := by
  intro l
  induction l with
  | nil => intro n m a _; rfl
  | cons x xs ih =>
    intro n m a h
    cases n with
    | zero =>
      cases m with
      | zero => exact absurd rfl h
      | succ m' => rfl
    | succ n' =>
      cases m with
      | zero => rfl
      | succ m' => simpa using ih n' m' a (by intro hc; exact h (by omega))

theorem lset_eq_of_lget {α : Type _} :
    ∀ (l : List α) (n : Nat) (a : α), lget l n = some a → lset l n a = l := by
  intro l
  induction l with
  | nil => intro n a h; simp [lget] at h
  | cons x xs ih =>
    intro n a h
    cases n with
    | zero => simp [lget] at h; simp [lset, h]
    | succ m => simp only [lget_cons_succ] at h; simp [lset, ih m a h]

theorem insertAt_length {α : Type _} :
    ∀ (n : Nat) (a : α) (l : List α), n ≤ l.length →
      (insertAt n a l).length = l.length + 1 := by
  intro n
  induction n with
  | zero => intro a l _; cases l <;> rfl
  | succ m ih =>
    intro a l h
    cases l with
    | nil => simp at h
    | cons x xs => simp [insertAt, ih a xs (by simpa using Nat.le_of_succ_le_succ h)]

theorem lget_insertAt_lt {α : Type _} :
    ∀ (n : Nat) (a : α) (l : List α) (p : Nat), p < n → n ≤ l.length →
      lget (insertAt n a l) p = lget l p := by
  intro n
  induction n with
  | zero => intro a l p h _; omega
  | succ m ih =>
    intro a l p h hlen
    cases l with
    | nil => simp at hlen
    | cons x xs =>
      cases p with
      | zero => rfl
      | succ q =>
        simpa [insertAt] using
          ih a xs q (by omega) (by simpa using Nat.le_of_succ_le_succ hlen)

theorem lget_insertAt_self {α : Type _} :
    ∀ (n : Nat) (a : α) (l : List α), n ≤ l.length →
      lget (insertAt n a l) n = some a := by
  intro n
  induction n with
  | zero => intro a l _; cases l <;> rfl
  | succ m ih =>
    intro a l h
    cases l with
    | nil => simp at h
    | cons x xs =>
      simpa [insertAt] using ih a xs (by simpa using Nat.le_of_succ_le_succ h)

theorem lget_insertAt_ge {α : Type _} :
    ∀ (n : Nat) (a : α) (l : List α) (p : Nat), n ≤ p → n ≤ l.length →
      lget (insertAt n a l) (p + 1) = lget l p := by
  intro n
  induction n with
  | zero =>
    intro a l p _ _
    cases l <;> rfl
  | succ m ih =>
    intro a l p h hlen
    cases l with
    | nil => simp at hlen
    | cons x xs =>
      cases p with
      | zero => omega
      | succ q =>
        simpa [insertAt] using
          ih a xs q (by omega) (by simpa using Nat.le_of_succ_le_succ hlen)

@[simp] theorem aget_nil {α β : Type _} [DecidableEq α] (k : α) :
    aget ([] : List (α × β)) k = none := rfl

@[simp] theorem aget_cons {α β : Type _} [DecidableEq α] (a : α) (b : β)
    (l : List (α × β)) (k : α) :
    aget ((a, b) :: l) k = if a = k then some b else aget l k := rfl

theorem adel_cons_eq {α β : Type _} [DecidableEq α] (a : α) (b : β)
    (rest : List (α × β)) (k : α) (h : a = k) :
    adel ((a, b) :: rest) k = adel rest k := by
  simp [adel, List.filter_cons, h]

theorem adel_cons_ne {α β : Type _} [DecidableEq α] (a : α) (b : β)
    (rest : List (α × β)) (k : α) (h : ¬ a = k) :
    adel ((a, b) :: rest) k = (a, b) :: adel rest k := by
  simp [adel, List.filter_cons, h]

theorem aget_adel_ne {α β : Type _} [DecidableEq α] :
    ∀ (m : List (α × β)) (k k' : α), ¬ k' = k →
      aget (adel m k) k' = aget m k' := by
  intro m
  induction m with
  | nil => intro k k' _; rfl
  | cons p rest ih =>
    intro k k' h
    obtain ⟨a, b⟩ := p
    by_cases hak : a = k
    · rw [adel_cons_eq a b rest k hak, ih k k' h, aget_cons,
        if_neg (fun hc => h (hc.symm.trans hak))]
    · rw [adel_cons_ne a b rest k hak, aget_cons, aget_cons]
      by_cases hak' : a = k'
      · rw [if_pos hak', if_pos hak']
      · rw [if_neg hak', if_neg hak', ih k k' h]

theorem aset_eq_cons_adel {α β : Type _} [DecidableEq α] (m : List (α × β))
    (k : α) (v : β) : aset m k v = (k, v) :: adel m k := rfl

theorem aget_aset_self {α β : Type _} [DecidableEq α] (m : List (α × β))
    (k : α) (v : β) : aget (aset m k v) k = some v := by
  rw [aset_eq_cons_adel, aget_cons, if_pos rfl]

theorem aget_aset_ne {α β : Type _} [DecidableEq α] (m : List (α × β))
    (k k' : α) (v : β) (h : ¬ k' = k) : aget (aset m k v) k' = aget m k' := by
  rw [aset_eq_cons_adel, aget_cons, if_neg (fun hc => h hc.symm)]
  exact aget_adel_ne m k k' h

theorem aget_aset_isSome {α β : Type _} [DecidableEq α] (m : List (α × β))
    (k k' : α) (v : β) (h : (aget m k').isSome = true) :
    (aget (aset m k v) k').isSome = true := by
  by_cases hk : k' = k
  · subst hk; simp [aget_aset_self]
  · rw [aget_aset_ne m k k' v hk]; exact h

theorem aget_mem {α β : Type _} [DecidableEq α] :
    ∀ (m : List (α × β)) (k : α) (v : β), aget m k = some v → (k, v) ∈ m := by
  intro m
  induction m with
  | nil => intro k v h; simp [aget] at h
  | cons p rest ih =>
    intro k v h
    obtain ⟨a, b⟩ := p
    rw [aget_cons] at h
    by_cases hpk : a = k
    · rw [if_pos hpk] at h
      have hbv : b = v := by injection h
      rw [List.mem_cons]
      left
      rw [hpk, hbv]
    · rw [if_neg hpk] at h
      exact List.mem_cons_of_mem _ (ih k v h)

theorem mem_aset_elim {α β : Type _} [DecidableEq α] (m : List (α × β))
    (k : α) (v : β) (p : α × β) (h : p ∈ aset m k v) :
    p = (k, v) ∨ p ∈ m := by
  simp only [aset, List.mem_cons] at h
  rcases h with h | h
  · exact Or.inl h
  · exact Or.inr (List.mem_of_mem_filter h)

theorem padTo_length (filler : ContentPart) (content : List (Option ContentPart))
    (index : Nat) : index < (padTo filler content index).length := by
  simp [padTo, List.length_append, List.length_replicate]
  omega

theorem listGetOpt_lset_some {α : Type _} (l : List (Option α)) (n : Nat)
    (x : α) (h : n < l.length) : listGetOpt (lset l n (some x)) n = some x := by
  simp [listGetOpt, lget_lset_self l n (some x) h]

/-! #### Frame lemmas: which state fields each operation can touch -/

theorem onlyMapsRfl (s : Session) : OnlyMaps s s :=
  ⟨s.messages, s.idToIndex, s.outputIndexToMessageIndex, rfl⟩

theorem onlyMapsComp {s t u : Session} (h1 : OnlyMaps s t) (h2 : OnlyMaps t u) :
    OnlyMaps s u := by
  obtain ⟨M1, I1, O1, rfl⟩ := h1
  obtain ⟨M2, I2, O2, rfl⟩ := h2
  exact ⟨M2, I2, O2, rfl⟩

theorem onlyDataRfl (s : Session) : OnlyData s s :=
  ⟨s.messages, s.idToIndex, s.outputIndexToMessageIndex, s.responseSnapshot,
    s.freshCounter, rfl⟩

theorem onlyMapsToData {s t : Session} (h : OnlyMaps s t) : OnlyData s t := by
  obtain ⟨M, I, O, rfl⟩ := h
  exact ⟨M, I, O, s.responseSnapshot, s.freshCounter, rfl⟩

theorem onlyDataComp {s t u : Session} (h1 : OnlyData s t) (h2 : OnlyData t u) :
    OnlyData s u := by
  obtain ⟨M1, I1, O1, R1, F1, rfl⟩ := h1
  obtain ⟨M2, I2, O2, R2, F2, rfl⟩ := h2
  exact ⟨M2, I2, O2, R2, F2, rfl⟩

theorem onlyDataToMutable {s t : Session} (h : OnlyData s t) : OnlyMutable s t := by
  obtain ⟨M, I, O, R, F, rfl⟩ := h
  exact ⟨M, I, O, R, F, s.status, s.ended, s.currentResponseId, rfl⟩

theorem onlyMapsFields {s t : Session} (h : OnlyMaps s t) :
    t.responseSnapshot = s.responseSnapshot ∧ t.freshCounter = s.freshCounter ∧
    t.status = s.status ∧ t.lastError = s.lastError ∧ t.ended = s.ended ∧
    t.endEmitted = s.endEmitted ∧ t.currentResponseId = s.currentResponseId ∧
    t.eventEmits = s.eventEmits ∧ t.changeEmits = s.changeEmits ∧
    t.statusEmits = s.statusEmits ∧ t.errorEmits = s.errorEmits ∧
    t.endEmits = s.endEmits := by
  obtain ⟨M, I, O, rfl⟩ := h
  exact ⟨rfl, rfl, rfl, rfl, rfl, rfl, rfl, rfl, rfl, rfl, rfl, rfl⟩

theorem onlyDataFields {s t : Session} (h : OnlyData s t) :
    t.status = s.status ∧ t.lastError = s.lastError ∧ t.ended = s.ended ∧
    t.endEmitted = s.endEmitted ∧ t.currentResponseId = s.currentResponseId ∧
    t.eventEmits = s.eventEmits ∧ t.changeEmits = s.changeEmits ∧
    t.statusEmits = s.statusEmits ∧ t.errorEmits = s.errorEmits ∧
    t.endEmits = s.endEmits := by
  obtain ⟨M, I, O, R, F, rfl⟩ := h
  exact ⟨rfl, rfl, rfl, rfl, rfl, rfl, rfl, rfl, rfl, rfl⟩

theorem onlyMutableFields {s t : Session} (h : OnlyMutable s t) :
    t.lastError = s.lastError ∧ t.endEmitted = s.endEmitted ∧
    t.eventEmits = s.eventEmits ∧ t.changeEmits = s.changeEmits ∧
    t.statusEmits = s.statusEmits ∧ t.errorEmits = s.errorEmits ∧
    t.endEmits = s.endEmits := by
  obtain ⟨M, I, O, R, F, St, E, C, rfl⟩ := h
  exact ⟨rfl, rfl, rfl, rfl, rfl, rfl, rfl⟩

theorem onlyMaps_registerItemId (oid : Option String) (idx : Nat) (s : Session) :
    OnlyMaps s (registerItemId oid idx s) := by
  unfold registerItemId
  split
  · split
    · exact onlyMapsRfl s
    · exact ⟨_, _, _, rfl⟩
  · exact onlyMapsRfl s

theorem onlyMaps_updateMappingsAfterInsertion (s : Session) (k oi : Nat) :
    OnlyMaps s (updateMappingsAfterInsertion s k oi) := ⟨_, _, _, rfl⟩

theorem onlyMaps_resetCurrentResponseOutputs (s : Session) :
    OnlyMaps s (resetCurrentResponseOutputs s) := ⟨_, _, _, rfl⟩

theorem onlyMaps_pushEventAt (s : Session) (k : Nat) (ev : Event) :
    OnlyMaps s (pushEventAt s k ev) := by
  unfold pushEventAt
  split
  · exact ⟨_, _, _, rfl⟩
  · exact onlyMapsRfl s

theorem onlyMaps_modifyEntryItem (s : Session) (k : Nat)
    (f : OutputItem → OutputItem) : OnlyMaps s (modifyEntryItem s k f) := by
  unfold modifyEntryItem
  split
  · exact ⟨_, _, _, rfl⟩
  · exact onlyMapsRfl s

theorem onlyMaps_insertNewOutputEntry (s : Session) (item : OutputItem)
    (oi : Nat) : OnlyMaps s (insertNewOutputEntry s item oi).2 := by
  unfold insertNewOutputEntry
  have h1 : OnlyMaps s { s with
      messages := insertAt (findInsertionPoint s oi) (Message.output item oi []) s.messages } :=
    ⟨_, _, _, rfl⟩
  have h2 := onlyMaps_updateMappingsAfterInsertion
    { s with messages := insertAt (findInsertionPoint s oi) (Message.output item oi []) s.messages }
    (findInsertionPoint s oi) oi
  have h3 := onlyMaps_registerItemId (some item.itemId) (findInsertionPoint s oi)
    (updateMappingsAfterInsertion
      { s with messages := insertAt (findInsertionPoint s oi) (Message.output item oi []) s.messages }
      (findInsertionPoint s oi) oi)
  exact onlyMapsComp (onlyMapsComp h1 h2) h3

theorem onlyMaps_ensureOutputEntry (s : Session) (item : OutputItem) (oi : Nat) :
    OnlyMaps s (ensureOutputEntry s item oi).2 := by
  unfold ensureOutputEntry
  split
  case _ existingIndex heq =>
    split
    case _ it0 oi0 evs heq2 =>
      have h1 : OnlyMaps s { s with
          messages := lset s.messages existingIndex (.output item oi evs) } :=
        ⟨_, _, _, rfl⟩
      have h2 := onlyMaps_registerItemId (some item.itemId) existingIndex
        { s with messages := lset s.messages existingIndex (.output item oi evs) }
      exact onlyMapsComp h1 h2
    case _ => exact onlyMaps_insertNewOutputEntry _ _ _
  case _ => exact onlyMaps_insertNewOutputEntry _ _ _

theorem onlyMaps_ensureOutputEntryFromSnapshot (s : Session) (oi : Nat) :
    OnlyMaps s (ensureOutputEntryFromSnapshot s oi).2 := by
  unfold ensureOutputEntryFromSnapshot
  split
  · exact onlyMapsRfl s
  case _ it heq =>
    split
    case _ ei heq2 =>
      split
      case _ it0 oi0 evs heq3 =>
        show OnlyMaps s (registerItemId (some it.itemId) ei
          { s with messages := lset s.messages ei (Message.output it oi0 evs) })
        have h1 : OnlyMaps s { s with
            messages := lset s.messages ei (Message.output it oi0 evs) } :=
          ⟨_, _, _, rfl⟩
        exact onlyMapsComp h1 (onlyMaps_registerItemId _ _ _)
      case _ => exact onlyMaps_insertNewOutputEntry _ _ _
    case _ => exact onlyMaps_insertNewOutputEntry _ _ _

theorem onlyMaps_recordViaSnapshot (s : Session) (oi : Option Nat)
    (iid : Option String) (ev : Event) :
    OnlyMaps s (recordViaSnapshot s oi iid ev) := by
  unfold recordViaSnapshot
  split
  · exact onlyMapsRfl s
  case _ oi' =>
    split
    case _ s1 heq =>
      have h1 := onlyMaps_ensureOutputEntryFromSnapshot s oi'
      rw [heq] at h1
      exact h1
    case _ k s1 heq =>
      have h1 : OnlyMaps s s1 := by
        have := onlyMaps_ensureOutputEntryFromSnapshot s oi'
        rw [heq] at this
        exact this
      have h2 : OnlyMaps s1 (pushEventAt s1 k ev) := onlyMaps_pushEventAt _ _ _
      have h12 := onlyMapsComp h1 h2
      split
      · split
        · exact h12
        · exact onlyMapsComp h12 (onlyMaps_registerItemId _ _ _)
      · exact h12

theorem onlyMaps_recordOutputEvent (s : Session) (oi : Option Nat)
    (iid : Option String) (ev : Event) :
    OnlyMaps s (recordOutputEvent s oi iid ev) := by
  have hgen : ∀ b : Option Nat, OnlyMaps s (match b with
      | some k =>
        if isOutputAt s k = true then pushEventAt s k ev
        else recordViaSnapshot s oi iid ev
      | none => recordViaSnapshot s oi iid ev) := by
    intro b
    rcases b with _ | k
    · exact onlyMaps_recordViaSnapshot _ _ _ _
    · show OnlyMaps s (if isOutputAt s k = true then pushEventAt s k ev
        else recordViaSnapshot s oi iid ev)
      by_cases hout : isOutputAt s k = true
      · rw [if_pos hout]
        exact onlyMaps_pushEventAt _ _ _
      · rw [if_neg hout]
        exact onlyMaps_recordViaSnapshot _ _ _ _
  unfold recordOutputEvent
  exact hgen _

theorem onlyMaps_syncLoop :
    ∀ (n i : Nat) (s : Session), OnlyMaps s (syncLoop i n s) := by
  intro n
  induction n with
  | zero => intro i s; exact onlyMapsRfl s
  | succ m ih =>
    intro i s
    exact onlyMapsComp (onlyMaps_ensureOutputEntryFromSnapshot s i) (ih (i + 1) _)

theorem onlyMaps_syncOutputsFromSnapshot (s : Session) :
    OnlyMaps s (syncOutputsFromSnapshot s) := by
  unfold syncOutputsFromSnapshot
  split
  · exact onlyMapsRfl s
  · exact onlyMaps_syncLoop _ _ _

theorem onlyData_setSnapshotOutput (s : Session) (oi : Nat) (item : OutputItem) :
    OnlyData s (setSnapshotOutput s oi item) := by
  unfold setSnapshotOutput
  split
  · exact onlyDataRfl s
  · exact ⟨_, _, _, _, _, rfl⟩

theorem onlyData_setSnapshotOutputRaw (s : Session) (oi : Nat)
    (item : OutputItem) : OnlyData s (setSnapshotOutputRaw s oi item) := by
  unfold setSnapshotOutputRaw
  split
  · exact onlyDataRfl s
  · exact ⟨_, _, _, _, _, rfl⟩

theorem onlyData_createPlaceholderOutput (kind : OutputKind)
    (iid : Option String) (s : Session) :
    OnlyData s (createPlaceholderOutput kind iid s).2 := by
  unfold createPlaceholderOutput makeId
  rcases iid with _ | i
  · cases kind <;> exact ⟨_, _, _, _, _, rfl⟩
  · cases kind <;> exact onlyDataRfl s

theorem onlyData_installSnapshotPlaceholder (s : Session) (oi : Nat)
    (kind : OutputKind) (iid : Option String) :
    OnlyData s (installSnapshotPlaceholder s oi kind iid).2 := by
  unfold installSnapshotPlaceholder
  show OnlyData s (registerItemId (some (createPlaceholderOutput kind iid s).1.itemId) oi
    (setSnapshotOutput (createPlaceholderOutput kind iid s).2 oi
      (createPlaceholderOutput kind iid s).1))
  exact onlyDataComp
    (onlyDataComp (onlyData_createPlaceholderOutput kind iid s)
      (onlyData_setSnapshotOutput _ _ _))
    (onlyMapsToData (onlyMaps_registerItemId _ _ _))

theorem onlyData_ensureSnapshotOutputItem (s : Session) (oi : Nat)
    (kind : OutputKind) (iid : Option String) :
    OnlyData s (ensureSnapshotOutputItem s oi kind iid).2 := by
  have hgen : ∀ it2 : OutputItem, OnlyData s
      (registerItemId (some it2.itemId) oi (setSnapshotOutputRaw s oi it2)) := by
    intro it2
    exact onlyDataComp (onlyData_setSnapshotOutputRaw _ _ _)
      (onlyMapsToData (onlyMaps_registerItemId _ _ _))
  unfold ensureSnapshotOutputItem
  split
  · exact onlyDataRfl s
  · split
    · split
      · exact hgen _
      · exact onlyData_installSnapshotPlaceholder _ _ _ _
    · exact onlyData_installSnapshotPlaceholder _ _ _ _

theorem onlyData_ensureOutputItemPresence (s : Session) (oi : Nat)
    (kind : OutputKind) (iid : Option String) :
    OnlyData s (ensureOutputItemPresence s oi kind iid).2 := by
  unfold ensureOutputItemPresence
  split
  case _ s1 heq =>
    have := onlyData_ensureSnapshotOutputItem s oi kind iid
    rw [heq] at this
    exact this
  case _ it s1 heq =>
    have h1 : OnlyData s s1 := by
      have := onlyData_ensureSnapshotOutputItem s oi kind iid
      rw [heq] at this
      exact this
    exact onlyDataComp h1 (onlyMapsToData (onlyMaps_ensureOutputEntry _ _ _))

theorem onlyData_snapshotTextStep (s : Session) (oi : Nat) (iid : String)
    (c : Nat) (f : String → String) :
    OnlyData s (snapshotTextStep s oi iid c f) := by
  unfold snapshotTextStep
  split
  case _ s1 heq =>
    have := onlyData_ensureSnapshotOutputItem s oi .message (some iid)
    rw [heq] at this
    exact this
  case _ item s1 heq =>
    have h1 : OnlyData s s1 := by
      have := onlyData_ensureSnapshotOutputItem s oi .message (some iid)
      rw [heq] at this
      exact this
    split
    · split
      · exact onlyDataComp
          (onlyDataComp h1 (onlyData_ensureOutputItemPresence _ _ _ _))
          (onlyData_setSnapshotOutputRaw _ _ _)
      · exact onlyDataComp h1 (onlyData_ensureOutputItemPresence _ _ _ _)
    · exact h1

theorem onlyData_snapshotFnArgsStep (s : Session) (oi : Nat) (iid : String)
    (f : String → String) : OnlyData s (snapshotFnArgsStep s oi iid f) := by
  unfold snapshotFnArgsStep
  split
  case _ s1 heq =>
    have := onlyData_ensureSnapshotOutputItem s oi .functionCall (some iid)
    rw [heq] at this
    exact this
  case _ item s1 heq =>
    have h1 : OnlyData s s1 := by
      have := onlyData_ensureSnapshotOutputItem s oi .functionCall (some iid)
      rw [heq] at this
      exact this
    split
    · split
      · exact onlyDataComp
          (onlyDataComp h1 (onlyData_ensureOutputItemPresence _ _ _ _))
          (onlyData_setSnapshotOutputRaw _ _ _)
      · exact onlyDataComp h1 (onlyData_ensureOutputItemPresence _ _ _ _)
    · exact h1

theorem onlyData_messageTextStep (s : Session) (iid : String) (oi c : Nat)
    (f : String → String) (ev : Event) :
    OnlyData s (messageTextStep s iid oi c f ev) := by
  unfold messageTextStep
  have htail : ∀ (s1 : Session) (k : Nat), OnlyData s s1 → OnlyData s
      (match lget s1.messages k with
        | some (Message.output (OutputItem.message mid mst content) oi2 evs) =>
          pushEventAt { s1 with messages := lset s1.messages k (Message.output (.message mid mst (applyMessageText content c f)) oi2 evs) } k ev
        | _ => s1) := by
    intro s1 k h1
    rcases hlg : lget s1.messages k with _ | m
    · exact h1
    · rcases m with it | ⟨it, oi2, evs⟩
      · exact h1
      · rcases it with ⟨mid, mst, content⟩ | ⟨fid, cid, nm, args, st⟩ | ⟨mi, mn, msl, ma⟩
        · have h2 : OnlyData s1 { s1 with messages := lset s1.messages k (Message.output (.message mid mst (applyMessageText content c f)) oi2 evs) } :=
            ⟨_, _, _, s1.responseSnapshot, s1.freshCounter, rfl⟩
          exact onlyDataComp h1 (onlyDataComp h2 (onlyMapsToData (onlyMaps_pushEventAt _ _ _)))
        · exact h1
        · exact h1
  rcases hfind : findOutputEntryIdx s (some iid) (some oi) with _ | k0
  · rcases hens : ensureOutputItemPresence s oi .message (some iid) with ⟨ko, s1⟩
    have h1 : OnlyData s s1 := by
      have := onlyData_ensureOutputItemPresence s oi .message (some iid)
      rw [hens] at this
      exact this
    rcases ko with _ | k
    · exact h1
    · exact htail s1 k h1
  · exact htail s k0 (onlyDataRfl s)

theorem onlyData_messageFnArgsStep (s : Session) (iid : String) (oi : Nat)
    (f : String → String) (ev : Event) :
    OnlyData s (messageFnArgsStep s iid oi f ev) := by
  unfold messageFnArgsStep
  have htail : ∀ (s1 : Session) (k : Nat), OnlyData s s1 → OnlyData s
      (match lget s1.messages k with
        | some (Message.output (OutputItem.functionCall fid cid nm args st) oi2 evs) =>
          pushEventAt { s1 with messages := lset s1.messages k (Message.output (.functionCall fid cid nm (f args) st) oi2 evs) } k ev
        | _ => s1) := by
    intro s1 k h1
    rcases hlg : lget s1.messages k with _ | m
    · exact h1
    · rcases m with it | ⟨it, oi2, evs⟩
      · exact h1
      · rcases it with ⟨mid, mst, content⟩ | ⟨fid, cid, nm, args, st⟩ | ⟨mi, mn, msl, ma⟩
        · exact h1
        · have h2 : OnlyData s1 { s1 with messages := lset s1.messages k (Message.output (.functionCall fid cid nm (f args) st) oi2 evs) } :=
            ⟨_, _, _, s1.responseSnapshot, s1.freshCounter, rfl⟩
          exact onlyDataComp h1 (onlyDataComp h2 (onlyMapsToData (onlyMaps_pushEventAt _ _ _)))
        · exact h1
  rcases hfind : findOutputEntryIdx s (some iid) (some oi) with _ | k0
  · rcases hens : ensureOutputItemPresence s oi .functionCall (some iid) with ⟨ko, s1⟩
    have h1 : OnlyData s s1 := by
      have := onlyData_ensureOutputItemPresence s oi .functionCall (some iid)
      rw [hens] at this
      exact this
    rcases ko with _ | k
    · exact h1
    · exact htail s1 k h1
  · exact htail s k0 (onlyDataRfl s)

theorem onlyData_applyToMessages (ev : Event) (s : Session) :
    OnlyData s (applyToMessages ev s) := by
  unfold applyToMessages
  cases ev with
  | outputItemAdded oi item =>
    exact onlyDataComp (onlyMapsToData (onlyMaps_ensureOutputEntry s item oi))
      (onlyMapsToData (onlyMaps_pushEventAt _ _ _))
  | outputItemDone oi item =>
    exact onlyDataComp (onlyMapsToData (onlyMaps_ensureOutputEntry s item oi))
      (onlyDataComp (onlyMapsToData (onlyMaps_modifyEntryItem _ _ _))
        (onlyMapsToData (onlyMaps_pushEventAt _ _ _)))
  | outputTextDelta iid oi c d => exact onlyData_messageTextStep _ _ _ _ _ _
  | outputTextDone iid oi c txt => exact onlyData_messageTextStep _ _ _ _ _ _
  | functionCallArgsDelta iid oi d => exact onlyData_messageFnArgsStep _ _ _ _ _
  | functionCallArgsDone iid oi args => exact onlyData_messageFnArgsStep _ _ _ _ _
  | mcpCallInProgress oi iid =>
    exact onlyDataComp (onlyData_ensureOutputItemPresence _ _ _ _)
      (onlyMapsToData (onlyMaps_recordOutputEvent _ _ _ _))
  | otherEvent oi iid =>
    cases oi with
    | none => exact onlyDataRfl s
    | some o => exact onlyMapsToData (onlyMaps_recordOutputEvent _ _ _ _)
  | lifecycle kind r => exact onlyDataRfl s
  | queued r => exact onlyDataRfl s
  | errorEvent e => exact onlyDataRfl s

theorem onlyMutable_mutateSnapshot (ev : Event) (s : Session) :
    OnlyMutable s (mutateSnapshot ev s) := by
  cases ev with
  | lifecycle kind r =>
    simp only [mutateSnapshot]
    have hgen : ∀ s1 : Session, OnlyMaps s s1 → OnlyMutable s
        (syncOutputsFromSnapshot { s1 with currentResponseId := some r.id, responseSnapshot := some r, status := r.status.getD .idle, ended := kind.ends }) := by
      intro s1 h1
      have h2 : OnlyMutable s { s1 with currentResponseId := some r.id, responseSnapshot := some r, status := r.status.getD .idle, ended := kind.ends } := by
        obtain ⟨M, I, O, rfl⟩ := h1
        exact ⟨M, I, O, some r, s.freshCounter, r.status.getD .idle, kind.ends, some r.id, rfl⟩
      obtain ⟨M2, I2, O2, h3⟩ := onlyMaps_syncOutputsFromSnapshot
        { s1 with currentResponseId := some r.id, responseSnapshot := some r, status := r.status.getD .idle, ended := kind.ends }
      obtain ⟨M, I, O, R, F, St, E, C, h2eq⟩ := h2
      rw [h3, h2eq]
      exact ⟨M2, I2, O2, R, F, St, E, C, rfl⟩
    by_cases hc : kind = LifecycleKind.created ∨
        (¬ r.id = "" ∧ ¬ s.currentResponseId = some r.id)
    · rw [if_pos hc]
      exact hgen _ (onlyMaps_resetCurrentResponseOutputs s)
    · rw [if_neg hc]
      exact hgen s (onlyMapsRfl s)
  | outputItemAdded oi item => exact onlyDataToMutable (onlyData_setSnapshotOutput _ _ _)
  | outputItemDone oi item => exact onlyDataToMutable (onlyData_setSnapshotOutput _ _ _)
  | outputTextDelta iid oi c d => exact onlyDataToMutable (onlyData_snapshotTextStep _ _ _ _ _)
  | outputTextDone iid oi c txt => exact onlyDataToMutable (onlyData_snapshotTextStep _ _ _ _ _)
  | functionCallArgsDelta iid oi d =>
    exact onlyDataToMutable (onlyData_snapshotFnArgsStep _ _ _ _)
  | functionCallArgsDone iid oi args =>
    exact onlyDataToMutable (onlyData_snapshotFnArgsStep _ _ _ _)
  | queued r => exact onlyDataToMutable (onlyDataRfl s)
  | mcpCallInProgress oi iid => exact onlyDataToMutable (onlyDataRfl s)
  | errorEvent e => exact onlyDataToMutable (onlyDataRfl s)
  | otherEvent oi iid => exact onlyDataToMutable (onlyDataRfl s)

/-! #### Field projections of the frame predicates -/

theorem onlyMapsEnded {s t : Session} (h : OnlyMaps s t) : t.ended = s.ended := by
  obtain ⟨M, I, O, rfl⟩ := h
  rfl

theorem onlyMapsEndEmitted {s t : Session} (h : OnlyMaps s t) :
    t.endEmitted = s.endEmitted := by
  obtain ⟨M, I, O, rfl⟩ := h
  rfl

theorem onlyMapsEndEmits {s t : Session} (h : OnlyMaps s t) :
    t.endEmits = s.endEmits := by
  obtain ⟨M, I, O, rfl⟩ := h
  rfl

theorem onlyMapsStatus {s t : Session} (h : OnlyMaps s t) :
    t.status = s.status := by
  obtain ⟨M, I, O, rfl⟩ := h
  rfl

theorem onlyMapsCurrentId {s t : Session} (h : OnlyMaps s t) :
    t.currentResponseId = s.currentResponseId := by
  obtain ⟨M, I, O, rfl⟩ := h
  rfl

theorem onlyMapsSnap {s t : Session} (h : OnlyMaps s t) :
    t.responseSnapshot = s.responseSnapshot := by
  obtain ⟨M, I, O, rfl⟩ := h
  rfl

theorem onlyDataEnded {s t : Session} (h : OnlyData s t) : t.ended = s.ended := by
  obtain ⟨M, I, O, R, F, rfl⟩ := h
  rfl

theorem onlyDataEndEmitted {s t : Session} (h : OnlyData s t) :
    t.endEmitted = s.endEmitted := by
  obtain ⟨M, I, O, R, F, rfl⟩ := h
  rfl

theorem onlyDataEndEmits {s t : Session} (h : OnlyData s t) :
    t.endEmits = s.endEmits := by
  obtain ⟨M, I, O, R, F, rfl⟩ := h
  rfl

theorem onlyDataStatus {s t : Session} (h : OnlyData s t) :
    t.status = s.status := by
  obtain ⟨M, I, O, R, F, rfl⟩ := h
  rfl

theorem onlyDataCurrentId {s t : Session} (h : OnlyData s t) :
    t.currentResponseId = s.currentResponseId := by
  obtain ⟨M, I, O, R, F, rfl⟩ := h
  rfl

theorem onlyMutableEndEmitted {s t : Session} (h : OnlyMutable s t) :
    t.endEmitted = s.endEmitted := by
  obtain ⟨M, I, O, R, F, St, E, C, rfl⟩ := h
  rfl

theorem onlyMutableEndEmits {s t : Session} (h : OnlyMutable s t) :
    t.endEmits = s.endEmits := by
  obtain ⟨M, I, O, R, F, St, E, C, rfl⟩ := h
  rfl

/-! #### The terminal `end` notification (claim C4) -/

theorem mutateSnapshot_lifecycle_ended (kind : LifecycleKind) (r : RespPayload)
    (s : Session) : (mutateSnapshot (.lifecycle kind r) s).ended = kind.ends := by
  simp only [mutateSnapshot]
  by_cases hc : kind = LifecycleKind.created ∨
      (¬ r.id = "" ∧ ¬ s.currentResponseId = some r.id)
  · rw [if_pos hc]
    show (syncOutputsFromSnapshot { resetCurrentResponseOutputs s with currentResponseId := some r.id, responseSnapshot := some r, status := r.status.getD .idle, ended := kind.ends }).ended = kind.ends
    rw [onlyMapsEnded (onlyMaps_syncOutputsFromSnapshot _)]
  · rw [if_neg hc]
    show (syncOutputsFromSnapshot { s with currentResponseId := some r.id, responseSnapshot := some r, status := r.status.getD .idle, ended := kind.ends }).ended = kind.ends
    rw [onlyMapsEnded (onlyMaps_syncOutputsFromSnapshot _)]

theorem handleEvent_parts (ev : Event) (s : Session) : ∃ s5 : Session,
    handleEvent ev s = emitChange s5 ∧ s5.endEmitted = s.endEmitted ∧
    s5.endEmits = s.endEmits ∧ (endsSession ev = true → s5.ended = true) := by
  have h2end := onlyMutableEndEmitted (onlyMutable_mutateSnapshot ev { s with eventEmits := s.eventEmits + 1 })
  have h2cnt := onlyMutableEndEmits (onlyMutable_mutateSnapshot ev { s with eventEmits := s.eventEmits + 1 })
  have h3end := onlyDataEndEmitted (onlyData_applyToMessages ev (mutateSnapshot ev { s with eventEmits := s.eventEmits + 1 }))
  have h3cnt := onlyDataEndEmits (onlyData_applyToMessages ev (mutateSnapshot ev { s with eventEmits := s.eventEmits + 1 }))
  have h3ended := onlyDataEnded (onlyData_applyToMessages ev (mutateSnapshot ev { s with eventEmits := s.eventEmits + 1 }))
  cases ev with
  | errorEvent e =>
    refine ⟨_, rfl, ?_, ?_, ?_⟩
    · simpa using h3end.trans h2end
    · simpa using h3cnt.trans h2cnt
    · intro _
      rfl
  | lifecycle kind r =>
    refine ⟨_, rfl, ?_, ?_, ?_⟩
    · simpa using h3end.trans h2end
    · simpa using h3cnt.trans h2cnt
    · intro hev
      simp only [endsSession] at hev
      rw [h3ended, mutateSnapshot_lifecycle_ended kind r _]
      exact hev
  | queued r =>
    refine ⟨_, rfl, ?_, ?_, ?_⟩
    · simpa using h3end.trans h2end
    · simpa using h3cnt.trans h2cnt
    · intro hev
      simp [endsSession] at hev
  | outputItemAdded oi item =>
    refine ⟨_, rfl, ?_, ?_, ?_⟩
    · simpa using h3end.trans h2end
    · simpa using h3cnt.trans h2cnt
    · intro hev
      simp [endsSession] at hev
  | outputItemDone oi item =>
    refine ⟨_, rfl, ?_, ?_, ?_⟩
    · simpa using h3end.trans h2end
    · simpa using h3cnt.trans h2cnt
    · intro hev
      simp [endsSession] at hev
  | outputTextDelta iid oi c d =>
    refine ⟨_, rfl, ?_, ?_, ?_⟩
    · simpa using h3end.trans h2end
    · simpa using h3cnt.trans h2cnt
    · intro hev
      simp [endsSession] at hev
  | outputTextDone iid oi c txt =>
    refine ⟨_, rfl, ?_, ?_, ?_⟩
    · simpa using h3end.trans h2end
    · simpa using h3cnt.trans h2cnt
    · intro hev
      simp [endsSession] at hev
  | functionCallArgsDelta iid oi d =>
    refine ⟨_, rfl, ?_, ?_, ?_⟩
    · simpa using h3end.trans h2end
    · simpa using h3cnt.trans h2cnt
    · intro hev
      simp [endsSession] at hev
  | functionCallArgsDone iid oi args =>
    refine ⟨_, rfl, ?_, ?_, ?_⟩
    · simpa using h3end.trans h2end
    · simpa using h3cnt.trans h2cnt
    · intro hev
      simp [endsSession] at hev
  | mcpCallInProgress oi iid =>
    refine ⟨_, rfl, ?_, ?_, ?_⟩
    · simpa using h3end.trans h2end
    · simpa using h3cnt.trans h2cnt
    · intro hev
      simp [endsSession] at hev
  | otherEvent oi iid =>
    refine ⟨_, rfl, ?_, ?_, ?_⟩
    · simpa using h3end.trans h2end
    · simpa using h3cnt.trans h2cnt
    · intro hev
      simp [endsSession] at hev

theorem emitChange_end (s : Session) :
    ((emitChange s).endEmitted = (s.endEmitted || s.ended)) ∧
    ((emitChange s).endEmits =
      if (s.ended && !s.endEmitted) = true then s.endEmits + 1 else s.endEmits) := by
  unfold emitChange
  by_cases hc : (s.ended && !s.endEmitted) = true
  · rw [if_pos hc, if_pos hc]
    constructor
    · simp at hc
      simp [hc]
    · rfl
  · rw [if_neg hc, if_neg hc]
    constructor
    · simp only [Bool.and_eq_true, Bool.not_eq_true'] at hc
      cases he : s.endEmitted with
      | true => simp
      | false =>
        cases hd : s.ended with
        | true => exact absurd ⟨hd, he⟩ hc
        | false => simp
    · rfl

theorem handleEvent_endEmitted_mono (ev : Event) (s : Session)
    (h : s.endEmitted = true) : (handleEvent ev s).endEmitted = true := by
  obtain ⟨s5, heq, hem, hcnt, hend⟩ := handleEvent_parts ev s
  rw [heq, (emitChange_end s5).1, hem, h]
  rfl

theorem handleEvent_endCount (ev : Event) (s : Session)
    (h : s.endEmits = (if s.endEmitted = true then 1 else 0)) :
    (handleEvent ev s).endEmits =
      (if (handleEvent ev s).endEmitted = true then 1 else 0) := by
  obtain ⟨s5, heq, hem, hcnt, hend⟩ := handleEvent_parts ev s
  rw [heq, (emitChange_end s5).1, (emitChange_end s5).2, hem, hcnt, h]
  cases hee : s.endEmitted with
  | true => simp
  | false =>
    cases hed : s5.ended with
    | true => simp
    | false => simp

theorem handleEvent_fires (ev : Event) (s : Session)
    (hev : endsSession ev = true) : (handleEvent ev s).endEmitted = true := by
  obtain ⟨s5, heq, hem, hcnt, hend⟩ := handleEvent_parts ev s
  rw [heq, (emitChange_end s5).1, hend hev]
  simp

theorem foldRun_endCount (l : List Event) :
    ∀ s : Session, s.endEmits = (if s.endEmitted = true then 1 else 0) →
      (l.foldl (fun t ev => handleEvent ev t) s).endEmits =
        (if (l.foldl (fun t ev => handleEvent ev t) s).endEmitted = true then 1 else 0) := by
  induction l with
  | nil => intro s h; exact h
  | cons e rest ih =>
    intro s h
    exact ih (handleEvent e s) (handleEvent_endCount e s h)

theorem foldRun_endEmitted_mono (l : List Event) :
    ∀ s : Session, s.endEmitted = true →
      (l.foldl (fun t ev => handleEvent ev t) s).endEmitted = true := by
  induction l with
  | nil => intro s h; exact h
  | cons e rest ih =>
    intro s h
    exact ih (handleEvent e s) (handleEvent_endEmitted_mono e s h)

theorem foldRun_fires (l : List Event) :
    ∀ s : Session, l.any endsSession = true →
      (l.foldl (fun t ev => handleEvent ev t) s).endEmitted = true := by
  induction l with
  | nil => intro s h; simp at h
  | cons e rest ih =>
    intro s h
    rw [List.any_cons] at h
    rcases Bool.or_eq_true_iff.mp h with h1 | h2
    · exact foldRun_endEmitted_mono rest (handleEvent e s)
        (handleEvent_fires e s h1)
    · exact ih (handleEvent e s) h2

theorem addInput_end (s : Session) (i : InputItem) (hd : s.ended = false) :
    (addInput s i).ended = false ∧ (addInput s i).endEmitted = s.endEmitted ∧
    (addInput s i).endEmits = s.endEmits := by
  unfold addInput registerItemId emitChange
  rcases i with ⟨iid, payload⟩
  rcases iid with _ | iv
  · simp [hd]
  · by_cases hiv : iv = ""
    · simp [hiv, hd]
    · simp [hiv, hd]

theorem init_end (inputs : List InputItem) (resp : Option RespPayload) :
    (Session.init inputs resp).ended = false ∧
    (Session.init inputs resp).endEmitted = false ∧
    (Session.init inputs resp).endEmits = 0 := by
  have hfold : ∀ (l : List InputItem) (s : Session), s.ended = false →
      (l.foldl addInput s).ended = false ∧
      (l.foldl addInput s).endEmitted = s.endEmitted ∧
      (l.foldl addInput s).endEmits = s.endEmits := by
    intro l
    induction l with
    | nil => intro s h; exact ⟨h, rfl, rfl⟩
    | cons i rest ih =>
      intro s h
      obtain ⟨h1, h2, h3⟩ := addInput_end s i h
      obtain ⟨g1, g2, g3⟩ := ih (addInput s i) h1
      exact ⟨g1, g2.trans h2, g3.trans h3⟩
  obtain ⟨h1, h2, h3⟩ := hfold inputs emptySession rfl
  unfold Session.init
  rcases resp with _ | r
  · exact ⟨h1, h2, h3⟩
  · have hs := onlyMaps_syncOutputsFromSnapshot { inputs.foldl addInput emptySession with responseSnapshot := some r, status := r.status.getD .idle }
    refine ⟨?_, ?_, ?_⟩
    · rw [onlyMapsEnded hs]
      exact h1
    · rw [onlyMapsEndEmitted hs]
      exact h2
    · rw [onlyMapsEndEmits hs]
      exact h3

/-- C4: the terminal `end` notification is emitted exactly once in a session's
lifetime.  If some ingested event puts the session in an ended state (a
terminal lifecycle event or an error event), then after that event sequence
and after any further events whatsoever the total number of `end` emissions is
exactly one: it fired on the first ending event and never again. -/
theorem c4_end_fires_once (inputs : List InputItem) (resp : Option RespPayload)
    (events more : List Event) (h : events.any endsSession = true) :
    (runSession inputs resp (events ++ more)).endEmits = 1 := by
  unfold runSession
  rw [List.foldl_append]
  obtain ⟨h1, h2, h3⟩ := init_end inputs resp
  have hstart : (Session.init inputs resp).endEmits =
      (if (Session.init inputs resp).endEmitted = true then 1 else 0) := by
    rw [h2, h3]
    rfl
  have hmid := foldRun_endCount events (Session.init inputs resp) hstart
  have hfired := foldRun_fires events (Session.init inputs resp) h
  have hfinal := foldRun_endCount more _ hmid
  have hfinalEmitted := foldRun_endEmitted_mono more _ hfired
  rw [hfinal, hfinalEmitted]
  rfl

/-- C4 witness: a completed event followed by a stray trailing delta and a
second completed event still yields exactly one `end` emission. -/
theorem c4_end_fires_once_witness :
    (runSession [] none ([Event.lifecycle .completed respDone] ++
      [Event.outputTextDelta "m" 0 0 "x", Event.lifecycle .completed respDone])).endEmits = 1 :=
  c4_end_fires_once [] none [Event.lifecycle .completed respDone]
    [Event.outputTextDelta "m" 0 0 "x", Event.lifecycle .completed respDone] (by decide)

/-! #### Reset discipline on response-lifecycle events (claim C6) -/

theorem reset_idem (s : Session) :
    resetCurrentResponseOutputs (resetCurrentResponseOutputs s) =
      resetCurrentResponseOutputs s := rfl

theorem reset_bump_comm (s : Session) (n : Nat) :
    resetCurrentResponseOutputs { s with eventEmits := n } =
      { resetCurrentResponseOutputs s with eventEmits := n } := rfl

theorem reset_currentId (s : Session) :
    (resetCurrentResponseOutputs s).currentResponseId = s.currentResponseId := rfl

/-- Handling a lifecycle event whose reset condition holds is the same as
handling it from the already-reset state: this is the observable meaning of
"the event triggers the reset". -/
theorem handleEvent_lifecycle_reset_eq (kind : LifecycleKind) (r : RespPayload)
    (s : Session)
    (htrig : kind = LifecycleKind.created ∨
      (¬ r.id = "" ∧ ¬ s.currentResponseId = some r.id)) :
    handleEvent (.lifecycle kind r) s =
      handleEvent (.lifecycle kind r) (resetCurrentResponseOutputs s) := by
  have htrig2 : kind = LifecycleKind.created ∨
      (¬ r.id = "" ∧ ¬ (resetCurrentResponseOutputs s).currentResponseId = some r.id) := by
    rw [reset_currentId]
    exact htrig
  have hmut : mutateSnapshot (.lifecycle kind r) { s with eventEmits := s.eventEmits + 1 } =
      mutateSnapshot (.lifecycle kind r)
        { resetCurrentResponseOutputs s with
            eventEmits := (resetCurrentResponseOutputs s).eventEmits + 1 } := by
    simp only [mutateSnapshot]
    rw [if_pos htrig, if_pos htrig2]
    rfl
  show emitChange (applyToMessages (.lifecycle kind r) (mutateSnapshot (.lifecycle kind r) { s with eventEmits := s.eventEmits + 1 })) = emitChange (applyToMessages (.lifecycle kind r) (mutateSnapshot (.lifecycle kind r) { resetCurrentResponseOutputs s with eventEmits := (resetCurrentResponseOutputs s).eventEmits + 1 }))
  rw [hmut]

/-- The maps are presence-monotone along `updateMapsFrom` (it only overwrites
or adds bindings). -/
theorem updateMapsFrom_omap_mono :
    ∀ (msgs : List Message) (i : Nat) (omap : List (Nat × Nat))
      (imap : List (String × Nat)) (key : Nat),
      (aget omap key).isSome = true →
      (aget (updateMapsFrom msgs i omap imap).1 key).isSome = true := by
  intro msgs
  induction msgs with
  | nil => intro i omap imap key h; exact h
  | cons m rest ih =>
    intro i omap imap key h
    unfold updateMapsFrom
    rcases m with it | ⟨it, oi, evs⟩
    · exact ih (i + 1) _ _ key h
    · exact ih (i + 1) _ _ key (aget_aset_isSome omap oi key i h)

theorem updateMapsFrom_imap_mono :
    ∀ (msgs : List Message) (i : Nat) (omap : List (Nat × Nat))
      (imap : List (String × Nat)) (iid : String),
      (aget imap iid).isSome = true →
      (aget (updateMapsFrom msgs i omap imap).2 iid).isSome = true := by
  intro msgs
  induction msgs with
  | nil => intro i omap imap iid h; exact h
  | cons m rest ih =>
    intro i omap imap iid h
    unfold updateMapsFrom
    have hstep : ∀ im2 : List (String × Nat),
        (aget im2 iid).isSome = true →
        (aget (updateMapsFrom rest (i + 1)
          (match m with
            | .output _ oi _ => aset omap oi i
            | .input _ => omap) im2).2 iid).isSome = true := by
      intro im2 h2
      exact ih (i + 1) _ im2 iid h2
    rcases hmid : m.msgItemId with _ | mid
    · exact hstep imap h
    · by_cases hmid2 : mid = ""
      · subst hmid2
        exact hstep imap h
      · simp only [hmid2]
        exact hstep _ (aget_aset_isSome imap mid iid i h)

theorem registerItemId_omap (oid : Option String) (idx : Nat) (s : Session) :
    (registerItemId oid idx s).outputIndexToMessageIndex =
      s.outputIndexToMessageIndex := by
  unfold registerItemId
  split
  · split <;> rfl
  · rfl

theorem registerItemId_imap_mono (oid : Option String) (idx : Nat) (s : Session)
    (iid : String) (h : (aget s.idToIndex iid).isSome = true) :
    (aget (registerItemId oid idx s).idToIndex iid).isSome = true := by
  unfold registerItemId
  split
  · split
    · exact h
    · exact aget_aset_isSome _ _ _ _ h
  · exact h

theorem insertNewOutputEntry_omap_mono (s : Session) (item : OutputItem)
    (oi key : Nat) (h : (aget s.outputIndexToMessageIndex key).isSome = true) :
    (aget (insertNewOutputEntry s item oi).2.outputIndexToMessageIndex key).isSome = true := by
  unfold insertNewOutputEntry updateMappingsAfterInsertion
  rw [registerItemId_omap]
  exact updateMapsFrom_omap_mono _ _ _ _ key (aget_aset_isSome _ _ _ _ h)

theorem insertNewOutputEntry_imap_mono (s : Session) (item : OutputItem)
    (oi : Nat) (iid : String) (h : (aget s.idToIndex iid).isSome = true) :
    (aget (insertNewOutputEntry s item oi).2.idToIndex iid).isSome = true := by
  unfold insertNewOutputEntry updateMappingsAfterInsertion
  apply registerItemId_imap_mono
  exact updateMapsFrom_imap_mono _ _ _ _ iid h

theorem ensureOutputEntryFromSnapshot_omap_mono (s : Session) (oi key : Nat)
    (h : (aget s.outputIndexToMessageIndex key).isSome = true) :
    (aget (ensureOutputEntryFromSnapshot s oi).2.outputIndexToMessageIndex key).isSome = true := by
  unfold ensureOutputEntryFromSnapshot
  split
  · exact h
  case _ it heq =>
    split
    case _ ei heq2 =>
      split
      case _ it0 oi0 evs heq3 =>
        show (aget (registerItemId (some it.itemId) ei { s with messages := lset s.messages ei (Message.output it oi0 evs) }).outputIndexToMessageIndex key).isSome = true
        rw [registerItemId_omap]
        exact h
      case _ => exact insertNewOutputEntry_omap_mono s it oi key h
    case _ => exact insertNewOutputEntry_omap_mono s it oi key h

theorem ensureOutputEntryFromSnapshot_imap_mono (s : Session) (oi : Nat)
    (iid : String) (h : (aget s.idToIndex iid).isSome = true) :
    (aget (ensureOutputEntryFromSnapshot s oi).2.idToIndex iid).isSome = true := by
  unfold ensureOutputEntryFromSnapshot
  split
  · exact h
  case _ it heq =>
    split
    case _ ei heq2 =>
      split
      case _ it0 oi0 evs heq3 =>
        show (aget (registerItemId (some it.itemId) ei { s with messages := lset s.messages ei (Message.output it oi0 evs) }).idToIndex iid).isSome = true
        exact registerItemId_imap_mono _ _ _ _ h
      case _ => exact insertNewOutputEntry_imap_mono s it oi iid h
    case _ => exact insertNewOutputEntry_imap_mono s it oi iid h

theorem syncLoop_omap_mono :
    ∀ (n i : Nat) (s : Session) (key : Nat),
      (aget s.outputIndexToMessageIndex key).isSome = true →
      (aget (syncLoop i n s).outputIndexToMessageIndex key).isSome = true := by
  intro n
  induction n with
  | zero => intro i s key h; exact h
  | succ m ih =>
    intro i s key h
    exact ih (i + 1) _ key (ensureOutputEntryFromSnapshot_omap_mono s i key h)

theorem syncLoop_imap_mono :
    ∀ (n i : Nat) (s : Session) (iid : String),
      (aget s.idToIndex iid).isSome = true →
      (aget (syncLoop i n s).idToIndex iid).isSome = true := by
  intro n
  induction n with
  | zero => intro i s iid h; exact h
  | succ m ih =>
    intro i s iid h
    exact ih (i + 1) _ iid (ensureOutputEntryFromSnapshot_imap_mono s i iid h)

theorem sync_omap_mono (s : Session) (key : Nat)
    (h : (aget s.outputIndexToMessageIndex key).isSome = true) :
    (aget (syncOutputsFromSnapshot s).outputIndexToMessageIndex key).isSome = true := by
  unfold syncOutputsFromSnapshot
  split
  · exact h
  · exact syncLoop_omap_mono _ _ _ key h

theorem sync_imap_mono (s : Session) (iid : String)
    (h : (aget s.idToIndex iid).isSome = true) :
    (aget (syncOutputsFromSnapshot s).idToIndex iid).isSome = true := by
  unfold syncOutputsFromSnapshot
  split
  · exact h
  · exact syncLoop_imap_mono _ _ _ iid h

theorem emitChange_maps (s : Session) :
    (emitChange s).idToIndex = s.idToIndex ∧
    (emitChange s).outputIndexToMessageIndex = s.outputIndexToMessageIndex ∧
    (emitChange s).messages = s.messages ∧
    (emitChange s).responseSnapshot = s.responseSnapshot ∧
    (emitChange s).currentResponseId = s.currentResponseId := by
  have heq : emitChange s =
      (if (s.ended && !s.endEmitted) = true
        then ({ s with changeEmits := s.changeEmits + 1, statusEmits := s.statusEmits + 1, endEmitted := true, endEmits := s.endEmits + 1 } : Session)
        else { s with changeEmits := s.changeEmits + 1, statusEmits := s.statusEmits + 1 }) := rfl
  rw [heq]
  cases hb : (s.ended && !s.endEmitted)
  · exact ⟨rfl, rfl, rfl, rfl, rfl⟩
  · exact ⟨rfl, rfl, rfl, rfl, rfl⟩

theorem handleEvent_lifecycle_eq (kind : LifecycleKind) (r : RespPayload)
    (s : Session) : handleEvent (.lifecycle kind r) s =
      emitChange (mutateSnapshot (.lifecycle kind r) { s with eventEmits := s.eventEmits + 1 }) := rfl

theorem mutateSnapshot_lifecycle_noreset (kind : LifecycleKind) (r : RespPayload)
    (s : Session) (hc : ¬ (kind = LifecycleKind.created ∨
      (¬ r.id = "" ∧ ¬ s.currentResponseId = some r.id))) :
    mutateSnapshot (.lifecycle kind r) s =
      syncOutputsFromSnapshot { s with currentResponseId := some r.id, responseSnapshot := some r, status := r.status.getD .idle, ended := kind.ends } := by
  simp only [mutateSnapshot]
  rw [if_neg hc]

theorem mutateSnapshot_lifecycle_currentId (kind : LifecycleKind)
    (r : RespPayload) (s : Session) :
    (mutateSnapshot (.lifecycle kind r) s).currentResponseId = some r.id := by
  simp only [mutateSnapshot]
  by_cases hc : kind = LifecycleKind.created ∨
      (¬ r.id = "" ∧ ¬ s.currentResponseId = some r.id)
  · rw [if_pos hc]
    show (syncOutputsFromSnapshot { resetCurrentResponseOutputs s with currentResponseId := some r.id, responseSnapshot := some r, status := r.status.getD .idle, ended := kind.ends }).currentResponseId = some r.id
    rw [onlyMapsCurrentId (onlyMaps_syncOutputsFromSnapshot _)]
  · rw [if_neg hc]
    show (syncOutputsFromSnapshot { s with currentResponseId := some r.id, responseSnapshot := some r, status := r.status.getD .idle, ended := kind.ends }).currentResponseId = some r.id
    rw [onlyMapsCurrentId (onlyMaps_syncOutputsFromSnapshot _)]

/-- C6 counterexample: in a session tracking response id `ra` with outputs 0
and 1 indexed, an `in_progress` event whose response id is the empty string
(which differs from `ra`) is handled differently from handling it after a
reset: the claim's "differing id triggers the same reset" fails, because the
code's guard treats a falsy (empty) id as no information. -/
theorem c6_counterexample :
    c6Before.currentResponseId = some "ra" ∧ ¬ respNoId.id = "ra" ∧
    ¬ (handleEvent (.lifecycle .inProgress respNoId) c6Before =
        handleEvent (.lifecycle .inProgress respNoId)
          (resetCurrentResponseOutputs c6Before)) := by
  refine ⟨by decide, by decide, by decide⟩

/-- C6 amended: a `response.created` event unconditionally performs the
identity-map reset (handling it equals handling it from the pre-reset state)
and adopts the event's response id; an `in_progress`/`completed`/`failed`/
`incomplete` event whose response id is non-empty and differs from the
currently tracked id triggers the same reset; one whose id matches the
tracked id does not reset — it never drops an existing id binding or
outputIndex binding.  Every lifecycle event adopts the event's response id as
the currently tracked id. -/
theorem c6_reset_discipline :
    (∀ (s : Session) (r : RespPayload),
      handleEvent (.lifecycle .created r) s =
        handleEvent (.lifecycle .created r) (resetCurrentResponseOutputs s)) ∧
    (∀ (s : Session) (r : RespPayload) (kind : LifecycleKind),
      ¬ r.id = "" → ¬ s.currentResponseId = some r.id →
      handleEvent (.lifecycle kind r) s =
        handleEvent (.lifecycle kind r) (resetCurrentResponseOutputs s)) ∧
    (∀ (s : Session) (r : RespPayload) (kind : LifecycleKind),
      s.currentResponseId = some r.id → ¬ kind = LifecycleKind.created →
      (∀ iid, (aget s.idToIndex iid).isSome = true →
        (aget (handleEvent (.lifecycle kind r) s).idToIndex iid).isSome = true) ∧
      (∀ oi, (aget s.outputIndexToMessageIndex oi).isSome = true →
        (aget (handleEvent (.lifecycle kind r) s).outputIndexToMessageIndex oi).isSome = true)) ∧
    (∀ (s : Session) (r : RespPayload) (kind : LifecycleKind),
      (handleEvent (.lifecycle kind r) s).currentResponseId = some r.id) := by
  refine ⟨?_, ?_, ?_, ?_⟩
  · intro s r
    exact handleEvent_lifecycle_reset_eq .created r s (Or.inl rfl)
  · intro s r kind hne hdiff
    exact handleEvent_lifecycle_reset_eq kind r s (Or.inr ⟨hne, hdiff⟩)
  · intro s r kind hmatch hkc
    have hc : ¬ (kind = LifecycleKind.created ∨
        (¬ r.id = "" ∧ ¬ ({ s with eventEmits := s.eventEmits + 1 } : Session).currentResponseId = some r.id)) := by
      intro hcon
      rcases hcon with h1 | ⟨h2, h3⟩
      · exact hkc h1
      · exact h3 hmatch
    have hmut := mutateSnapshot_lifecycle_noreset kind r
      { s with eventEmits := s.eventEmits + 1 } hc
    constructor
    · intro iid h
      rw [handleEvent_lifecycle_eq, (emitChange_maps _).1, hmut]
      exact sync_imap_mono _ iid h
    · intro oi h
      rw [handleEvent_lifecycle_eq, (emitChange_maps _).2.1, hmut]
      exact sync_omap_mono _ oi h
  · intro s r kind
    rw [handleEvent_lifecycle_eq, (emitChange_maps _).2.2.2.2]
    exact mutateSnapshot_lifecycle_currentId kind r _

/-- C6 witness: the reset-equality at a concrete session for a created event
and for an in_progress event with a fresh non-empty id, and an id binding
surviving a matching-id event. -/
theorem c6_reset_discipline_witness :
    handleEvent (.lifecycle .created respB) c6Before =
      handleEvent (.lifecycle .created respB) (resetCurrentResponseOutputs c6Before) ∧
    handleEvent (.lifecycle .inProgress respB) c6Before =
      handleEvent (.lifecycle .inProgress respB) (resetCurrentResponseOutputs c6Before) ∧
    (aget (handleEvent (.lifecycle .inProgress respA) c6Before).idToIndex "m0").isSome = true := by
  refine ⟨c6_reset_discipline.1 c6Before respB, ?_, ?_⟩
  · exact c6_reset_discipline.2.1 c6Before respB .inProgress (by decide) (by decide)
  · exact (c6_reset_discipline.2.2.1 c6Before respA .inProgress (by decide)
      (by decide)).1 "m0" (by decide)

/-! #### Kind-mismatch handling (claim C3): helper lemmas -/

theorem listGetOpt_some_lt {α : Type _} (l : List (Option α)) (n : Nat) (v : α)
    (h : listGetOpt l n = some v) : n < l.length := by
  unfold listGetOpt at h
  rcases hg : lget l n with _ | o
  · rw [hg] at h
    cases h
  · exact lget_some_lt l n o hg

theorem lget_padSet_self {α : Type _} :
    ∀ (l : List (Option α)) (n : Nat) (a : α),
      lget (padSet l n a) n = some (some a) := by
  intro l
  induction l with
  | nil =>
    intro n a
    induction n with
    | zero => rfl
    | succ m ih => simpa [padSet] using ih
  | cons x xs ih =>
    intro n a
    cases n with
    | zero => rfl
    | succ m => simpa [padSet] using ih m a

theorem listGetOpt_padSet_self {α : Type _} (l : List (Option α)) (n : Nat)
    (a : α) : listGetOpt (padSet l n a) n = some a := by
  unfold listGetOpt
  rw [lget_padSet_self]

theorem OutputItem.kind_setItemId (it : OutputItem) (i : String) :
    (it.setItemId i).kind = it.kind := by
  cases it <;> rfl

theorem createPlaceholderOutput_kind (kind : OutputKind) (iid : Option String)
    (s : Session) : (createPlaceholderOutput kind iid s).1.kind = kind := by
  rcases iid with _ | i <;> cases kind <;> rfl

theorem createPlaceholderOutput_state (kind : OutputKind) (iid : Option String)
    (s : Session) :
    ∃ F, (createPlaceholderOutput kind iid s).2 = { s with freshCounter := F } := by
  rcases iid with _ | i <;> cases kind <;> exact ⟨_, rfl⟩

theorem registerItemId_messages (oid : Option String) (idx : Nat) (s : Session) :
    (registerItemId oid idx s).messages = s.messages := by
  unfold registerItemId
  split
  · split <;> rfl
  · rfl

theorem registerItemId_snap (oid : Option String) (idx : Nat) (s : Session) :
    (registerItemId oid idx s).responseSnapshot = s.responseSnapshot := by
  unfold registerItemId
  split
  · split <;> rfl
  · rfl

theorem setSnapshotOutput_of_some (s : Session) (oi : Nat) (item : OutputItem)
    (r : RespPayload) (h : s.responseSnapshot = some r) :
    setSnapshotOutput s oi item = { s with responseSnapshot := some { r with output := padSet r.output oi item } } := by
  unfold setSnapshotOutput
  rw [h]

theorem setSnapshotOutputRaw_of_some (s : Session) (oi : Nat) (item : OutputItem)
    (r : RespPayload) (h : s.responseSnapshot = some r) :
    setSnapshotOutputRaw s oi item = { s with responseSnapshot := some { r with output := lset r.output oi (some item) } } := by
  unfold setSnapshotOutputRaw
  rw [h]

theorem installSnapshotPlaceholder_post (s : Session) (oi : Nat)
    (kind : OutputKind) (iid : Option String) (r : RespPayload)
    (h : s.responseSnapshot = some r) :
    ∃ (item : OutputItem) (s' : Session) (r' : RespPayload),
      installSnapshotPlaceholder s oi kind iid = (item, s') ∧
      item.kind = kind ∧ s'.responseSnapshot = some r' ∧
      listGetOpt r'.output oi = some item ∧
      s'.messages = s.messages ∧
      s'.outputIndexToMessageIndex = s.outputIndexToMessageIndex := by
  obtain ⟨F, hcp⟩ := createPlaceholderOutput_state kind iid s
  have h2 : (({ s with freshCounter := F } : Session)).responseSnapshot = some r := h
  refine ⟨(createPlaceholderOutput kind iid s).1,
    registerItemId (some (createPlaceholderOutput kind iid s).1.itemId) oi
      (setSnapshotOutput (createPlaceholderOutput kind iid s).2 oi (createPlaceholderOutput kind iid s).1),
    { r with output := padSet r.output oi (createPlaceholderOutput kind iid s).1 },
    rfl, createPlaceholderOutput_kind kind iid s, ?_, ?_, ?_, ?_⟩
  · rw [registerItemId_snap, hcp,
      setSnapshotOutput_of_some { s with freshCounter := F } oi _ r h2]
  · exact listGetOpt_padSet_self r.output oi _
  · rw [registerItemId_messages, hcp,
      setSnapshotOutput_of_some { s with freshCounter := F } oi _ r h2]
  · rw [registerItemId_omap, hcp,
      setSnapshotOutput_of_some { s with freshCounter := F } oi _ r h2]

theorem ensureSnapshotOutputItem_post (s : Session) (oi : Nat)
    (kind : OutputKind) (iid : Option String) (r : RespPayload)
    (h : s.responseSnapshot = some r) :
    ∃ (item : OutputItem) (s' : Session) (r' : RespPayload),
      ensureSnapshotOutputItem s oi kind iid = (some item, s') ∧
      item.kind = kind ∧ s'.responseSnapshot = some r' ∧
      listGetOpt r'.output oi = some item ∧
      s'.messages = s.messages ∧
      s'.outputIndexToMessageIndex = s.outputIndexToMessageIndex := by
  have hinstall : ∃ (item : OutputItem) (s' : Session) (r' : RespPayload),
      ((some (installSnapshotPlaceholder s oi kind iid).1 : Option OutputItem),
        (installSnapshotPlaceholder s oi kind iid).2) = (some item, s') ∧
      item.kind = kind ∧ s'.responseSnapshot = some r' ∧
      listGetOpt r'.output oi = some item ∧
      s'.messages = s.messages ∧
      s'.outputIndexToMessageIndex = s.outputIndexToMessageIndex := by
    obtain ⟨item, s', r', heq, h1, h2, h3, h4, h5⟩ :=
      installSnapshotPlaceholder_post s oi kind iid r h
    refine ⟨item, s', r', ?_, h1, h2, h3, h4, h5⟩
    rw [show (installSnapshotPlaceholder s oi kind iid).1 = item from congrArg Prod.fst heq,
      show (installSnapshotPlaceholder s oi kind iid).2 = s' from congrArg Prod.snd heq]
  unfold ensureSnapshotOutputItem
  rw [h]
  simp only []
  rcases hitem : listGetOpt r.output oi with _ | item0
  · exact hinstall
  · have hlt : oi < r.output.length := listGetOpt_some_lt r.output oi item0 hitem
    have hmatch : ∀ item2 : OutputItem, item2.kind = kind →
        ∃ (item : OutputItem) (s' : Session) (r' : RespPayload),
          ((some item2 : Option OutputItem),
            registerItemId (some item2.itemId) oi (setSnapshotOutputRaw s oi item2)) = (some item, s') ∧
          item.kind = kind ∧ s'.responseSnapshot = some r' ∧
          listGetOpt r'.output oi = some item ∧
          s'.messages = s.messages ∧
          s'.outputIndexToMessageIndex = s.outputIndexToMessageIndex := by
      intro item2 hk2
      refine ⟨item2, _, { r with output := lset r.output oi (some item2) },
        rfl, hk2, ?_, ?_, ?_, ?_⟩
      · rw [registerItemId_snap, setSnapshotOutputRaw_of_some s oi item2 r h]
      · exact listGetOpt_lset_some r.output oi item2 hlt
      · rw [registerItemId_messages, setSnapshotOutputRaw_of_some s oi item2 r h]
      · rw [registerItemId_omap, setSnapshotOutputRaw_of_some s oi item2 r h]
    simp only []
    by_cases hkind : item0.kind = kind
    · rw [if_pos hkind]
      rcases iid with _ | iv
      · exact hmatch item0 hkind
      · simp only []
        by_cases hiv : iv = ""
        · rw [if_pos hiv]
          exact hmatch item0 hkind
        · rw [if_neg hiv]
          by_cases hideq : item0.itemId = iv
          · rw [if_pos hideq]
            exact hmatch item0 hkind
          · rw [if_neg hideq]
            exact hmatch (item0.setItemId iv)
              (by rw [OutputItem.kind_setItemId]; exact hkind)
    · rw [if_neg hkind]
      exact hinstall

theorem isOutputAt_elim (s : Session) (k : Nat) (h : isOutputAt s k = true) :
    ∃ it oi2 evs, lget s.messages k = some (.output it oi2 evs) := by
  unfold isOutputAt at h
  rcases hlg : lget s.messages k with _ | m
  · rw [hlg] at h
    simp at h
  · rcases m with it | ⟨it, oi2, evs⟩
    · rw [hlg] at h
      simp at h
    · exact ⟨it, oi2, evs, rfl⟩

theorem findOutputEntryIdx_isOutput (s : Session) (iid : Option String)
    (oi : Option Nat) (k : Nat) (h : findOutputEntryIdx s iid oi = some k) :
    isOutputAt s k = true := by
  unfold findOutputEntryIdx at h
  simp only [] at h
  split at h
  case _ k2 hby =>
    injection h with hk
    subst hk
    rcases iid with _ | i
    · simp at hby
    · simp only [] at hby
      split at hby
      · simp at hby
      · split at hby
        · split at hby
          case _ hio =>
            injection hby with hk2
            subst hk2
            exact hio
          case _ => simp at hby
        · simp at hby
  case _ hby =>
    rcases oi with _ | o
    · simp at h
    · simp only [] at h
      split at h
      · split at h
        case _ hio =>
          injection h with hk
          subst hk
          exact hio
        case _ => simp at h
      · simp at h

theorem snapshotTextStep_noSnap (s : Session) (oi : Nat) (iid : String)
    (c : Nat) (f : String → String) (h : s.responseSnapshot = none) :
    snapshotTextStep s oi iid c f = s := by
  unfold snapshotTextStep ensureSnapshotOutputItem
  rw [h]

theorem messageTextStep_noop (s : Session) (i : String) (oi c : Nat)
    (f : String → String) (ev : Event)
    (hsnap : s.responseSnapshot = none)
    (hmis : ∀ k, findOutputEntryIdx s (some i) (some oi) = some k →
      ¬ outputKindAt s k = some OutputKind.message) :
    messageTextStep s i oi c f ev = s := by
  unfold messageTextStep
  rcases hf : findOutputEntryIdx s (some i) (some oi) with _ | k
  · have hpres : ensureOutputItemPresence s oi .message (some i) = (none, s) := by
      unfold ensureOutputItemPresence ensureSnapshotOutputItem
      rw [hsnap]
    rw [hpres]
  · have hout := findOutputEntryIdx_isOutput s (some i) (some oi) k hf
    obtain ⟨it, oi2, evs, hlg⟩ := isOutputAt_elim s k hout
    have hkind := hmis k hf
    rcases it with ⟨mid, mst, content⟩ | ⟨fid, cid, nm, args, st⟩ | ⟨mi, mn, sl, ar⟩
    · exfalso
      apply hkind
      unfold outputKindAt
      rw [hlg]
      rfl
    · simp only []
      rw [hlg]
    · simp only []
      rw [hlg]

theorem snapshotKindAt_eq_of_snap {s t : Session}
    (h : t.responseSnapshot = s.responseSnapshot) (oi : Nat) :
    snapshotKindAt t oi = snapshotKindAt s oi := by
  unfold snapshotKindAt snapshotOutputAt
  rw [h]

theorem snapshotTextStep_snapKind (s : Session) (oi : Nat) (iid : String)
    (c : Nat) (f : String → String) (r : RespPayload)
    (h : s.responseSnapshot = some r) :
    snapshotKindAt (snapshotTextStep s oi iid c f) oi = some OutputKind.message := by
  obtain ⟨item, s', r', heq, hkind, hsnap', hstored, hmsg, homap⟩ :=
    ensureSnapshotOutputItem_post s oi .message (some iid) r h
  unfold snapshotTextStep
  rw [heq]
  simp only []
  rcases item with ⟨mid, mst, content⟩ | ⟨a1, a2, a3, a4, a5⟩ | ⟨b1, b2, b3, b4⟩
  · obtain ⟨item2, s'', r'', heq2, hkind2, hsnap'', hstored2, hmsg2, homap2⟩ :=
      ensureSnapshotOutputItem_post s' oi .message (some iid) r' hsnap'
    unfold ensureOutputItemPresence
    rw [heq2]
    simp only []
    have hts : (ensureOutputEntry s'' item2 oi).2.responseSnapshot = some r'' := by
      rw [onlyMapsSnap (onlyMaps_ensureOutputEntry s'' item2 oi)]
      exact hsnap''
    have hkR : snapshotKindAt (ensureOutputEntry s'' item2 oi).2 oi = some OutputKind.message := by
      unfold snapshotKindAt snapshotOutputAt
      rw [hts]
      simp only []
      rw [hstored2]
      simp only []
      rw [hkind2]
    by_cases hatt : snapshotSlotAttached s oi OutputKind.message = true
    · rw [if_pos hatt]
      rw [setSnapshotOutputRaw_of_some _ oi _ r'' hts]
      unfold snapshotKindAt snapshotOutputAt
      simp only []
      rw [listGetOpt_lset_some r''.output oi _
        (listGetOpt_some_lt r''.output oi item2 hstored2)]
      rfl
    · rw [if_neg hatt]
      exact hkR
  · exact absurd hkind (by simp [OutputItem.kind])
  · exact absurd hkind (by simp [OutputItem.kind])

theorem messageTextStep_tail_snapKind (t : Session) (kk c : Nat)
    (f : String → String) (ev : Event) (oi : Nat)
    (hkR : snapshotKindAt t oi = some OutputKind.message) :
    snapshotKindAt (match lget t.messages kk with
      | some (Message.output (OutputItem.message mid mst content) oi2 evs) =>
        pushEventAt { t with messages := lset t.messages kk (Message.output (.message mid mst (applyMessageText content c f)) oi2 evs) } kk ev
      | _ => t) oi = some OutputKind.message := by
  rcases hlg : lget t.messages kk with _ | m
  · exact hkR
  · rcases m with it | ⟨it, oi2, evs⟩
    · exact hkR
    · rcases it with ⟨mid, mst, content⟩ | ⟨a1, a2, a3, a4, a5⟩ | ⟨b1, b2, b3, b4⟩
      · calc snapshotKindAt (pushEventAt { t with messages := lset t.messages kk (Message.output (.message mid mst (applyMessageText content c f)) oi2 evs) } kk ev) oi
            = snapshotKindAt { t with messages := lset t.messages kk (Message.output (.message mid mst (applyMessageText content c f)) oi2 evs) } oi :=
              snapshotKindAt_eq_of_snap (onlyMapsSnap (onlyMaps_pushEventAt _ _ _)) oi
          _ = some OutputKind.message := hkR
      · exact hkR
      · exact hkR

theorem messageTextStep_snapKind (s : Session) (i : String) (oi c : Nat)
    (f : String → String) (ev : Event)
    (hk : snapshotKindAt s oi = some OutputKind.message) :
    snapshotKindAt (messageTextStep s i oi c f ev) oi = some OutputKind.message := by
  rcases hs : s.responseSnapshot with _ | r
  · exfalso
    unfold snapshotKindAt snapshotOutputAt at hk
    rw [hs] at hk
    simp at hk
  · unfold messageTextStep
    rcases hf : findOutputEntryIdx s (some i) (some oi) with _ | k
    · obtain ⟨item2, s', r', heq2, hkind2, hsnap', hstored2, hmsg2, homap2⟩ :=
        ensureSnapshotOutputItem_post s oi .message (some i) r hs
      unfold ensureOutputItemPresence
      rw [heq2]
      simp only []
      have hts : (ensureOutputEntry s' item2 oi).2.responseSnapshot = some r' := by
        rw [onlyMapsSnap (onlyMaps_ensureOutputEntry s' item2 oi)]
        exact hsnap'
      have hkR : snapshotKindAt (ensureOutputEntry s' item2 oi).2 oi = some OutputKind.message := by
        unfold snapshotKindAt snapshotOutputAt
        rw [hts]
        simp only []
        rw [hstored2]
        simp only []
        rw [hkind2]
      exact messageTextStep_tail_snapKind (ensureOutputEntry s' item2 oi).2
        (ensureOutputEntry s' item2 oi).1 c f ev oi hkR
    · exact messageTextStep_tail_snapKind s k c f ev oi hk

/-! #### Delta/done reconciliation (claim C2): helper lemmas -/

theorem listGetOpt_some_lget {α : Type _} (l : List (Option α)) (n : Nat)
    (v : α) (h : listGetOpt l n = some v) : lget l n = some (some v) := by
  unfold listGetOpt at h
  rcases hg : lget l n with _ | o
  · rw [hg] at h
    cases h
  · rw [hg] at h
    simp only [] at h
    rw [h]

theorem session_set_snap_self (s : Session) (x : Option RespPayload)
    (h : s.responseSnapshot = x) : { s with responseSnapshot := x } = s := by
  cases s
  cases h
  rfl

theorem registerItemId_eq (i : String) (idx : Nat) (s : Session)
    (hi : ¬ i = "") :
    registerItemId (some i) idx s = { s with idToIndex := aset s.idToIndex i idx } := by
  unfold registerItemId
  simp only []
  rw [if_neg hi]

theorem OutputItem.itemId_setItemId (it : OutputItem) (i : String) :
    (it.setItemId i).itemId = i := by
  cases it <;> rfl

theorem ensureSnapshotOutputItem_found_sameId (s : Session) (oi : Nat)
    (kind : OutputKind) (i : String) (item : OutputItem) (r : RespPayload)
    (hsnap : s.responseSnapshot = some r)
    (hitem : listGetOpt r.output oi = some item)
    (hkind : item.kind = kind) (hi : ¬ i = "") (hid : item.itemId = i) :
    ensureSnapshotOutputItem s oi kind (some i) =
      (some item, { s with idToIndex := aset s.idToIndex i oi }) := by
  unfold ensureSnapshotOutputItem
  rw [hsnap]
  simp only []
  rw [hitem]
  simp only []
  rw [if_pos hkind]
  rw [if_neg hi, if_pos hid]
  rw [setSnapshotOutputRaw_of_some s oi item r hsnap,
    lset_eq_of_lget r.output oi (some item) (listGetOpt_some_lget r.output oi item hitem)]
  rw [session_set_snap_self s (some { r with output := r.output }) hsnap]
  rw [hid]
  rw [registerItemId_eq i oi s hi]
  rw [hsnap]

theorem ensureSnapshotOutputItem_found_newId (s : Session) (oi : Nat)
    (kind : OutputKind) (i : String) (item : OutputItem) (r : RespPayload)
    (hsnap : s.responseSnapshot = some r)
    (hitem : listGetOpt r.output oi = some item)
    (hkind : item.kind = kind) (hi : ¬ i = "") (hid : ¬ item.itemId = i) :
    ensureSnapshotOutputItem s oi kind (some i) =
      (some (item.setItemId i),
        { s with
            responseSnapshot := some { r with output := lset r.output oi (some (item.setItemId i)) },
            idToIndex := aset s.idToIndex i oi }) := by
  unfold ensureSnapshotOutputItem
  rw [hsnap]
  simp only []
  rw [hitem]
  simp only []
  rw [if_pos hkind]
  rw [if_neg hi, if_neg hid]
  rw [setSnapshotOutputRaw_of_some s oi (item.setItemId i) r hsnap]
  rw [OutputItem.itemId_setItemId item i]
  rw [registerItemId_eq i oi _ hi]

theorem pushEventAt_eq (s : Session) (k : Nat) (it : OutputItem) (oi : Nat)
    (evs : List Event) (ev : Event)
    (h : lget s.messages k = some (.output it oi evs)) :
    pushEventAt s k ev = { s with messages := lset s.messages k (.output it oi (evs ++ [ev])) } := by
  unfold pushEventAt
  rw [h]

theorem ensureOutputEntry_hit (s : Session) (item : OutputItem) (oi k : Nat)
    (item0 : OutputItem) (oiK : Nat) (evs : List Event)
    (homap : aget s.outputIndexToMessageIndex oi = some k)
    (hmsg : lget s.messages k = some (.output item0 oiK evs))
    (hid : ¬ item.itemId = "") :
    ensureOutputEntry s item oi =
      (k, { s with
          messages := lset s.messages k (.output item oi evs),
          idToIndex := aset s.idToIndex item.itemId k }) := by
  unfold ensureOutputEntry
  rw [homap]
  simp only []
  rw [hmsg]
  simp only []
  rw [registerItemId_eq item.itemId k _ hid]

theorem findOutputEntryIdx_byId (s : Session) (i : String) (oi2 : Option Nat)
    (k : Nat) (hi : ¬ i = "") (hag : aget s.idToIndex i = some k)
    (hout : isOutputAt s k = true) :
    findOutputEntryIdx s (some i) oi2 = some k := by
  unfold findOutputEntryIdx
  simp only []
  rw [if_neg hi, hag]
  simp only []
  rw [hout]
  rfl

theorem applySnapshotText_const (content : List (Option ContentPart)) (c : Nat)
    (T : String) :
    listGetOpt (applySnapshotText content c (fun _ => T)) c = some (.outputText T) := by
  unfold applySnapshotText
  simp only []
  have hlen := padTo_length (.outputText "") content c
  rcases hg : listGetOpt (padTo (.outputText "") content c) c with _ | part
  · simp only []
    exact listGetOpt_lset_some _ _ _ hlen
  · rcases part with t | ref
    · simp only []
      exact listGetOpt_lset_some _ _ _ hlen
    · simp only []
      exact listGetOpt_lset_some _ _ _ hlen

theorem ensureMessageContentSlot_text (content : List (Option ContentPart))
    (index : Nat) :
    (∃ t, listGetOpt (ensureMessageContentSlot content index .outputText) index =
      some (.outputText t)) ∧
    index < (ensureMessageContentSlot content index .outputText).length := by
  unfold ensureMessageContentSlot
  simp only []
  have hlen := padTo_length (.outputText "") content index
  rcases hg : listGetOpt (padTo (.outputText "") content index) index with _ | part
  · simp only []
    constructor
    · exact ⟨"", listGetOpt_lset_some _ _ _ hlen⟩
    · rw [lset_length]
      exact hlen
  · rcases part with t | ref
    · simp only []
      rw [if_pos (show (ContentPart.outputText t).partKind = ContentKind.outputText from rfl)]
      exact ⟨⟨t, hg⟩, hlen⟩
    · simp only []
      rw [if_neg (show ¬ (ContentPart.refusal ref).partKind = ContentKind.outputText by simp [ContentPart.partKind])]
      constructor
      · exact ⟨"", listGetOpt_lset_some _ _ _ hlen⟩
      · rw [lset_length]
        exact hlen

theorem applyMessageText_const (content : List (Option ContentPart)) (c : Nat)
    (T : String) :
    listGetOpt (applyMessageText content c (fun _ => T)) c = some (.outputText T) := by
  obtain ⟨⟨t, hg⟩, hlen⟩ := ensureMessageContentSlot_text content c
  unfold applyMessageText
  simp only []
  rw [hg]
  simp only []
  exact listGetOpt_lset_some _ _ _ hlen

theorem emitChange_snapEq (s : Session) :
    (emitChange s).responseSnapshot = s.responseSnapshot :=
  (emitChange_maps s).2.2.2.1

theorem emitChange_omapEq (s : Session) :
    (emitChange s).outputIndexToMessageIndex = s.outputIndexToMessageIndex :=
  (emitChange_maps s).2.1

theorem emitChange_messagesEq (s : Session) :
    (emitChange s).messages = s.messages :=
  (emitChange_maps s).2.2.1

theorem ensureOutputItemPresence_msg_hit (s : Session) (oi k : Nat)
    (i st : String) (content : List (Option ContentPart)) (r : RespPayload)
    (item0 : OutputItem) (oiK : Nat) (evs : List Event)
    (hsnap : s.responseSnapshot = some r)
    (hitem : listGetOpt r.output oi = some (.message i st content))
    (hi : ¬ i = "")
    (homap : aget s.outputIndexToMessageIndex oi = some k)
    (hmsg : lget s.messages k = some (.output item0 oiK evs)) :
    ensureOutputItemPresence s oi .message (some i) =
      (some k, { s with
          messages := lset s.messages k (.output (.message i st content) oi evs),
          idToIndex := aset (aset s.idToIndex i oi) i k }) := by
  unfold ensureOutputItemPresence
  rw [ensureSnapshotOutputItem_found_sameId s oi .message i (.message i st content) r hsnap hitem rfl hi rfl]
  simp only []
  rw [ensureOutputEntry_hit { s with idToIndex := aset s.idToIndex i oi } (.message i st content) oi k item0 oiK evs homap hmsg hi]
  rfl

theorem snapshotTextStep_msg_hit (s : Session) (oi c k : Nat)
    (i st : String) (content : List (Option ContentPart))
    (f : String → String) (r : RespPayload)
    (item0 : OutputItem) (oiK : Nat) (evs : List Event)
    (hsnap : s.responseSnapshot = some r)
    (hitem : listGetOpt r.output oi = some (.message i st content))
    (hi : ¬ i = "")
    (homap : aget s.outputIndexToMessageIndex oi = some k)
    (hmsg : lget s.messages k = some (.output item0 oiK evs)) :
    snapshotTextStep s oi i c f =
      { s with
          messages := lset s.messages k (.output (.message i st content) oi evs),
          idToIndex := aset (aset (aset s.idToIndex i oi) i oi) i k,
          responseSnapshot := some { r with output := lset r.output oi (some (.message i st (applySnapshotText content c f))) } } := by
  have hatt : snapshotSlotAttached s oi .message = true := by
    unfold snapshotSlotAttached snapshotOutputAt
    rw [hsnap]
    simp only []
    rw [hitem]
    rfl
  unfold snapshotTextStep
  rw [ensureSnapshotOutputItem_found_sameId s oi .message i (.message i st content) r hsnap hitem rfl hi rfl]
  simp only []
  rw [hatt, if_pos rfl]
  rw [ensureOutputItemPresence_msg_hit { s with idToIndex := aset s.idToIndex i oi } oi k i st content r item0 oiK evs hsnap hitem hi homap hmsg]
  unfold setSnapshotOutputRaw
  simp only []
  rw [hsnap]

theorem messageTextStep_hit (s : Session) (oi c k : Nat)
    (i st : String) (content : List (Option ContentPart))
    (f : String → String) (ev : Event) (oi2 : Nat) (evs2 : List Event)
    (hi : ¬ i = "")
    (hag : aget s.idToIndex i = some k)
    (hget : lget s.messages k = some (.output (.message i st content) oi2 evs2)) :
    messageTextStep s i oi c f ev =
      { s with messages := lset (lset s.messages k (.output (.message i st (applyMessageText content c f)) oi2 evs2)) k (.output (.message i st (applyMessageText content c f)) oi2 (evs2 ++ [ev])) } := by
  have hklen : k < s.messages.length := lget_some_lt s.messages k _ hget
  have hout : isOutputAt s k = true := by
    unfold isOutputAt
    rw [hget]
  unfold messageTextStep
  rw [findOutputEntryIdx_byId s i (some oi) k hi hag hout]
  simp only []
  rw [hget]
  simp only []
  rw [pushEventAt_eq { s with messages := lset s.messages k (.output (.message i st (applyMessageText content c f)) oi2 evs2) } k (.message i st (applyMessageText content c f)) oi2 evs2 ev (lget_lset_self s.messages k (Message.output (.message i st (applyMessageText content c f)) oi2 evs2) hklen)]

theorem c2_text_step (s : Session) (i : String) (oi c k : Nat)
    (f : String → String) (ev : Event)
    (r : RespPayload) (st : String) (content : List (Option ContentPart))
    (item0 : OutputItem) (oiK : Nat) (evs : List Event)
    (hi : ¬ i = "")
    (hsnap : s.responseSnapshot = some r)
    (hitem : listGetOpt r.output oi = some (.message i st content))
    (homap : aget s.outputIndexToMessageIndex oi = some k)
    (hmsg : lget s.messages k = some (.output item0 oiK evs))
    (hev : handleEvent ev s = emitChange (messageTextStep (snapshotTextStep { s with eventEmits := s.eventEmits + 1 } oi i c f) i oi c f ev)) :
    (handleEvent ev s).responseSnapshot = some { r with output := lset r.output oi (some (.message i st (applySnapshotText content c f))) } ∧
    aget (handleEvent ev s).outputIndexToMessageIndex oi = some k ∧
    lget (handleEvent ev s).messages k = some (.output (.message i st (applyMessageText content c f)) oi (evs ++ [ev])) := by
  have hklen : k < s.messages.length := lget_some_lt s.messages k _ hmsg
  have hS : snapshotTextStep { s with eventEmits := s.eventEmits + 1 } oi i c f =
      { s with
          eventEmits := s.eventEmits + 1,
          messages := lset s.messages k (.output (.message i st content) oi evs),
          idToIndex := aset (aset (aset s.idToIndex i oi) i oi) i k,
          responseSnapshot := some { r with output := lset r.output oi (some (.message i st (applySnapshotText content c f))) } } :=
    snapshotTextStep_msg_hit { s with eventEmits := s.eventEmits + 1 } oi c k i st content f r item0 oiK evs hsnap hitem hi homap hmsg
  have happ := messageTextStep_hit
    { s with
        eventEmits := s.eventEmits + 1,
        messages := lset s.messages k (.output (.message i st content) oi evs),
        idToIndex := aset (aset (aset s.idToIndex i oi) i oi) i k,
        responseSnapshot := some { r with output := lset r.output oi (some (.message i st (applySnapshotText content c f))) } }
    oi c k i st content f ev oi evs hi
    (aget_aset_self (aset (aset s.idToIndex i oi) i oi) i k)
    (lget_lset_self s.messages k (Message.output (.message i st content) oi evs) hklen)
  rw [hev, hS, happ]
  refine ⟨?_, ?_, ?_⟩
  · rw [emitChange_snapEq]
  · rw [emitChange_omapEq]
    exact homap
  · rw [emitChange_messagesEq]
    exact lget_lset_self _ k _ (by rw [lset_length, lset_length]; exact hklen)

theorem snapshotTextAt_of (s : Session) (oi c : Nat) (r : RespPayload)
    (i st T : String) (content : List (Option ContentPart))
    (h1 : s.responseSnapshot = some r)
    (h2 : listGetOpt r.output oi = some (.message i st content))
    (h3 : listGetOpt content c = some (.outputText T)) :
    snapshotTextAt s oi c = some T := by
  unfold snapshotTextAt snapshotOutputAt
  rw [h1]
  simp only []
  rw [h2]
  simp only []
  rw [h3]

theorem transcriptTextAt_of (s : Session) (k c : Nat)
    (i st T : String) (content : List (Option ContentPart))
    (oi2 : Nat) (evs2 : List Event)
    (h1 : lget s.messages k = some (.output (.message i st content) oi2 evs2))
    (h3 : listGetOpt content c = some (.outputText T)) :
    transcriptTextAt s k c = some T := by
  unfold transcriptTextAt
  rw [h1]
  simp only []
  rw [h3]

theorem c2_ready_fold (i : String) (oi c k : Nat) (hi : ¬ i = "")
    (deltas : List String) :
    ∀ s : Session, C2Ready s i oi k →
      C2Ready (deltas.foldl (fun t d => handleEvent (.outputTextDelta i oi c d) t) s) i oi k := by
  induction deltas with
  | nil => intro s hready; exact hready
  | cons d ds ih =>
    intro s hready
    obtain ⟨r, st, content, item0, oiK, evs, h1, h2, h3, h4⟩ := hready
    obtain ⟨g1, g2, g3⟩ := c2_text_step s i oi c k (fun t => t ++ d)
      (.outputTextDelta i oi c d) r st content item0 oiK evs hi h1 h2 h3 h4 rfl
    exact ih _ ⟨_, st, _, _, oi, _, g1,
      listGetOpt_lset_some r.output oi _ (listGetOpt_some_lt r.output oi _ h2), g2, g3⟩

/-- **C2**: for a tracked output message (the `C2Ready` precondition: the
snapshot holds a message with nonempty id `i` at output position `oi`,
mirrored at transcript position `k`), ingesting any sequence of
`response.output_text.delta` events followed by a
`response.output_text.done` event carrying final text `T` leaves the stored
text of content part `c` exactly `T` in both the response-snapshot
projection and the transcript projection: the done value replaces the
accumulated deltas and is never concatenated with them. -/
theorem c2_done_overrides_deltas (s : Session) (i : String) (oi c k : Nat)
    (deltas : List String) (T : String) (hi : ¬ i = "")
    (hready : C2Ready s i oi k) :
    snapshotTextAt (handleEvent (.outputTextDone i oi c T)
      (deltas.foldl (fun t d => handleEvent (.outputTextDelta i oi c d) t) s)) oi c = some T ∧
    transcriptTextAt (handleEvent (.outputTextDone i oi c T)
      (deltas.foldl (fun t d => handleEvent (.outputTextDelta i oi c d) t) s)) k c = some T := by
  obtain ⟨r, st, content, item0, oiK, evs, h1, h2, h3, h4⟩ :=
    c2_ready_fold i oi c k hi deltas s hready
  obtain ⟨g1, g2, g3⟩ := c2_text_step _ i oi c k (fun _ => T)
    (.outputTextDone i oi c T) r st content item0 oiK evs hi h1 h2 h3 h4 rfl
  constructor
  · exact snapshotTextAt_of _ oi c _ i st T _ g1
      (listGetOpt_lset_some r.output oi _ (listGetOpt_some_lt r.output oi _ h2))
      (applySnapshotText_const content c T)
  · exact transcriptTextAt_of _ k c i st T _ oi _ g3 (applyMessageText_const content c T)

/-- Witness for C2: a session initialized from a response carrying message
`m1`, fed deltas `"Hel"`, `"lo"` and then a done event with `"Hello"`,
stores exactly `"Hello"` in both projections. -/
theorem c2_done_overrides_deltas_witness :
    (¬ "m1" = "") ∧ C2Ready (runSession [] (some respMsg) []) "m1" 0 0 ∧
    (snapshotTextAt (handleEvent (.outputTextDone "m1" 0 0 "Hello")
        ((["Hel", "lo"] : List String).foldl
          (fun t d => handleEvent (.outputTextDelta "m1" 0 0 d) t)
          (runSession [] (some respMsg) []))) 0 0 = some "Hello" ∧
      transcriptTextAt (handleEvent (.outputTextDone "m1" 0 0 "Hello")
        ((["Hel", "lo"] : List String).foldl
          (fun t d => handleEvent (.outputTextDelta "m1" 0 0 d) t)
          (runSession [] (some respMsg) []))) 0 0 = some "Hello") :=
  ⟨by decide,
   ⟨respMsg, "in_progress", [], .message "m1" "in_progress" [], 0, [],
     by decide, by decide, by decide, by decide⟩,
   c2_done_overrides_deltas (runSession [] (some respMsg) []) "m1" 0 0 0
     ["Hel", "lo"] "Hello" (by decide)
     ⟨respMsg, "in_progress", [], .message "m1" "in_progress" [], 0, [],
       by decide, by decide, by decide, by decide⟩⟩

/-! #### Identity stability (claim C7): helper lemmas -/

theorem findOutputEntryIdx_byOi (s : Session) (oi k : Nat)
    (hag : aget s.outputIndexToMessageIndex oi = some k)
    (hout : isOutputAt s k = true) :
    findOutputEntryIdx s none (some oi) = some k := by
  unfold findOutputEntryIdx
  simp only []
  rw [hag]
  simp only []
  rw [hout]
  rfl

theorem recordOutputEvent_byId (s : Session) (oi2 : Option Nat) (i : String)
    (ev : Event) (k : Nat) (it : OutputItem) (oiA : Nat) (evsA : List Event)
    (hi : ¬ i = "")
    (hag : aget s.idToIndex i = some k)
    (hget : lget s.messages k = some (.output it oiA evsA)) :
    recordOutputEvent s oi2 (some i) ev =
      { s with messages := lset s.messages k (.output it oiA (evsA ++ [ev])) } := by
  have hout : isOutputAt s k = true := by
    unfold isOutputAt
    rw [hget]
  unfold recordOutputEvent
  simp only []
  rw [if_neg hi, hag]
  simp only []
  rw [hout]
  simp only []
  exact pushEventAt_eq s k it oiA evsA ev hget

theorem ensureOutputItemPresence_newId_hit (s : Session) (oi k : Nat)
    (kind : OutputKind) (i : String) (item : OutputItem) (r : RespPayload)
    (item0 : OutputItem) (oiK : Nat) (evs : List Event)
    (hsnap : s.responseSnapshot = some r)
    (hitem : listGetOpt r.output oi = some item)
    (hkind : item.kind = kind) (hi : ¬ i = "") (hid : ¬ item.itemId = i)
    (homap : aget s.outputIndexToMessageIndex oi = some k)
    (hmsg : lget s.messages k = some (.output item0 oiK evs)) :
    ensureOutputItemPresence s oi kind (some i) =
      (some k, { s with
          responseSnapshot := some { r with output := lset r.output oi (some (item.setItemId i)) },
          messages := lset s.messages k (.output (item.setItemId i) oi evs),
          idToIndex := aset (aset s.idToIndex i oi) i k }) := by
  have hidne : ¬ (item.setItemId i).itemId = "" := by
    rw [OutputItem.itemId_setItemId]
    exact hi
  unfold ensureOutputItemPresence
  rw [ensureSnapshotOutputItem_found_newId s oi kind i item r hsnap hitem hkind hi hid]
  simp only []
  rw [ensureOutputEntry_hit
    { s with
        responseSnapshot := some { r with output := lset r.output oi (some (item.setItemId i)) },
        idToIndex := aset s.idToIndex i oi }
    (item.setItemId i) oi k item0 oiK evs homap hmsg hidne]
  rw [OutputItem.itemId_setItemId]

/-- **C7 amended**: identity stability holds for the events whose handler
adopts the supplied id (the `mcp_call.in_progress` arm, which routes the id
through `ensureSnapshotOutputItem`/`registerItemId`), not for arbitrary
later events (see the counterexample: the default recording path re-registers
the stored item's old id).  An output item tracked at output position `oi`
under a placeholder id (the snapshot item's id differs from `i`), mirrored
at transcript position `k`, that receives a real item id `i` from a later
`mcp_call.in_progress` event for the same position: afterwards lookup by
the new id resolves to transcript position `k`, positional lookup by `oi`
still resolves to the same position `k`, and the entry there holds the item
re-identified as `i` with the event recorded. -/
theorem c7_identity_stability (s : Session) (i : String) (oi k : Nat)
    (it : OutputItem) (r : RespPayload) (item0 : OutputItem) (oiK : Nat)
    (evs : List Event)
    (hi : ¬ i = "")
    (hsnap : s.responseSnapshot = some r)
    (hitem : listGetOpt r.output oi = some it)
    (hkind : it.kind = .mcpCall)
    (hid : ¬ it.itemId = i)
    (homap : aget s.outputIndexToMessageIndex oi = some k)
    (hmsg : lget s.messages k = some (.output item0 oiK evs)) :
    findOutputEntryIdx (handleEvent (.mcpCallInProgress oi (some i)) s) (some i) none = some k ∧
    findOutputEntryIdx (handleEvent (.mcpCallInProgress oi (some i)) s) none (some oi) = some k ∧
    lget (handleEvent (.mcpCallInProgress oi (some i)) s).messages k =
      some (.output (it.setItemId i) oi (evs ++ [.mcpCallInProgress oi (some i)])) := by
  have hklen : k < s.messages.length := lget_some_lt s.messages k _ hmsg
  have hev : handleEvent (.mcpCallInProgress oi (some i)) s =
      emitChange (recordOutputEvent
        (ensureOutputItemPresence { s with eventEmits := s.eventEmits + 1 } oi .mcpCall (some i)).2
        (some oi) (some i) (.mcpCallInProgress oi (some i))) := rfl
  have hpres := ensureOutputItemPresence_newId_hit
    { s with eventEmits := s.eventEmits + 1 } oi k .mcpCall i it r item0 oiK evs
    hsnap hitem hkind hi hid homap hmsg
  have hrec := recordOutputEvent_byId
    { s with
        eventEmits := s.eventEmits + 1,
        responseSnapshot := some { r with output := lset r.output oi (some (it.setItemId i)) },
        messages := lset s.messages k (.output (it.setItemId i) oi evs),
        idToIndex := aset (aset s.idToIndex i oi) i k }
    (some oi) i (.mcpCallInProgress oi (some i)) k (it.setItemId i) oi evs hi
    (aget_aset_self (aset s.idToIndex i oi) i k)
    (lget_lset_self s.messages k (Message.output (it.setItemId i) oi evs) hklen)
  rw [hev, hpres]
  simp only []
  rw [hrec]
  have hget2 : ∀ sx : Session, sx.messages = lset (lset s.messages k (Message.output (it.setItemId i) oi evs)) k (Message.output (it.setItemId i) oi (evs ++ [Event.mcpCallInProgress oi (some i)])) →
      lget sx.messages k = some (Message.output (it.setItemId i) oi (evs ++ [Event.mcpCallInProgress oi (some i)])) := by
    intro sx hx
    rw [hx]
    exact lget_lset_self _ k _ (by rw [lset_length]; exact hklen)
  refine ⟨?_, ?_, ?_⟩
  · refine findOutputEntryIdx_byId _ i none k hi ?_ ?_
    · rw [(emitChange_maps _).1]
      exact aget_aset_self (aset s.idToIndex i oi) i k
    · unfold isOutputAt
      rw [hget2 _ ((emitChange_maps _).2.2.1)]
  · refine findOutputEntryIdx_byOi _ oi k ?_ ?_
    · rw [(emitChange_maps _).2.1]
      exact homap
    · unfold isOutputAt
      rw [hget2 _ ((emitChange_maps _).2.2.1)]
  · exact hget2 _ ((emitChange_maps _).2.2.1)

/-- Witness for C7: a session whose position 0 was created as an
`mcp_call-0` placeholder (from an event with no item id) and then receives
real id `item_1`; both lookups resolve to transcript position 0. -/
theorem c7_identity_stability_witness :
    (¬ ("item_1" : String) = "") ∧
    c7Mid.responseSnapshot = some ⟨"r1", some .inProgress, [some (.mcpCall "mcp_call-0" "" "" "")]⟩ ∧
    (findOutputEntryIdx (handleEvent (.mcpCallInProgress 0 (some "item_1")) c7Mid) (some "item_1") none = some 0 ∧
     findOutputEntryIdx (handleEvent (.mcpCallInProgress 0 (some "item_1")) c7Mid) none (some 0) = some 0 ∧
     lget (handleEvent (.mcpCallInProgress 0 (some "item_1")) c7Mid).messages 0 =
       some (.output ((OutputItem.mcpCall "mcp_call-0" "" "" "").setItemId "item_1") 0
         ([Event.mcpCallInProgress 0 none] ++ [.mcpCallInProgress 0 (some "item_1")]))) :=
  ⟨by decide, by decide,
   c7_identity_stability c7Mid "item_1" 0 0 (.mcpCall "mcp_call-0" "" "" "")
     ⟨"r1", some .inProgress, [some (.mcpCall "mcp_call-0" "" "" "")]⟩
     (.mcpCall "mcp_call-0" "" "" "") 0 [.mcpCallInProgress 0 none]
     (by decide) (by decide) (by decide) (by decide) (by decide) (by decide) (by decide)⟩

/-! #### Kind mismatch (claim C3): the detached-placeholder branch -/

theorem ensureOutputItemPresence_snap_found (t : Session) (oi : Nat)
    (i st : String) (content : List (Option ContentPart)) (rA : RespPayload)
    (hsnap : t.responseSnapshot = some rA)
    (hitem : listGetOpt rA.output oi = some (.message i st content))
    (hi : ¬ i = "") :
    ((ensureOutputItemPresence t oi .message (some i)).2).responseSnapshot = some rA := by
  unfold ensureOutputItemPresence
  rw [ensureSnapshotOutputItem_found_sameId t oi .message i (.message i st content) rA hsnap hitem rfl hi rfl]
  simp only []
  rw [onlyMapsSnap (onlyMaps_ensureOutputEntry _ _ oi)]
  exact hsnap

theorem messageTextStep_snap_of_msgSlot (t : Session) (i : String) (oi c : Nat)
    (f : String → String) (ev : Event) (rA : RespPayload) (st : String)
    (content : List (Option ContentPart))
    (hsnap : t.responseSnapshot = some rA)
    (hitem : listGetOpt rA.output oi = some (.message i st content))
    (hi : ¬ i = "") :
    (messageTextStep t i oi c f ev).responseSnapshot = some rA := by
  have hpfull : ∃ k2 t2, ensureOutputItemPresence t oi .message (some i) = (some k2, t2) ∧
      t2.responseSnapshot = some rA := by
    unfold ensureOutputItemPresence
    rw [ensureSnapshotOutputItem_found_sameId t oi .message i (.message i st content) rA hsnap hitem rfl hi rfl]
    simp only []
    refine ⟨_, _, rfl, ?_⟩
    rw [onlyMapsSnap (onlyMaps_ensureOutputEntry _ _ oi)]
    exact hsnap
  obtain ⟨k2, t2, hp, hs2⟩ := hpfull
  unfold messageTextStep
  simp only []
  split
  · rename_i s1 heq
    rcases hfind : findOutputEntryIdx t (some i) (some oi) with _ | k0
    · rw [hfind] at heq
      simp only [] at heq
      rw [hp] at heq
      injection heq with ha hb
      cases ha
    · rw [hfind] at heq
      simp only [] at heq
      injection heq with ha hb
      cases ha
  · rename_i k s1 heq
    rcases hfind : findOutputEntryIdx t (some i) (some oi) with _ | k0
    · rw [hfind] at heq
      simp only [] at heq
      rw [hp] at heq
      injection heq with ha hb
      subst hb
      split
      · rename_i mid mst content2 oi2 evs hget
        rw [onlyMapsSnap (onlyMaps_pushEventAt _ _ _)]
        exact hs2
      · exact hs2
    · rw [hfind] at heq
      simp only [] at heq
      injection heq with ha hb
      subst hb
      split
      · rename_i mid mst content2 oi2 evs hget
        rw [onlyMapsSnap (onlyMaps_pushEventAt _ _ _)]
        exact hsnap
      · exact hsnap

theorem snapshotTextStep_mismatch (s : Session) (oi : Nat) (i : String)
    (c : Nat) (f : String → String) (r : RespPayload) (it0 : OutputItem)
    (hsnap : s.responseSnapshot = some r)
    (hitem : listGetOpt r.output oi = some it0)
    (hkind : ¬ it0.kind = OutputKind.message)
    (hi : ¬ i = "") :
    (snapshotTextStep s oi i c f).responseSnapshot =
      some { r with output := padSet r.output oi (.message i "in_progress" []) } := by
  have hens : ensureSnapshotOutputItem s oi .message (some i) =
      (some (.message i "in_progress" []),
       { s with
           responseSnapshot := some { r with output := padSet r.output oi (.message i "in_progress" []) },
           idToIndex := aset s.idToIndex i oi }) := by
    unfold ensureSnapshotOutputItem installSnapshotPlaceholder createPlaceholderOutput
    rw [hsnap]
    simp only []
    rw [hitem]
    simp only []
    rw [if_neg hkind]
    rw [setSnapshotOutput_of_some s oi _ r hsnap]
    rw [show (OutputItem.message i "in_progress" []).itemId = i from rfl]
    rw [registerItemId_eq i oi _ hi]
  have hatt : ¬ snapshotSlotAttached s oi .message = true := by
    unfold snapshotSlotAttached snapshotOutputAt
    rw [hsnap]
    simp only []
    rw [hitem]
    simp only []
    rw [if_neg hkind]
    exact Bool.false_ne_true
  unfold snapshotTextStep
  rw [hens]
  simp only []
  rw [if_neg hatt]
  exact ensureOutputItemPresence_snap_found _ oi i "in_progress" []
    { r with output := padSet r.output oi (.message i "in_progress" []) }
    rfl (listGetOpt_padSet_self r.output oi _) hi

theorem snapshotTextAt_none_of_empty (X : Session) (oi c2 : Nat)
    (rA : RespPayload) (i st : String)
    (h1 : X.responseSnapshot = some rA)
    (h2 : listGetOpt rA.output oi = some (.message i st [])) :
    snapshotTextAt X oi c2 = none := by
  unfold snapshotTextAt snapshotOutputAt
  rw [h1]
  simp only []
  rw [h2]
  simp only []
  have hnil : listGetOpt ([] : List (Option ContentPart)) c2 = none := by
    unfold listGetOpt
    rw [lget_nil]
  rw [hnil]

/-- C3 counterexample: with a response snapshot present, a kind-mismatched
event is not a no-op.  The session stores a function call at position 0 in
both projections; after an `output_text.delta` for that position the stored
item has been replaced by a message placeholder in both projections, the
delta's text has been attributed to the replacement in the transcript, and
the snapshot copy of the replacement keeps the placeholder's empty content
(the delta is applied to a detached object and lost there). -/
theorem c3_counterexample :
    snapshotKindAt c3Before 0 = some OutputKind.functionCall ∧
    outputKindAt c3Before 0 = some OutputKind.functionCall ∧
    snapshotKindAt c3After 0 = some OutputKind.message ∧
    outputKindAt c3After 0 = some OutputKind.message ∧
    transcriptTextAt c3After 0 0 = some "x" ∧
    snapshotTextAt c3After 0 0 = none := by
  exact ⟨by decide, by decide, by decide, by decide, by decide, by decide⟩

/-- C3 amended: ingesting a kind-mismatched text delta never throws (the
embedding is total); it is a no-op on the transcript exactly when the session
holds no response snapshot (then the snapshot projection also stays empty);
when a snapshot exists, the slot at that output position afterwards holds an
item of the event's implied kind — the mismatched item is replaced by a fresh
placeholder of that kind rather than preserved — and the event's data reaches
the replacement only in the transcript: the snapshot stores a clone of the
placeholder while the delta is applied to the detached original, so the
snapshot copy keeps no text at any content slot. -/
theorem c3_mismatch_replacement :
    (∀ (s : Session) (i : String) (oi c : Nat) (d : String),
      s.responseSnapshot = none →
      (∀ k, findOutputEntryIdx s (some i) (some oi) = some k →
        ¬ outputKindAt s k = some OutputKind.message) →
      (handleEvent (.outputTextDelta i oi c d) s).messages = s.messages ∧
      (handleEvent (.outputTextDelta i oi c d) s).responseSnapshot = none) ∧
    (∀ (s : Session) (i : String) (oi c : Nat) (d : String) (r : RespPayload),
      s.responseSnapshot = some r →
      snapshotKindAt (handleEvent (.outputTextDelta i oi c d) s) oi =
        some OutputKind.message) ∧
    (∀ (s : Session) (i : String) (oi c : Nat) (d : String) (r : RespPayload)
      (it0 : OutputItem),
      s.responseSnapshot = some r →
      listGetOpt r.output oi = some it0 →
      ¬ it0.kind = OutputKind.message →
      ¬ i = "" →
      ∀ c2, snapshotTextAt (handleEvent (.outputTextDelta i oi c d) s) oi c2 = none) := by
  refine ⟨?_, ?_, ?_⟩
  · intro s i oi c d hsnap hmis
    have hstep : handleEvent (.outputTextDelta i oi c d) s =
        emitChange (messageTextStep
          (snapshotTextStep { s with eventEmits := s.eventEmits + 1 } oi i c (fun t => t ++ d))
          i oi c (fun t => t ++ d) (.outputTextDelta i oi c d)) := rfl
    have hsnap1 : ({ s with eventEmits := s.eventEmits + 1 } : Session).responseSnapshot = none := hsnap
    have hmut : snapshotTextStep { s with eventEmits := s.eventEmits + 1 } oi i c (fun t => t ++ d) =
        { s with eventEmits := s.eventEmits + 1 } :=
      snapshotTextStep_noSnap _ _ _ _ _ hsnap1
    have happly : messageTextStep { s with eventEmits := s.eventEmits + 1 } i oi c (fun t => t ++ d) (.outputTextDelta i oi c d) =
        { s with eventEmits := s.eventEmits + 1 } :=
      messageTextStep_noop _ _ _ _ _ _ hsnap1 hmis
    constructor
    · rw [hstep, hmut, happly, (emitChange_maps _).2.2.1]
    · rw [hstep, hmut, happly, (emitChange_maps _).2.2.2.1]
      exact hsnap
  · intro s i oi c d r hsnap
    have hstep : handleEvent (.outputTextDelta i oi c d) s =
        emitChange (messageTextStep
          (snapshotTextStep { s with eventEmits := s.eventEmits + 1 } oi i c (fun t => t ++ d))
          i oi c (fun t => t ++ d) (.outputTextDelta i oi c d)) := rfl
    have hsnap1 : ({ s with eventEmits := s.eventEmits + 1 } : Session).responseSnapshot = some r := hsnap
    rw [hstep, snapshotKindAt_eq_of_snap ((emitChange_maps _).2.2.2.1) oi]
    exact messageTextStep_snapKind _ i oi c _ _
      (snapshotTextStep_snapKind _ oi i c _ r hsnap1)
  · intro s i oi c d r it0 hsnap hitem hkind hi c2
    have hstep : handleEvent (.outputTextDelta i oi c d) s =
        emitChange (messageTextStep
          (snapshotTextStep { s with eventEmits := s.eventEmits + 1 } oi i c (fun t => t ++ d))
          i oi c (fun t => t ++ d) (.outputTextDelta i oi c d)) := rfl
    have hsnap1 : ({ s with eventEmits := s.eventEmits + 1 } : Session).responseSnapshot = some r := hsnap
    have hmut := snapshotTextStep_mismatch { s with eventEmits := s.eventEmits + 1 }
      oi i c (fun t => t ++ d) r it0 hsnap1 hitem hkind hi
    have happ := messageTextStep_snap_of_msgSlot
      (snapshotTextStep { s with eventEmits := s.eventEmits + 1 } oi i c (fun t => t ++ d))
      i oi c (fun t => t ++ d) (.outputTextDelta i oi c d)
      { r with output := padSet r.output oi (.message i "in_progress" []) }
      "in_progress" [] hmut (listGetOpt_padSet_self r.output oi _) hi
    rw [hstep]
    refine snapshotTextAt_none_of_empty _ oi c2
      { r with output := padSet r.output oi (.message i "in_progress" []) }
      i "in_progress" ?_ (listGetOpt_padSet_self r.output oi _)
    rw [(emitChange_maps _).2.2.2.1]
    exact happ

/-- C3 witness for the amended claim: all three parts instantiated at
concrete sessions — the snapshot-free session built from one input is
untouched by a mismatched delta; in `c3Before` (snapshot present, function
call stored) the slot ends up message-kinded; and the snapshot copy of the
replacement holds no text. -/
theorem c3_mismatch_replacement_witness :
    (handleEvent (.outputTextDelta "m1" 0 0 "x") (Session.init [inputA] none)).messages =
      (Session.init [inputA] none).messages ∧
    snapshotKindAt (handleEvent (.outputTextDelta "m1" 0 0 "x") c3Before) 0 =
      some OutputKind.message ∧
    snapshotTextAt (handleEvent (.outputTextDelta "m1" 0 0 "x") c3Before) 0 0 = none := by
  refine ⟨?_, ?_, ?_⟩
  · exact (c3_mismatch_replacement.1 (Session.init [inputA] none) "m1" 0 0 "x"
      (by decide) (by decide)).1
  · exact c3_mismatch_replacement.2.1 c3Before "m1" 0 0 "x" respFC (by decide)
  · exact c3_mismatch_replacement.2.2 c3Before "m1" 0 0 "x" respFC
      (.functionCall "f1" "f1" "tool" "" "in_progress")
      (by decide) (by decide) (by decide) (by decide) 0

/-- C7 counterexample: an item first created as a placeholder (no id) is
*not* made retrievable by an id supplied by an arbitrary later event for the
same position.  A generic event carrying `outputIndex 0` and item id
`item_1` is recorded through the default path, which re-registers the stored
item's placeholder id instead of the supplied one: afterwards lookup by
`item_1` fails (it is absent from the id map) even though positional lookup
still resolves the entry. -/
theorem c7_counterexample :
    aget c7Mid.outputIndexToMessageIndex 0 = some 0 ∧
    snapshotOutputAt c7Mid 0 = some (.mcpCall "mcp_call-0" "" "" "") ∧
    findOutputEntryIdx (handleEvent (.otherEvent (some 0) (some "item_1")) c7Mid)
      (some "item_1") none = none ∧
    aget (handleEvent (.otherEvent (some 0) (some "item_1")) c7Mid).idToIndex
      "item_1" = none ∧
    findOutputEntryIdx (handleEvent (.otherEvent (some 0) (some "item_1")) c7Mid)
      none (some 0) = some 0 := by
  exact ⟨by decide, by decide, by decide, by decide, by decide⟩

/-! #### Sortedness (claim C1): pure list lemmas -/

theorem lget_drop {α : Type _} :
    ∀ (n : Nat) (l : List α) (j : Nat), lget (l.drop n) j = lget l (n + j) := by
  intro n
  induction n with
  | zero => intro l j; simp
  | succ m ih =>
    intro l j
    cases l with
    | nil => simp [lget]
    | cons x xs =>
      rw [show m + 1 + j = (m + j) + 1 from by omega]
      simpa using ih xs j

theorem findInsertionFrom_le_length (oi : Nat) :
    ∀ ms : List Message, findInsertionFrom oi ms ≤ ms.length := by
  intro ms
  induction ms with
  | nil => exact Nat.le_refl 0
  | cons m rest ih =>
    cases m with
    | input a => simpa [findInsertionFrom] using Nat.succ_le_succ ih
    | output it2 oi2 evs2 =>
      by_cases h : oi < oi2
      · simp [findInsertionFrom, h]
      · simp only [findInsertionFrom, if_neg h]
        exact Nat.succ_le_succ ih

theorem outputIndicesOf_lset_same :
    ∀ (ms : List Message) (k : Nat) (it it' : OutputItem) (oi : Nat)
      (evs evs' : List Event), lget ms k = some (.output it oi evs) →
      outputIndicesOf (lset ms k (.output it' oi evs')) = outputIndicesOf ms := by
  intro ms
  induction ms with
  | nil => intro k it it' oi evs evs' h; simp [lget] at h
  | cons m rest ih =>
    intro k it it' oi evs evs' h
    cases k with
    | zero =>
      simp only [lget_cons_zero, Option.some_inj] at h
      subst h
      rfl
    | succ k2 =>
      simp only [lget_cons_succ] at h
      cases m with
      | input a =>
        show outputIndicesOf (Message.input a :: lset rest k2 (.output it' oi evs')) = _
        simp only [outputIndicesOf]
        exact ih k2 it it' oi evs evs' h
      | output it3 oi3 evs3 =>
        show outputIndicesOf (Message.output it3 oi3 evs3 :: lset rest k2 (.output it' oi evs')) = _
        simp only [outputIndicesOf]
        rw [ih k2 it it' oi evs evs' h]

theorem outputIndicesOf_append_input :
    ∀ (ms : List Message) (a : InputItem),
      outputIndicesOf (ms ++ [Message.input a]) = outputIndicesOf ms := by
  intro ms
  induction ms with
  | nil => intro a; rfl
  | cons m rest ih =>
    intro a
    cases m with
    | input b =>
      show outputIndicesOf (Message.input b :: (rest ++ [Message.input a])) = _
      simp only [outputIndicesOf]
      exact ih a
    | output it oi evs =>
      show outputIndicesOf (Message.output it oi evs :: (rest ++ [Message.input a])) = _
      simp only [outputIndicesOf]
      rw [ih a]

theorem mem_outputIndicesOf_insertAt (it : OutputItem) (oi : Nat) :
    ∀ (n : Nat) (ms : List Message) (b : Nat),
      b ∈ outputIndicesOf (insertAt n (.output it oi []) ms) →
      b = oi ∨ b ∈ outputIndicesOf ms := by
  intro n
  induction n with
  | zero =>
    intro ms b h
    rcases List.mem_cons.mp (show b ∈ oi :: outputIndicesOf ms from h) with h1 | h2
    · exact Or.inl h1
    · exact Or.inr h2
  | succ m ih =>
    intro ms b h
    cases ms with
    | nil =>
      rcases List.mem_cons.mp (show b ∈ oi :: outputIndicesOf ([] : List Message) from h) with h1 | h2
      · exact Or.inl h1
      · exact Or.inr h2
    | cons mm rest =>
      cases mm with
      | input a => exact ih rest b h
      | output it2 oi2 evs2 =>
        rcases List.mem_cons.mp
          (show b ∈ oi2 :: outputIndicesOf (insertAt m (.output it oi []) rest) from h) with h1 | h2
        · exact Or.inr (h1 ▸ List.mem_cons_self oi2 (outputIndicesOf rest))
        · rcases ih rest b h2 with h3 | h4
          · exact Or.inl h3
          · exact Or.inr (List.mem_cons_of_mem oi2 h4)

theorem sorted_insertAt (it : OutputItem) (oi : Nat) :
    ∀ ms : List Message, List.Pairwise (· ≤ ·) (outputIndicesOf ms) →
      List.Pairwise (· ≤ ·)
        (outputIndicesOf (insertAt (findInsertionFrom oi ms) (.output it oi []) ms)) := by
  intro ms
  induction ms with
  | nil =>
    intro _
    exact List.pairwise_singleton _ oi
  | cons m rest ih =>
    intro hp
    cases m with
    | input a =>
      show List.Pairwise (· ≤ ·)
        (outputIndicesOf (Message.input a :: insertAt (findInsertionFrom oi rest) (.output it oi []) rest))
      exact ih hp
    | output it2 oi2 evs2 =>
      have hp2 := (List.pairwise_cons.mp
        (show List.Pairwise (· ≤ ·) (oi2 :: outputIndicesOf rest) from hp))
      by_cases hlt : oi < oi2
      · show List.Pairwise (· ≤ ·)
          (outputIndicesOf (insertAt (if oi < oi2 then 0 else findInsertionFrom oi rest + 1)
            (.output it oi []) (Message.output it2 oi2 evs2 :: rest)))
        rw [if_pos hlt]
        refine List.pairwise_cons.mpr ⟨?_, hp⟩
        intro b hb
        rcases List.mem_cons.mp (show b ∈ oi2 :: outputIndicesOf rest from hb) with h1 | h2
        · omega
        · have := hp2.1 b h2
          omega
      · show List.Pairwise (· ≤ ·)
          (outputIndicesOf (insertAt (if oi < oi2 then 0 else findInsertionFrom oi rest + 1)
            (.output it oi []) (Message.output it2 oi2 evs2 :: rest)))
        rw [if_neg hlt]
        show List.Pairwise (· ≤ ·)
          (oi2 :: outputIndicesOf (insertAt (findInsertionFrom oi rest) (.output it oi []) rest))
        refine List.pairwise_cons.mpr ⟨?_, ih hp2.2⟩
        intro b hb
        rcases mem_outputIndicesOf_insertAt it oi _ rest b hb with h1 | h2
        · omega
        · exact hp2.1 b h2

/-! #### Sortedness (claim C1): map machinery -/

theorem updateMapsFrom_omap_spec :
    ∀ (rest : List Message) (i : Nat) (omap : List (Nat × Nat))
      (imap : List (String × Nat)) (oi2 k2 : Nat),
      aget (updateMapsFrom rest i omap imap).1 oi2 = some k2 →
      (∃ j it evs, lget rest j = some (.output it oi2 evs) ∧ k2 = i + j) ∨
      ((∀ j it evs, ¬ lget rest j = some (.output it oi2 evs)) ∧
        aget omap oi2 = some k2) := by
  intro rest
  induction rest with
  | nil =>
    intro i omap imap oi2 k2 h
    exact Or.inr ⟨fun j it evs hc => by simp [lget] at hc, h⟩
  | cons m rest2 ih =>
    intro i omap imap oi2 k2 h
    rcases ih (i + 1) _ _ oi2 k2 h with ⟨j, it, evs, hj, hk⟩ | ⟨hno, hget⟩
    · exact Or.inl ⟨j + 1, it, evs, by simpa using hj, by omega⟩
    · cases m with
      | input a =>
        refine Or.inr ⟨?_, hget⟩
        intro j it evs hc
        cases j with
        | zero => simp at hc
        | succ j2 => exact hno j2 it evs (by simpa using hc)
      | output it3 oi3 evs3 =>
        simp only [] at hget
        by_cases he : oi2 = oi3
        · subst he
          rw [aget_aset_self omap oi2 i] at hget
          injection hget with hg
          exact Or.inl ⟨0, it3, evs3, by simp, by omega⟩
        · rw [aget_aset_ne omap oi3 oi2 i he] at hget
          refine Or.inr ⟨?_, hget⟩
          intro j it evs hc
          cases j with
          | zero =>
            simp only [lget_cons_zero, Option.some_inj] at hc
            cases hc
            exact he rfl
          | succ j2 => exact hno j2 it evs (by simpa using hc)

theorem moFrameRfl (s : Session) : MOFrame s s := ⟨rfl, rfl⟩

theorem moFrameComp {s t u : Session} (h1 : MOFrame s t) (h2 : MOFrame t u) :
    MOFrame s u := ⟨h2.1.trans h1.1, h2.2.trans h1.2⟩

theorem inv_of_mo {s t : Session} (h : MOFrame s t) (hinv : SessionInv s) :
    SessionInv t := by
  refine ⟨?_, ?_⟩
  · show List.Pairwise (· ≤ ·) (outputIndicesOf t.messages)
    rw [h.1]
    exact hinv.1
  · intro oi k hb
    rw [h.2] at hb
    rw [h.1]
    exact hinv.2 oi k hb

theorem inv_of_lset {s t : Session} (k : Nat) (it it' : OutputItem) (oi : Nat)
    (evs evs' : List Event)
    (hm : t.messages = lset s.messages k (.output it' oi evs'))
    (ho : t.outputIndexToMessageIndex = s.outputIndexToMessageIndex)
    (hget : lget s.messages k = some (.output it oi evs))
    (hinv : SessionInv s) : SessionInv t := by
  refine ⟨?_, ?_⟩
  · show List.Pairwise (· ≤ ·) (outputIndicesOf t.messages)
    rw [hm, outputIndicesOf_lset_same s.messages k it it' oi evs evs' hget]
    exact hinv.1
  · intro oi2 k2 hb
    rw [ho] at hb
    obtain ⟨it2, evs2, hold⟩ := hinv.2 oi2 k2 hb
    by_cases he : k2 = k
    · subst he
      rw [hold] at hget
      injection hget with hg
      injection hg with _ hoi _
      subst hoi
      exact ⟨it', evs', by
        rw [hm]
        exact lget_lset_self s.messages k2 _ (lget_some_lt s.messages k2 _ hold)⟩
    · exact ⟨it2, evs2, by rw [hm, lget_lset_ne s.messages k k2 _ he]; exact hold⟩

theorem insertNewOutputEntry_parts (s : Session) (item : OutputItem) (oi : Nat) :
    (insertNewOutputEntry s item oi).2.messages =
      insertAt (findInsertionFrom oi s.messages) (.output item oi []) s.messages ∧
    (insertNewOutputEntry s item oi).2.outputIndexToMessageIndex =
      (updateMapsFrom
        ((insertAt (findInsertionFrom oi s.messages) (.output item oi []) s.messages).drop
          (findInsertionFrom oi s.messages + 1))
        (findInsertionFrom oi s.messages + 1)
        (aset s.outputIndexToMessageIndex oi (findInsertionFrom oi s.messages))
        s.idToIndex).1 := by
  unfold insertNewOutputEntry updateMappingsAfterInsertion registerItemId findInsertionPoint
  simp only []
  by_cases hi : item.itemId = ""
  · rw [if_pos hi]
    exact ⟨rfl, rfl⟩
  · rw [if_neg hi]
    exact ⟨rfl, rfl⟩

theorem inv_insertNewOutputEntry {s : Session} (item : OutputItem) (oi : Nat)
    (hinv : SessionInv s) : SessionInv (insertNewOutputEntry s item oi).2 := by
  have hk := findInsertionFrom_le_length oi s.messages
  obtain ⟨hmsg, homap⟩ := insertNewOutputEntry_parts s item oi
  refine ⟨?_, ?_⟩
  · show List.Pairwise (· ≤ ·)
      (outputIndicesOf (insertNewOutputEntry s item oi).2.messages)
    rw [hmsg]
    exact sorted_insertAt item oi s.messages hinv.1
  · intro oi2 k2 hb
    rw [homap] at hb
    rw [hmsg]
    rcases updateMapsFrom_omap_spec _ _ _ _ oi2 k2 hb with ⟨j, it2, evs2, hj, hk2⟩ | ⟨hno, hget⟩
    · rw [lget_drop] at hj
      exact ⟨it2, evs2, by rw [hk2]; exact hj⟩
    · by_cases he : oi2 = oi
      · subst he
        rw [aget_aset_self] at hget
        injection hget with hg
        subst hg
        exact ⟨item, [], lget_insertAt_self _ _ _ hk⟩
      · rw [aget_aset_ne _ _ _ _ he] at hget
        obtain ⟨it2, evs2, hold⟩ := hinv.2 oi2 k2 hget
        rcases Nat.lt_or_ge k2 (findInsertionFrom oi s.messages) with hlt | hge
        · exact ⟨it2, evs2, by
            rw [lget_insertAt_lt _ _ _ k2 hlt hk]
            exact hold⟩
        · exfalso
          refine hno (k2 - findInsertionFrom oi s.messages) it2 evs2 ?_
          rw [lget_drop]
          rw [show findInsertionFrom oi s.messages + 1 + (k2 - findInsertionFrom oi s.messages) = k2 + 1 from by omega]
          rw [lget_insertAt_ge _ _ _ k2 hge hk]
          exact hold

/-! #### Sortedness (claim C1): per-operation invariance -/

theorem mo_registerItemId (oid : Option String) (idx : Nat) (s : Session) :
    MOFrame s (registerItemId oid idx s) :=
  ⟨registerItemId_messages oid idx s, registerItemId_omap oid idx s⟩

theorem mo_setSnapshotOutput (s : Session) (oi : Nat) (item : OutputItem) :
    MOFrame s (setSnapshotOutput s oi item) := by
  unfold setSnapshotOutput
  split
  · exact moFrameRfl s
  · exact ⟨rfl, rfl⟩

theorem mo_setSnapshotOutputRaw (s : Session) (oi : Nat) (item : OutputItem) :
    MOFrame s (setSnapshotOutputRaw s oi item) := by
  unfold setSnapshotOutputRaw
  split
  · exact moFrameRfl s
  · exact ⟨rfl, rfl⟩

theorem mo_createPlaceholderOutput (kind : OutputKind) (iid : Option String)
    (s : Session) : MOFrame s (createPlaceholderOutput kind iid s).2 := by
  obtain ⟨F, hF⟩ := createPlaceholderOutput_state kind iid s
  rw [hF]
  exact ⟨rfl, rfl⟩

theorem mo_installSnapshotPlaceholder (s : Session) (oi : Nat)
    (kind : OutputKind) (iid : Option String) :
    MOFrame s (installSnapshotPlaceholder s oi kind iid).2 := by
  unfold installSnapshotPlaceholder
  exact moFrameComp
    (moFrameComp (mo_createPlaceholderOutput kind iid s)
      (mo_setSnapshotOutput _ oi _))
    (mo_registerItemId _ oi _)

theorem mo_ensureSnapshotOutputItem (s : Session) (oi : Nat)
    (kind : OutputKind) (iid : Option String) :
    MOFrame s (ensureSnapshotOutputItem s oi kind iid).2 := by
  unfold ensureSnapshotOutputItem
  split
  · exact moFrameRfl s
  · split
    · split
      · exact moFrameComp (mo_setSnapshotOutputRaw s oi _) (mo_registerItemId _ oi _)
      · exact mo_installSnapshotPlaceholder s oi kind iid
    · exact mo_installSnapshotPlaceholder s oi kind iid

theorem mo_emitChange (s : Session) : MOFrame s (emitChange s) :=
  ⟨(emitChange_maps s).2.2.1, (emitChange_maps s).2.1⟩

theorem inv_reset {s : Session} (hinv : SessionInv s) :
    SessionInv (resetCurrentResponseOutputs s) := by
  refine ⟨hinv.1, ?_⟩
  intro oi k hb
  have hb2 : aget ([] : List (Nat × Nat)) oi = some k := hb
  simp at hb2

theorem inv_pushEventAt {s : Session} (k : Nat) (ev : Event)
    (hinv : SessionInv s) : SessionInv (pushEventAt s k ev) := by
  unfold pushEventAt
  split
  · rename_i it0 oi0 evs0 hget0
    exact inv_of_lset k it0 it0 oi0 evs0 (evs0 ++ [ev]) rfl rfl hget0 hinv
  · exact hinv

theorem inv_modifyEntryItem {s : Session} (k : Nat) (f : OutputItem → OutputItem)
    (hinv : SessionInv s) : SessionInv (modifyEntryItem s k f) := by
  unfold modifyEntryItem
  split
  · rename_i it0 oi0 evs0 hget0
    exact inv_of_lset k it0 (f it0) oi0 evs0 evs0 rfl rfl hget0 hinv
  · exact hinv

theorem inv_ensureOutputEntry {s : Session} (item : OutputItem) (oi : Nat)
    (hinv : SessionInv s) : SessionInv (ensureOutputEntry s item oi).2 := by
  unfold ensureOutputEntry
  split
  · rename_i existingIndex hb
    split
    · rename_i it0 oi0 evs0 hget0
      obtain ⟨itv, evsv, hv⟩ := hinv.2 oi existingIndex hb
      rw [hv] at hget0
      injection hget0 with hg
      injection hg with _ hoi _
      subst hoi
      refine inv_of_mo (mo_registerItemId _ existingIndex _) ?_
      exact inv_of_lset existingIndex itv item oi evsv evs0 rfl rfl hv hinv
    · exact inv_insertNewOutputEntry item oi hinv
  · exact inv_insertNewOutputEntry item oi hinv

theorem inv_ensureOutputEntryFromSnapshot {s : Session} (oi : Nat)
    (hinv : SessionInv s) : SessionInv (ensureOutputEntryFromSnapshot s oi).2 := by
  unfold ensureOutputEntryFromSnapshot
  split
  · exact hinv
  · rename_i it hsnap2
    split
    · rename_i ei hb
      split
      · rename_i it0 oi0 evs0 hget0
        refine inv_of_mo (mo_registerItemId _ ei _) ?_
        exact inv_of_lset ei it0 it oi0 evs0 evs0 rfl rfl hget0 hinv
      · exact inv_insertNewOutputEntry it oi hinv
    · exact inv_insertNewOutputEntry it oi hinv

theorem inv_ensureOutputItemPresence {s : Session} (oi : Nat)
    (kind : OutputKind) (iid : Option String) (hinv : SessionInv s) :
    SessionInv (ensureOutputItemPresence s oi kind iid).2 := by
  unfold ensureOutputItemPresence
  split
  · rename_i s1 heq
    have hmo := mo_ensureSnapshotOutputItem s oi kind iid
    rw [heq] at hmo
    exact inv_of_mo hmo hinv
  · rename_i it s1 heq
    have hmo := mo_ensureSnapshotOutputItem s oi kind iid
    rw [heq] at hmo
    exact inv_ensureOutputEntry it oi (inv_of_mo hmo hinv)

theorem inv_recordViaSnapshot {s : Session} (oi2 : Option Nat)
    (iid : Option String) (ev : Event) (hinv : SessionInv s) :
    SessionInv (recordViaSnapshot s oi2 iid ev) := by
  unfold recordViaSnapshot
  split
  · exact hinv
  · rename_i oi
    split
    · rename_i s1 heq
      have h1 := inv_ensureOutputEntryFromSnapshot oi hinv
      rw [heq] at h1
      exact h1
    · rename_i k s1 heq
      have h1 := inv_ensureOutputEntryFromSnapshot oi hinv
      rw [heq] at h1
      have h2 := inv_pushEventAt k ev h1
      split
      · split
        · exact h2
        · exact inv_of_mo (mo_registerItemId _ _ _) h2
      · exact h2

theorem inv_recordOutputEvent {s : Session} (oi2 : Option Nat)
    (iid : Option String) (ev : Event) (hinv : SessionInv s) :
    SessionInv (recordOutputEvent s oi2 iid ev) := by
  unfold recordOutputEvent
  rcases iid with _ | i2
  · simp only []
    exact inv_recordViaSnapshot oi2 none ev hinv
  · simp only []
    by_cases hi : i2 = ""
    · rw [if_pos hi]
      exact inv_recordViaSnapshot oi2 (some i2) ev hinv
    · rw [if_neg hi]
      split
      · rename_i k hk
        split
        · exact inv_pushEventAt k ev hinv
        · exact inv_recordViaSnapshot oi2 (some i2) ev hinv
      · exact inv_recordViaSnapshot oi2 (some i2) ev hinv

theorem inv_syncLoop :
    ∀ (n i : Nat) {s : Session}, SessionInv s → SessionInv (syncLoop i n s) := by
  intro n
  induction n with
  | zero => intro i s hinv; exact hinv
  | succ m ih =>
    intro i s hinv
    exact ih (i + 1) (inv_ensureOutputEntryFromSnapshot i hinv)

theorem inv_syncOutputsFromSnapshot {s : Session} (hinv : SessionInv s) :
    SessionInv (syncOutputsFromSnapshot s) := by
  unfold syncOutputsFromSnapshot
  split
  · exact hinv
  · exact inv_syncLoop _ 0 hinv

theorem inv_snapshotTextStep {s : Session} (oi : Nat) (iid : String)
    (c : Nat) (f : String → String) (hinv : SessionInv s) :
    SessionInv (snapshotTextStep s oi iid c f) := by
  unfold snapshotTextStep
  split
  · rename_i s1 heq
    have hmo := mo_ensureSnapshotOutputItem s oi .message (some iid)
    rw [heq] at hmo
    exact inv_of_mo hmo hinv
  · rename_i item s1 heq
    have hmo := mo_ensureSnapshotOutputItem s oi .message (some iid)
    rw [heq] at hmo
    have h1 := inv_of_mo hmo hinv
    split
    · split
      · exact inv_of_mo (mo_setSnapshotOutputRaw _ oi _)
          (inv_ensureOutputItemPresence oi .message (some iid) h1)
      · exact inv_ensureOutputItemPresence oi .message (some iid) h1
    · exact h1

theorem inv_snapshotFnArgsStep {s : Session} (oi : Nat) (iid : String)
    (f : String → String) (hinv : SessionInv s) :
    SessionInv (snapshotFnArgsStep s oi iid f) := by
  unfold snapshotFnArgsStep
  split
  · rename_i s1 heq
    have hmo := mo_ensureSnapshotOutputItem s oi .functionCall (some iid)
    rw [heq] at hmo
    exact inv_of_mo hmo hinv
  · rename_i item s1 heq
    have hmo := mo_ensureSnapshotOutputItem s oi .functionCall (some iid)
    rw [heq] at hmo
    have h1 := inv_of_mo hmo hinv
    split
    · split
      · exact inv_of_mo (mo_setSnapshotOutputRaw _ oi _)
          (inv_ensureOutputItemPresence oi .functionCall (some iid) h1)
      · exact inv_ensureOutputItemPresence oi .functionCall (some iid) h1
    · exact h1

theorem inv_messageTextStep {s : Session} (iid : String) (oi c : Nat)
    (f : String → String) (ev : Event) (hinv : SessionInv s) :
    SessionInv (messageTextStep s iid oi c f ev) := by
  unfold messageTextStep
  simp only []
  split
  · rename_i s1 heq
    rcases hf : findOutputEntryIdx s (some iid) (some oi) with _ | k0
    · rw [hf] at heq
      simp only [] at heq
      have h1 := inv_ensureOutputItemPresence oi .message (some iid) hinv
      rw [heq] at h1
      exact h1
    · rw [hf] at heq
      simp only [] at heq
      injection heq with ha hb
      cases ha
  · rename_i k s1 heq
    rcases hf : findOutputEntryIdx s (some iid) (some oi) with _ | k0
    · rw [hf] at heq
      simp only [] at heq
      have h1 := inv_ensureOutputItemPresence oi .message (some iid) hinv
      rw [heq] at h1
      split
      · rename_i mid mst content oi2 evs hget
        refine inv_pushEventAt _ ev ?_
        exact inv_of_lset _ (.message mid mst content)
          (.message mid mst (applyMessageText content c f)) oi2 evs evs rfl rfl hget h1
      · exact h1
    · rw [hf] at heq
      simp only [] at heq
      injection heq with ha hb
      subst hb
      split
      · rename_i mid mst content oi2 evs hget
        refine inv_pushEventAt _ ev ?_
        exact inv_of_lset _ (.message mid mst content)
          (.message mid mst (applyMessageText content c f)) oi2 evs evs rfl rfl hget hinv
      · exact hinv

theorem inv_messageFnArgsStep {s : Session} (iid : String) (oi : Nat)
    (f : String → String) (ev : Event) (hinv : SessionInv s) :
    SessionInv (messageFnArgsStep s iid oi f ev) := by
  unfold messageFnArgsStep
  simp only []
  split
  · rename_i s1 heq
    rcases hf : findOutputEntryIdx s (some iid) (some oi) with _ | k0
    · rw [hf] at heq
      simp only [] at heq
      have h1 := inv_ensureOutputItemPresence oi .functionCall (some iid) hinv
      rw [heq] at h1
      exact h1
    · rw [hf] at heq
      simp only [] at heq
      injection heq with ha hb
      cases ha
  · rename_i k s1 heq
    rcases hf : findOutputEntryIdx s (some iid) (some oi) with _ | k0
    · rw [hf] at heq
      simp only [] at heq
      have h1 := inv_ensureOutputItemPresence oi .functionCall (some iid) hinv
      rw [heq] at h1
      split
      · rename_i fid cid nm args st2 oi2 evs hget
        refine inv_pushEventAt _ ev ?_
        exact inv_of_lset _ (.functionCall fid cid nm args st2)
          (.functionCall fid cid nm (f args) st2) oi2 evs evs rfl rfl hget h1
      · exact h1
    · rw [hf] at heq
      simp only [] at heq
      injection heq with ha hb
      subst hb
      split
      · rename_i fid cid nm args st2 oi2 evs hget
        refine inv_pushEventAt _ ev ?_
        exact inv_of_lset _ (.functionCall fid cid nm args st2)
          (.functionCall fid cid nm (f args) st2) oi2 evs evs rfl rfl hget hinv
      · exact hinv

theorem inv_mutateSnapshot {s : Session} (ev : Event) (hinv : SessionInv s) :
    SessionInv (mutateSnapshot ev s) := by
  cases ev with
  | lifecycle kind r =>
    show SessionInv (syncOutputsFromSnapshot _)
    refine inv_syncOutputsFromSnapshot ?_
    split
    · have h1 : SessionInv (resetCurrentResponseOutputs s) := inv_reset hinv
      exact inv_of_mo ⟨rfl, rfl⟩ h1
    · exact inv_of_mo ⟨rfl, rfl⟩ hinv
  | outputItemAdded oi item => exact inv_of_mo (mo_setSnapshotOutput s oi item) hinv
  | outputItemDone oi item => exact inv_of_mo (mo_setSnapshotOutput s oi item) hinv
  | outputTextDelta iid oi c d => exact inv_snapshotTextStep oi iid c _ hinv
  | outputTextDone iid oi c txt => exact inv_snapshotTextStep oi iid c _ hinv
  | functionCallArgsDelta iid oi d => exact inv_snapshotFnArgsStep oi iid _ hinv
  | functionCallArgsDone iid oi args => exact inv_snapshotFnArgsStep oi iid _ hinv
  | queued r => exact hinv
  | mcpCallInProgress oi iid => exact hinv
  | errorEvent e => exact hinv
  | otherEvent oi iid => exact hinv

theorem inv_applyToMessages {s : Session} (ev : Event) (hinv : SessionInv s) :
    SessionInv (applyToMessages ev s) := by
  cases ev with
  | outputItemAdded oi item =>
    exact inv_pushEventAt _ _ (inv_ensureOutputEntry item oi hinv)
  | outputItemDone oi item =>
    exact inv_pushEventAt _ _
      (inv_modifyEntryItem _ _ (inv_ensureOutputEntry item oi hinv))
  | outputTextDelta iid oi c d => exact inv_messageTextStep iid oi c _ _ hinv
  | outputTextDone iid oi c txt => exact inv_messageTextStep iid oi c _ _ hinv
  | functionCallArgsDelta iid oi d => exact inv_messageFnArgsStep iid oi _ _ hinv
  | functionCallArgsDone iid oi args => exact inv_messageFnArgsStep iid oi _ _ hinv
  | mcpCallInProgress oi iid =>
    exact inv_recordOutputEvent (some oi) iid _
      (inv_ensureOutputItemPresence oi .mcpCall iid hinv)
  | otherEvent oi iid =>
    show SessionInv (match oi with
      | some o => recordOutputEvent s (some o) iid (.otherEvent oi iid)
      | none => s)
    rcases oi with _ | o
    · exact hinv
    · exact inv_recordOutputEvent (some o) iid _ hinv
  | lifecycle kind r => exact hinv
  | queued r => exact hinv
  | errorEvent e => exact hinv

theorem inv_handleEvent {s : Session} (ev : Event) (hinv : SessionInv s) :
    SessionInv (handleEvent ev s) := by
  have h3 : SessionInv (applyToMessages ev
      (mutateSnapshot ev { s with eventEmits := s.eventEmits + 1 })) :=
    inv_applyToMessages ev (inv_mutateSnapshot ev (inv_of_mo ⟨rfl, rfl⟩ hinv))
  unfold handleEvent
  simp only []
  refine inv_of_mo (mo_emitChange _) ?_
  split
  all_goals split
  all_goals exact h3

theorem inv_addInput {s : Session} (input : InputItem) (hinv : SessionInv s) :
    SessionInv (addInput s input) := by
  unfold addInput
  simp only []
  refine inv_of_mo (mo_emitChange _) (inv_of_mo (mo_registerItemId _ _ _) ?_)
  refine ⟨?_, ?_⟩
  · show List.Pairwise (· ≤ ·) (outputIndicesOf (s.messages ++ [Message.input input]))
    rw [outputIndicesOf_append_input]
    exact hinv.1
  · intro oi k hb
    obtain ⟨it, evs, hold⟩ := hinv.2 oi k hb
    exact ⟨it, evs, by
      show lget (s.messages ++ [Message.input input]) k = _
      rw [lget_append_lt _ _ _ (lget_some_lt _ _ _ hold)]
      exact hold⟩

theorem inv_empty : SessionInv emptySession := by
  refine ⟨List.Pairwise.nil, ?_⟩
  intro oi k hb
  have hb2 : (none : Option Nat) = some k := hb
  cases hb2

theorem inv_init (inputs : List InputItem) (resp : Option RespPayload) :
    SessionInv (Session.init inputs resp) := by
  have hf : ∀ (l : List InputItem) (s : Session), SessionInv s →
      SessionInv (l.foldl addInput s) := by
    intro l
    induction l with
    | nil => intro s h; exact h
    | cons x xs ih => intro s h; exact ih _ (inv_addInput x h)
  unfold Session.init
  rcases resp with _ | r
  · exact hf inputs emptySession inv_empty
  · exact inv_syncOutputsFromSnapshot
      (inv_of_mo ⟨rfl, rfl⟩ (hf inputs emptySession inv_empty))

theorem inv_runSession (inputs : List InputItem) (resp : Option RespPayload)
    (events : List Event) : SessionInv (runSession inputs resp events) := by
  have hf : ∀ (l : List Event) (s : Session), SessionInv s →
      SessionInv (l.foldl (fun t ev => handleEvent ev t) s) := by
    intro l
    induction l with
    | nil => intro s h; exact h
    | cons x xs ih => intro s h; exact ih _ (inv_handleEvent x h)
  exact hf events _ (inv_init inputs resp)

/-- **C1**: for every initialization and every finite sequence of ingested
events — whatever the interleaving across distinct `outputIndex` values —
the transcript's output messages are sorted in ascending order of their
`outputIndex`; in particular the interleaving 2, 0, 1 yields transcript
order `[0, 1, 2]`. -/
theorem c1_outputs_sorted (inputs : List InputItem) (resp : Option RespPayload)
    (events : List Event) :
    OutputsSorted (runSession inputs resp events) ∧
    outputIndicesOf (runSession [] none
      [.outputItemAdded 2 (sampleItem 2), .outputItemAdded 0 (sampleItem 0),
       .outputItemAdded 1 (sampleItem 1)]).messages = [0, 1, 2] :=
  ⟨(inv_runSession inputs resp events).1, by decide⟩

/-! #### Input-prefix invariant (claim C8): helper lemmas -/

theorem prefixKeptRfl (k : Nat) (s : Session) : PrefixKept k s s :=
  fun _ _ => rfl

theorem prefixKeptComp {k : Nat} {s t u : Session} (h1 : PrefixKept k s t)
    (h2 : PrefixKept k t u) : PrefixKept k s u :=
  fun p hp => (h2 p hp).trans (h1 p hp)

theorem prefixKeptOfEq {k : Nat} {s t : Session}
    (h : t.messages = s.messages) : PrefixKept k s t :=
  fun p _ => by rw [h]

theorem front_of_pk {k : Nat} {s t : Session} (hf : FrontInputs k s)
    (hp : PrefixKept k s t) : FrontInputs k t := by
  intro p hlt
  rw [hp p hlt]
  exact hf p hlt

theorem frontInputs_le_length {k : Nat} {s : Session} (hf : FrontInputs k s) :
    k ≤ s.messages.length := by
  by_contra h
  have h2 := hf s.messages.length (by omega)
  have h3 : lget s.messages s.messages.length = none := by
    rcases hg : lget s.messages s.messages.length with _ | m
    · rfl
    · have := lget_some_lt s.messages s.messages.length m hg
      omega
  rw [h3] at h2
  simp at h2

theorem frontInputs_output_ge {k j : Nat} {s : Session} (hf : FrontInputs k s)
    (it : OutputItem) (oi : Nat) (evs : List Event)
    (hget : lget s.messages j = some (.output it oi evs)) : k ≤ j := by
  by_contra h
  have h2 := hf j (by omega)
  rw [hget] at h2
  simp at h2

theorem pk_of_lset {k j : Nat} {s t : Session} (m : Message)
    (hm : t.messages = lset s.messages j m) (hj : k ≤ j) :
    PrefixKept k s t := by
  intro p hp
  rw [hm, lget_lset_ne s.messages j p m (by omega)]

theorem findInsertionFrom_ge :
    ∀ (k : Nat) (ms : List Message) (oi : Nat),
      (∀ p, p < k → (match lget ms p with
        | some (.input _) => true
        | _ => false) = true) →
      k ≤ findInsertionFrom oi ms := by
  intro k
  induction k with
  | zero => intro ms oi _; exact Nat.zero_le _
  | succ k2 ih =>
    intro ms oi hf
    cases ms with
    | nil =>
      have := hf 0 (by omega)
      simp [lget] at this
    | cons m rest =>
      cases m with
      | input a =>
        have h2 := ih rest oi (fun p hp => by simpa using hf (p + 1) (by omega))
        show k2 + 1 ≤ findInsertionFrom oi rest + 1
        omega
      | output it oi2 evs =>
        have := hf 0 (by omega)
        simp at this

theorem pk_insertNewOutputEntry {k : Nat} {s : Session} (item : OutputItem)
    (oi : Nat) (hf : FrontInputs k s) :
    PrefixKept k s (insertNewOutputEntry s item oi).2 := by
  obtain ⟨hmsg, _⟩ := insertNewOutputEntry_parts s item oi
  intro p hp
  rw [hmsg]
  exact lget_insertAt_lt _ _ _ p
    (by
      have := findInsertionFrom_ge k s.messages oi hf
      omega)
    (findInsertionFrom_le_length oi s.messages)

theorem pk_ensureOutputEntry {k : Nat} {s : Session} (item : OutputItem)
    (oi : Nat) (hf : FrontInputs k s) :
    PrefixKept k s (ensureOutputEntry s item oi).2 := by
  unfold ensureOutputEntry
  split
  · rename_i existingIndex hb
    split
    · rename_i it0 oi0 evs0 hget0
      refine prefixKeptComp
        (pk_of_lset (Message.output item oi evs0) rfl
          (frontInputs_output_ge hf it0 oi0 evs0 hget0))
        (prefixKeptOfEq (registerItemId_messages _ _ _))
    · exact pk_insertNewOutputEntry item oi hf
  · exact pk_insertNewOutputEntry item oi hf

theorem pk_ensureOutputEntryFromSnapshot {k : Nat} {s : Session} (oi : Nat)
    (hf : FrontInputs k s) :
    PrefixKept k s (ensureOutputEntryFromSnapshot s oi).2 := by
  unfold ensureOutputEntryFromSnapshot
  split
  · exact prefixKeptRfl k s
  · rename_i it hsnap2
    split
    · rename_i ei hb
      split
      · rename_i it0 oi0 evs0 hget0
        refine prefixKeptComp
          (pk_of_lset (Message.output it oi0 evs0) rfl
            (frontInputs_output_ge hf it0 oi0 evs0 hget0))
          (prefixKeptOfEq (registerItemId_messages _ _ _))
      · exact pk_insertNewOutputEntry it oi hf
    · exact pk_insertNewOutputEntry it oi hf

theorem pk_pushEventAt {k : Nat} {s : Session} (j : Nat) (ev : Event)
    (hf : FrontInputs k s) : PrefixKept k s (pushEventAt s j ev) := by
  unfold pushEventAt
  split
  · rename_i it0 oi0 evs0 hget0
    exact pk_of_lset (Message.output it0 oi0 (evs0 ++ [ev])) rfl
      (frontInputs_output_ge hf it0 oi0 evs0 hget0)
  · exact prefixKeptRfl k s

theorem pk_modifyEntryItem {k : Nat} {s : Session} (j : Nat)
    (f : OutputItem → OutputItem) (hf : FrontInputs k s) :
    PrefixKept k s (modifyEntryItem s j f) := by
  unfold modifyEntryItem
  split
  · rename_i it0 oi0 evs0 hget0
    exact pk_of_lset (Message.output (f it0) oi0 evs0) rfl
      (frontInputs_output_ge hf it0 oi0 evs0 hget0)
  · exact prefixKeptRfl k s

theorem pk_ensureOutputItemPresence {k : Nat} {s : Session} (oi : Nat)
    (kind : OutputKind) (iid : Option String) (hf : FrontInputs k s) :
    PrefixKept k s (ensureOutputItemPresence s oi kind iid).2 := by
  unfold ensureOutputItemPresence
  split
  · rename_i s1 heq
    have hmo := mo_ensureSnapshotOutputItem s oi kind iid
    rw [heq] at hmo
    exact prefixKeptOfEq hmo.1
  · rename_i it s1 heq
    have hmo := mo_ensureSnapshotOutputItem s oi kind iid
    rw [heq] at hmo
    exact prefixKeptComp (prefixKeptOfEq hmo.1)
      (pk_ensureOutputEntry it oi (front_of_pk hf (prefixKeptOfEq hmo.1)))

theorem pk_recordViaSnapshot {k : Nat} {s : Session} (oi2 : Option Nat)
    (iid : Option String) (ev : Event) (hf : FrontInputs k s) :
    PrefixKept k s (recordViaSnapshot s oi2 iid ev) := by
  unfold recordViaSnapshot
  split
  · exact prefixKeptRfl k s
  · rename_i oi
    split
    · rename_i s1 heq
      have h1 := pk_ensureOutputEntryFromSnapshot oi hf
      rw [heq] at h1
      exact h1
    · rename_i j s1 heq
      have h1 := pk_ensureOutputEntryFromSnapshot oi hf
      rw [heq] at h1
      have h2 := prefixKeptComp h1
        (pk_pushEventAt j ev (front_of_pk hf h1))
      split
      · split
        · exact h2
        · exact prefixKeptComp h2 (prefixKeptOfEq (registerItemId_messages _ _ _))
      · exact h2

theorem pk_recordOutputEvent {k : Nat} {s : Session} (oi2 : Option Nat)
    (iid : Option String) (ev : Event) (hf : FrontInputs k s) :
    PrefixKept k s (recordOutputEvent s oi2 iid ev) := by
  unfold recordOutputEvent
  rcases iid with _ | i2
  · simp only []
    exact pk_recordViaSnapshot oi2 none ev hf
  · simp only []
    by_cases hi : i2 = ""
    · rw [if_pos hi]
      exact pk_recordViaSnapshot oi2 (some i2) ev hf
    · rw [if_neg hi]
      split
      · rename_i j hj
        split
        · exact pk_pushEventAt j ev hf
        · exact pk_recordViaSnapshot oi2 (some i2) ev hf
      · exact pk_recordViaSnapshot oi2 (some i2) ev hf

theorem pk_syncLoop {k : Nat} :
    ∀ (n i : Nat) {s : Session}, FrontInputs k s →
      PrefixKept k s (syncLoop i n s) := by
  intro n
  induction n with
  | zero => intro i s _; exact prefixKeptRfl k s
  | succ m ih =>
    intro i s hf
    have h1 := pk_ensureOutputEntryFromSnapshot i hf
    exact prefixKeptComp h1 (ih (i + 1) (front_of_pk hf h1))

theorem pk_syncOutputsFromSnapshot {k : Nat} {s : Session}
    (hf : FrontInputs k s) : PrefixKept k s (syncOutputsFromSnapshot s) := by
  unfold syncOutputsFromSnapshot
  split
  · exact prefixKeptRfl k s
  · exact pk_syncLoop _ 0 hf

theorem pk_snapshotTextStep {k : Nat} {s : Session} (oi : Nat) (iid : String)
    (c : Nat) (f : String → String) (hf : FrontInputs k s) :
    PrefixKept k s (snapshotTextStep s oi iid c f) := by
  unfold snapshotTextStep
  split
  · rename_i s1 heq
    have hmo := mo_ensureSnapshotOutputItem s oi .message (some iid)
    rw [heq] at hmo
    exact prefixKeptOfEq hmo.1
  · rename_i item s1 heq
    have hmo := mo_ensureSnapshotOutputItem s oi .message (some iid)
    rw [heq] at hmo
    have h1 : PrefixKept k s s1 := prefixKeptOfEq hmo.1
    split
    · split
      · refine prefixKeptComp h1 (prefixKeptComp
          (pk_ensureOutputItemPresence oi .message (some iid) (front_of_pk hf h1)) ?_)
        exact prefixKeptOfEq (mo_setSnapshotOutputRaw _ oi _).1
      · exact prefixKeptComp h1
          (pk_ensureOutputItemPresence oi .message (some iid) (front_of_pk hf h1))
    · exact h1

theorem pk_snapshotFnArgsStep {k : Nat} {s : Session} (oi : Nat) (iid : String)
    (f : String → String) (hf : FrontInputs k s) :
    PrefixKept k s (snapshotFnArgsStep s oi iid f) := by
  unfold snapshotFnArgsStep
  split
  · rename_i s1 heq
    have hmo := mo_ensureSnapshotOutputItem s oi .functionCall (some iid)
    rw [heq] at hmo
    exact prefixKeptOfEq hmo.1
  · rename_i item s1 heq
    have hmo := mo_ensureSnapshotOutputItem s oi .functionCall (some iid)
    rw [heq] at hmo
    have h1 : PrefixKept k s s1 := prefixKeptOfEq hmo.1
    split
    · split
      · refine prefixKeptComp h1 (prefixKeptComp
          (pk_ensureOutputItemPresence oi .functionCall (some iid) (front_of_pk hf h1)) ?_)
        exact prefixKeptOfEq (mo_setSnapshotOutputRaw _ oi _).1
      · exact prefixKeptComp h1
          (pk_ensureOutputItemPresence oi .functionCall (some iid) (front_of_pk hf h1))
    · exact h1

theorem pk_messageTextStep {k : Nat} {s : Session} (iid : String) (oi c : Nat)
    (f : String → String) (ev : Event) (hf : FrontInputs k s) :
    PrefixKept k s (messageTextStep s iid oi c f ev) := by
  unfold messageTextStep
  simp only []
  split
  · rename_i s1 heq
    rcases hfind : findOutputEntryIdx s (some iid) (some oi) with _ | k0
    · rw [hfind] at heq
      simp only [] at heq
      have h1 := pk_ensureOutputItemPresence oi .message (some iid) hf
      rw [heq] at h1
      exact h1
    · rw [hfind] at heq
      simp only [] at heq
      injection heq with ha hb
      cases ha
  · rename_i j s1 heq
    rcases hfind : findOutputEntryIdx s (some iid) (some oi) with _ | k0
    · rw [hfind] at heq
      simp only [] at heq
      have h1 := pk_ensureOutputItemPresence oi .message (some iid) hf
      rw [heq] at h1
      have h1x : PrefixKept k s s1 := h1
      have hf1 := front_of_pk hf h1x
      split
      · rename_i mid mst content oi2 evs hget
        have h2 : PrefixKept k s1 { s1 with messages := lset s1.messages j (Message.output (.message mid mst (applyMessageText content c f)) oi2 evs) } :=
          pk_of_lset _ rfl (frontInputs_output_ge hf1 (.message mid mst content) oi2 evs hget)
        refine prefixKeptComp h1x (prefixKeptComp h2 ?_)
        exact pk_pushEventAt j ev (front_of_pk hf1 h2)
      · exact h1x
    · rw [hfind] at heq
      simp only [] at heq
      injection heq with ha hb
      subst hb
      split
      · rename_i mid mst content oi2 evs hget
        have h2 : PrefixKept k s { s with messages := lset s.messages j (Message.output (.message mid mst (applyMessageText content c f)) oi2 evs) } :=
          pk_of_lset _ rfl (frontInputs_output_ge hf (.message mid mst content) oi2 evs hget)
        exact prefixKeptComp h2 (pk_pushEventAt j ev (front_of_pk hf h2))
      · exact prefixKeptRfl k s

theorem pk_messageFnArgsStep {k : Nat} {s : Session} (iid : String) (oi : Nat)
    (f : String → String) (ev : Event) (hf : FrontInputs k s) :
    PrefixKept k s (messageFnArgsStep s iid oi f ev) := by
  unfold messageFnArgsStep
  simp only []
  split
  · rename_i s1 heq
    rcases hfind : findOutputEntryIdx s (some iid) (some oi) with _ | k0
    · rw [hfind] at heq
      simp only [] at heq
      have h1 := pk_ensureOutputItemPresence oi .functionCall (some iid) hf
      rw [heq] at h1
      exact h1
    · rw [hfind] at heq
      simp only [] at heq
      injection heq with ha hb
      cases ha
  · rename_i j s1 heq
    rcases hfind : findOutputEntryIdx s (some iid) (some oi) with _ | k0
    · rw [hfind] at heq
      simp only [] at heq
      have h1 := pk_ensureOutputItemPresence oi .functionCall (some iid) hf
      rw [heq] at h1
      have h1x : PrefixKept k s s1 := h1
      have hf1 := front_of_pk hf h1x
      split
      · rename_i fid cid nm args st2 oi2 evs hget
        have h2 : PrefixKept k s1 { s1 with messages := lset s1.messages j (Message.output (.functionCall fid cid nm (f args) st2) oi2 evs) } :=
          pk_of_lset _ rfl (frontInputs_output_ge hf1 (.functionCall fid cid nm args st2) oi2 evs hget)
        refine prefixKeptComp h1x (prefixKeptComp h2 ?_)
        exact pk_pushEventAt j ev (front_of_pk hf1 h2)
      · exact h1x
    · rw [hfind] at heq
      simp only [] at heq
      injection heq with ha hb
      subst hb
      split
      · rename_i fid cid nm args st2 oi2 evs hget
        have h2 : PrefixKept k s { s with messages := lset s.messages j (Message.output (.functionCall fid cid nm (f args) st2) oi2 evs) } :=
          pk_of_lset _ rfl (frontInputs_output_ge hf (.functionCall fid cid nm args st2) oi2 evs hget)
        exact prefixKeptComp h2 (pk_pushEventAt j ev (front_of_pk hf h2))
      · exact prefixKeptRfl k s

theorem pk_mutateSnapshot {k : Nat} {s : Session} (ev : Event)
    (hf : FrontInputs k s) : PrefixKept k s (mutateSnapshot ev s) := by
  cases ev with
  | lifecycle kind r =>
    show PrefixKept k s (syncOutputsFromSnapshot _)
    have h0 : PrefixKept k s { (if kind = LifecycleKind.created ∨ (¬ r.id = "" ∧ ¬ s.currentResponseId = some r.id) then resetCurrentResponseOutputs s else s) with
        currentResponseId := some r.id, responseSnapshot := some r,
        status := r.status.getD .idle, ended := kind.ends } := by
      refine prefixKeptOfEq ?_
      split
      · rfl
      · rfl
    exact prefixKeptComp h0 (pk_syncOutputsFromSnapshot (front_of_pk hf h0))
  | outputItemAdded oi item => exact prefixKeptOfEq (mo_setSnapshotOutput s oi item).1
  | outputItemDone oi item => exact prefixKeptOfEq (mo_setSnapshotOutput s oi item).1
  | outputTextDelta iid oi c d => exact pk_snapshotTextStep oi iid c _ hf
  | outputTextDone iid oi c txt => exact pk_snapshotTextStep oi iid c _ hf
  | functionCallArgsDelta iid oi d => exact pk_snapshotFnArgsStep oi iid _ hf
  | functionCallArgsDone iid oi args => exact pk_snapshotFnArgsStep oi iid _ hf
  | queued r => exact prefixKeptRfl k s
  | mcpCallInProgress oi iid => exact prefixKeptRfl k s
  | errorEvent e => exact prefixKeptRfl k s
  | otherEvent oi iid => exact prefixKeptRfl k s

theorem pk_applyToMessages {k : Nat} {s : Session} (ev : Event)
    (hf : FrontInputs k s) : PrefixKept k s (applyToMessages ev s) := by
  cases ev with
  | outputItemAdded oi item =>
    have h1 := pk_ensureOutputEntry item oi hf
    exact prefixKeptComp h1 (pk_pushEventAt _ _ (front_of_pk hf h1))
  | outputItemDone oi item =>
    have h1 := pk_ensureOutputEntry item oi hf
    have h2 := prefixKeptComp h1
      (pk_modifyEntryItem (ensureOutputEntry s item oi).1 (fun _ => item)
        (front_of_pk hf h1))
    exact prefixKeptComp h2
      (pk_pushEventAt (ensureOutputEntry s item oi).1 (.outputItemDone oi item)
        (front_of_pk hf h2))
  | outputTextDelta iid oi c d => exact pk_messageTextStep iid oi c _ _ hf
  | outputTextDone iid oi c txt => exact pk_messageTextStep iid oi c _ _ hf
  | functionCallArgsDelta iid oi d => exact pk_messageFnArgsStep iid oi _ _ hf
  | functionCallArgsDone iid oi args => exact pk_messageFnArgsStep iid oi _ _ hf
  | mcpCallInProgress oi iid =>
    have h1 := pk_ensureOutputItemPresence oi .mcpCall iid hf
    exact prefixKeptComp h1
      (pk_recordOutputEvent (some oi) iid _ (front_of_pk hf h1))
  | otherEvent oi iid =>
    show PrefixKept k s (match oi with
      | some o => recordOutputEvent s (some o) iid (.otherEvent oi iid)
      | none => s)
    rcases oi with _ | o
    · exact prefixKeptRfl k s
    · exact pk_recordOutputEvent (some o) iid _ hf
  | lifecycle kind r => exact prefixKeptRfl k s
  | queued r => exact prefixKeptRfl k s
  | errorEvent e => exact prefixKeptRfl k s

theorem pk_handleEvent {k : Nat} {s : Session} (ev : Event)
    (hf : FrontInputs k s) : PrefixKept k s (handleEvent ev s) := by
  have h1 : PrefixKept k s { s with eventEmits := s.eventEmits + 1 } :=
    prefixKeptOfEq rfl
  have h2 := pk_mutateSnapshot ev (front_of_pk hf h1)
  have h12 := prefixKeptComp h1 h2
  have h3 := pk_applyToMessages ev (front_of_pk hf h12)
  have h123 := prefixKeptComp h12 h3
  intro p hp
  have hm : (handleEvent ev s).messages =
      (applyToMessages ev (mutateSnapshot ev { s with eventEmits := s.eventEmits + 1 })).messages := by
    unfold handleEvent
    simp only []
    rw [(emitChange_maps _).2.2.1]
    split
    all_goals split
    all_goals rfl
  rw [hm]
  exact h123 p hp

theorem pk_addInput {k : Nat} {s : Session} (input : InputItem)
    (hf : FrontInputs k s) : PrefixKept k s (addInput s input) := by
  have hlen := frontInputs_le_length hf
  intro p hp
  have hm : (addInput s input).messages = s.messages ++ [Message.input input] := by
    unfold addInput
    simp only []
    rw [(emitChange_maps _).2.2.1, registerItemId_messages]
  rw [hm, lget_append_lt _ _ _ (by omega)]

theorem pk_foldActions {k : Nat} :
    ∀ (acts : List Action) (s : Session), FrontInputs k s →
      PrefixKept k s (acts.foldl stepAction s) := by
  intro acts
  induction acts with
  | nil => intro s _; exact prefixKeptRfl k s
  | cons a rest ih =>
    intro s hf
    have h1 : PrefixKept k s (stepAction s a) := by
      cases a with
      | add input => exact pk_addInput input hf
      | handle ev => exact pk_handleEvent ev hf
    exact prefixKeptComp h1 (ih _ (front_of_pk hf h1))

/-- **C8**: if the first `k` transcript positions hold input messages (the
state reached by adding `k` inputs before any output exists), then after any
further sequence of `addInput` calls and ingested events those positions are
untouched, they still hold input messages, and every output message sits at
a transcript position `≥ k` — i.e. strictly after all of those inputs. -/
theorem c8_input_prefix (k : Nat) (s : Session) (acts : List Action)
    (hf : FrontInputs k s) :
    PrefixKept k s (acts.foldl stepAction s) ∧
    FrontInputs k (acts.foldl stepAction s) ∧
    (∀ j it oi evs, lget (acts.foldl stepAction s).messages j =
      some (.output it oi evs) → k ≤ j) := by
  have hp := pk_foldActions acts s hf
  have hf2 := front_of_pk hf hp
  exact ⟨hp, hf2, fun j it oi evs hg => frontInputs_output_ge hf2 it oi evs hg⟩

/-- Witness for C8: a session with one input at position 0, then an output
event and another input; position 0 is untouched and the output sits after
it. -/
theorem c8_input_prefix_witness :
    FrontInputs 1 (runSession [inputA] none []) ∧
    (PrefixKept 1 (runSession [inputA] none [])
        (([.handle (.outputItemAdded 0 (sampleItem 0)), .add inputA] : List Action).foldl
          stepAction (runSession [inputA] none [])) ∧
      FrontInputs 1
        (([.handle (.outputItemAdded 0 (sampleItem 0)), .add inputA] : List Action).foldl
          stepAction (runSession [inputA] none [])) ∧
      (∀ j it oi evs,
        lget (([.handle (.outputItemAdded 0 (sampleItem 0)), .add inputA] : List Action).foldl
          stepAction (runSession [inputA] none [])).messages j =
          some (.output it oi evs) → 1 ≤ j)) :=
  ⟨fun p hp => by
      have h0 : p = 0 := by omega
      subst h0
      decide,
   c8_input_prefix 1 (runSession [inputA] none [])
     [.handle (.outputItemAdded 0 (sampleItem 0)), .add inputA]
     (fun p hp => by
       have h0 : p = 0 := by omega
       subst h0
       decide)⟩

/-- **C5**: ingesting an `error` event records the event as the session's
last error (returned by `getError`), marks the session ended, emits on the
dedicated error channel and emits the general change notification, all
within that single `handleEvent` call; the embedding is a total function,
so no exception is thrown. -/
theorem c5_error_event_recorded (s : Session) (e : ErrEvent) :
    getError (handleEvent (.errorEvent e) s) = some e ∧
    (handleEvent (.errorEvent e) s).ended = true ∧
    (handleEvent (.errorEvent e) s).errorEmits = s.errorEmits + 1 ∧
    (handleEvent (.errorEvent e) s).changeEmits = s.changeEmits + 1 := by
  have hev : handleEvent (.errorEvent e) s =
      emitChange { s with
        eventEmits := s.eventEmits + 1, lastError := some e, ended := true,
        errorEmits := s.errorEmits + 1 } := rfl
  rw [hev]
  unfold emitChange getError
  simp only []
  split
  · exact ⟨rfl, rfl, rfl, rfl⟩
  · exact ⟨rfl, rfl, rfl, rfl⟩

/-- **C10**: ingesting an `error` event leaves the session's status field
unchanged — `getStatus` returns the same value after the event as before it
(the error only sets the last-error record and the ended flag). -/
theorem c10_error_keeps_status (s : Session) (e : ErrEvent) :
    getStatus (handleEvent (.errorEvent e) s) = getStatus s := by
  have hev : handleEvent (.errorEvent e) s =
      emitChange { s with
        eventEmits := s.eventEmits + 1, lastError := some e, ended := true,
        errorEmits := s.errorEmits + 1 } := rfl
  rw [hev]
  unfold emitChange getStatus
  simp only []
  split
  · rfl
  · rfl

end ResponsesModel
